import Mathlib

/-!
# OpenMalaria transmission core: vector population model, transmission coordinator and
within-host infection tracker

A shallow embedding of

* `model/Transmission/Anopheles/SimpleMPDAnophelesModel.h`
* `model/Transmission/TransmissionModel.h`
* `model/WithinHost/DescriptiveWithinHost.cpp`

Conventions of the embedding.

* A C++ `double` is an exact rational (`ℚ`): rounding, NaN and the infinities are outside the
  model, and a division by zero has Lean's value `0`.
* A `SimTime` is a whole number of days (`Int`).
* An `int` or a `size_t` is an `Int` or a `Nat`: counters and times stay far from the limits of
  the machine types, and overflow is outside the model.
* A `vecDay<double>` or `vector<double>` is a `List ℚ`.  An access outside the vector, which
  C++ leaves undefined, ends the computation with `Error.outOfRange`, carrying the index and
  the size of the vector.
* A function that throws returns `Except Error`; the state after a throw is not modelled.
-/

set_option linter.unusedVariables false

namespace OM

/-- Ways in which a computation ends without a result.  The first three are the exception
classes thrown in the sources; `assertion` is a failed `assert`, and `outOfRange` an access
outside a vector. -/
inductive Error where
  | xml_scenario_error
  | SumWeight
  | WHFeatures
  | assertion
  | outOfRange (index : Int) (size : Nat)
  deriving DecidableEq

/-! ## Time and vectors -/

/-! The class `SimTime` (Global.h) is not among the sources.  A `SimTime` holds a whole number of
days (the buffers of the spec have "daily resolution"); it is an `Int` here, and the
constructors of the class are the constants and functions of the namespace `SimTime`. -/

/-- Modelled from the spec: `SimTime::zero()`. -/
def SimTime.zero : Int := 0

/-- Modelled from the spec: `SimTime::oneDay()`. -/
def SimTime.oneDay : Int := 1

/-- Modelled from the spec: `SimTime::oneYear()`, the period 365 of the one-year buffer. -/
def SimTime.oneYear : Int := 365

/-- Modelled from the spec: `SimTime::fromYearsI(y)`; five years are `5*365` days. -/
def SimTime.fromYearsI (y : Int) : Int := 365 * y

/-- Modelled from the spec: `SimTime::fromDays(d)`. -/
def SimTime.fromDays (d : Int) : Int := d

/-- Modelled from the spec: `util::mod_nn(a, b)` is not among the sources.  Every index is "taken
modulo the buffer's declared period"; `mod_nn` is the modulus for a non-negative `a`, the C++
remainder `a % b`, which truncates towards zero. -/
def mod_nn (a b : Int) : Int := Int.tmod a b

/-- Read `v[i]`. -/
def vecGet (v : List ℚ) (i : Int) : Except Error ℚ :=
  if h : 0 ≤ i ∧ i.toNat < v.length then .ok (v.get ⟨i.toNat, h.2⟩)
  else .error (.outOfRange i v.length)

/-- Write `v[i] = x`. -/
def vecSet (v : List ℚ) (i : Int) (x : ℚ) : Except Error (List ℚ) :=
  if 0 ≤ i ∧ i.toNat < v.length then .ok (v.set i.toNat x)
  else .error (.outOfRange i v.length)

/-- Modelled from the spec: `util::vectors::scale(vec, a)` is not among the sources; it
"uniformly rescales" a vector, multiplying every entry by `a`. -/
def vectors_scale (v : List ℚ) (a : ℚ) : List ℚ := v.map (fun x => x * a)

/-! ## SimpleMPDAnophelesModel -/

/-- The members of the base class `AnophelesModel` that `SimpleMPDAnophelesModel` reads.  The base
class is declared in AnophelesModel.h, which is not among the sources. -/
structure AnophelesModel where
  nhh_avail : ℚ
  nhh_sigma_df : ℚ
  nhh_sigma_dff : ℚ
  mosqSeekingDeathRate : ℚ
  mosqSeekingDuration : ℚ
  probMosqSurvivalOvipositing : ℚ
  mosqRestDuration : Int
  initNvFromSv : ℚ
  forcedS_v : List ℚ
  mosqEmergeRate : List ℚ

/-- The three values the constructor reads from its element `scnXml::SimpleMPD`. -/
structure SimpleMPD where
  developmentDuration : Int
  developmentSurvival : ℚ
  femaleEggsLaidByOviposit : ℚ

/-- State of a `SimpleMPDAnophelesModel`: the base-class part and its own six members. -/
structure SimpleMPDAnophelesModel where
  base : AnophelesModel
  developmentDuration : Int
  probPreadultSurvival : ℚ
  fEggsLaidByOviposit : ℚ
  quinquennialOvipositing : List ℚ
  invLarvalResources : List ℚ
  nOvipositingDelayed : List ℚ

namespace SimpleMPDAnophelesModel

/-- The constructor `SimpleMPDAnophelesModel(const scnXml::SimpleMPD& elt)`.  `base` is the
base-class part as its own constructor leaves it. -/
def new (base : AnophelesModel) (elt : SimpleMPD) : Except Error SimpleMPDAnophelesModel :=
  let quinquennialOvipositing := List.replicate (SimTime.fromYearsI 5).toNat (0 : ℚ)
  let invLarvalResources := List.replicate SimTime.oneYear.toNat (0 : ℚ)
  let developmentDuration := SimTime.fromDays elt.developmentDuration
  if ¬ (developmentDuration > SimTime.zero) then .error .xml_scenario_error
  else
    let probPreadultSurvival := elt.developmentSurvival
    if ¬ (0 ≤ probPreadultSurvival ∧ probPreadultSurvival ≤ 1) then .error .xml_scenario_error
    else
      let fEggsLaidByOviposit := elt.femaleEggsLaidByOviposit
      if ¬ (fEggsLaidByOviposit > 0) then .error .xml_scenario_error
      else
        .ok
          { base := base
            developmentDuration := developmentDuration
            probPreadultSurvival := probPreadultSurvival
            fEggsLaidByOviposit := fEggsLaidByOviposit
            quinquennialOvipositing := quinquennialOvipositing
            invLarvalResources := invLarvalResources
            nOvipositingDelayed := List.replicate developmentDuration.toNat (0 : ℚ) }

/-- The method `getEmergenceRate(d0, mosqEmergeRate, nOvipositing)`: the emergence of day `d0`
and the state it leaves. -/
def getEmergenceRate (m : SimpleMPDAnophelesModel) (d0 : Int) (mosqEmergeRate : List ℚ)
    (nOvipositing : ℚ) : Except Error (ℚ × SimpleMPDAnophelesModel) := do
  let d1 := d0 + SimTime.oneDay
  let delayed ← vecGet m.nOvipositingDelayed (mod_nn d1 m.developmentDuration)
  let yt := m.fEggsLaidByOviposit * delayed
  let res ← vecGet m.invLarvalResources (mod_nn d0 SimTime.oneYear)
  let emergence := m.probPreadultSurvival * yt / (1 + res * yt)
  let delayed1 ← vecSet m.nOvipositingDelayed (mod_nn d1 m.developmentDuration) nOvipositing
  let quinq1 ← vecSet m.quinquennialOvipositing (mod_nn d1 (SimTime.fromYearsI 5)) nOvipositing
  return (emergence, { m with nOvipositingDelayed := delayed1, quinquennialOvipositing := quinq1 })

/-- The days `0, 1, ..., n - 1` that `for (SimTime t = SimTime::zero(); t < n; t += SimTime::oneDay())`
visits, in order. -/
def daysBelow (n : Int) : List Int := (List.range n.toNat).map Int.ofNat

/-- Body of the first loop of `init2`, at day `t`: one write into `nOvipositingDelayed`. -/
def init2DelayedStep (b : AnophelesModel) (developmentDuration : Int) (tsP_dff : ℚ)
    (delayed : List ℚ) (t : Int) : Except Error (List ℚ) := do
  let s ← vecGet b.forcedS_v t
  vecSet delayed (mod_nn (t + b.mosqRestDuration) developmentDuration) (tsP_dff * b.initNvFromSv * s)

/-- Body of the second loop of `init2`, at day `t`: one write into `invLarvalResources`. -/
def init2ResourcesStep (b : AnophelesModel) (developmentDuration : Int)
    (probPreadultSurvival fEggsLaidByOviposit tsP_dff : ℚ)
    (res : List ℚ) (t : Int) : Except Error (List ℚ) := do
  let y1 := SimTime.oneYear
  let tau := b.mosqRestDuration
  let s ← vecGet b.forcedS_v (mod_nn (t + y1 - tau - developmentDuration) y1)
  let yt := fEggsLaidByOviposit * tsP_dff * b.initNvFromSv * s
  let e ← vecGet b.mosqEmergeRate t
  vecSet res t ((probPreadultSurvival * yt - e) / (e * yt))

/-- The method `init2(nHumans, meanPopAvail, sum_avail, sigma_f, sigma_df, sigma_dff)`.  The
function `exp` of the C library and the base-class method `AnophelesModel::init2` are
parameters. -/
def init2 (exp : ℚ → ℚ)
    (AnophelesModel_init2 : AnophelesModel → Int → ℚ → ℚ → ℚ → ℚ → ℚ → AnophelesModel)
    (m : SimpleMPDAnophelesModel) (nHumans : Int)
    (meanPopAvail sum_avail sigma_f sigma_df sigma_dff : ℚ) :
    Except Error SimpleMPDAnophelesModel := do
  let b := AnophelesModel_init2 m.base nHumans meanPopAvail sum_avail sigma_f sigma_df sigma_dff
  let leaveRate := sum_avail + b.nhh_avail + b.mosqSeekingDeathRate
  let sigma_df := sigma_df + b.nhh_sigma_df
  let sigma_dff := sigma_dff + b.nhh_sigma_dff
  let tsP_A := exp (-leaveRate * b.mosqSeekingDuration)
  let availDivisor := (1 - tsP_A) / leaveRate
  let tsP_dff := sigma_dff * availDivisor * b.probMosqSurvivalOvipositing
  let y1 := SimTime.oneYear
  let tau := b.mosqRestDuration
  let delayed ← (daysBelow m.developmentDuration).foldlM
    (init2DelayedStep b m.developmentDuration tsP_dff) m.nOvipositingDelayed
  if ¬ (tau + m.developmentDuration ≤ y1) then throw Error.assertion
  let res ← (daysBelow SimTime.oneYear).foldlM
    (init2ResourcesStep b m.developmentDuration m.probPreadultSurvival m.fEggsLaidByOviposit
      tsP_dff) m.invLarvalResources
  return { m with base := b, nOvipositingDelayed := delayed, invLarvalResources := res }

/-- The method `scale(factor)`.  The base-class method `AnophelesModel::scale` is a parameter. -/
def scale (AnophelesModel_scale : AnophelesModel → ℚ → AnophelesModel)
    (m : SimpleMPDAnophelesModel) (factor : ℚ) : SimpleMPDAnophelesModel :=
  { m with
    base := AnophelesModel_scale m.base factor
    nOvipositingDelayed := vectors_scale m.nOvipositingDelayed factor }

/-- Body of the loop of `initIterate`, at day `t`: five reads of `quinquennialOvipositing` and
one write into `invLarvalResources`. -/
def initIterateStep (m : SimpleMPDAnophelesModel) (res : List ℚ) (t : Int) :
    Except Error (List ℚ) := do
  let y1 := SimTime.oneYear
  let y2 := SimTime.fromYearsI 2
  let y3 := SimTime.fromYearsI 3
  let y4 := SimTime.fromYearsI 4
  let y5 := SimTime.fromYearsI 5
  let ttj := t - m.developmentDuration
  let q1 ← vecGet m.quinquennialOvipositing (ttj + y1)
  let q2 ← vecGet m.quinquennialOvipositing (ttj + y2)
  let q3 ← vecGet m.quinquennialOvipositing (ttj + y3)
  let q4 ← vecGet m.quinquennialOvipositing (ttj + y4)
  let q5 ← vecGet m.quinquennialOvipositing (mod_nn (ttj + y5) y5)
  let yt := m.fEggsLaidByOviposit * 0.2 * (q1 + q2 + q3 + q4 + q5)
  let e ← vecGet m.base.mosqEmergeRate t
  vecSet res t ((m.probPreadultSurvival * yt - e) / (e * yt))

/-- The method `initIterate()`: the flag `fitted` of the base class and the state left.  The
base-class method `AnophelesModel::initIterate` is a parameter. -/
def initIterate (AnophelesModel_initIterate : AnophelesModel → Bool × AnophelesModel)
    (m : SimpleMPDAnophelesModel) : Except Error (Bool × SimpleMPDAnophelesModel) := do
  let (fitted, b) := AnophelesModel_initIterate m.base
  let m := { m with base := b }
  if ¬ ((m.base.mosqEmergeRate.length : Int) = SimTime.oneYear) then throw Error.assertion
  let res ← (daysBelow SimTime.oneYear).foldlM (initIterateStep m) m.invLarvalResources
  return (fitted, { m with invLarvalResources := res })

/-- The buffer-length invariant: each ring buffer is as long as its period. -/
def BufferLengths (m : SimpleMPDAnophelesModel) : Prop :=
  (m.quinquennialOvipositing.length : Int) = SimTime.fromYearsI 5 ∧
  (m.invLarvalResources.length : Int) = SimTime.oneYear ∧
  (m.nOvipositingDelayed.length : Int) = m.developmentDuration

instance (m : SimpleMPDAnophelesModel) : Decidable (BufferLengths m) := by
  unfold BufferLengths; infer_instance

/-- A caller that asks for the emergence once per day, on the consecutive days `d0`, `d0 + 1`,
..., passing the observed oviposition counts `ns` in turn: the emergences returned and the
state left. -/
def emergenceRun (mosqEmergeRate : List ℚ) :
    SimpleMPDAnophelesModel → Int → List ℚ → Except Error (List ℚ × SimpleMPDAnophelesModel)
  | m, _, [] => .ok ([], m)
  | m, d0, n :: ns => do
    let (e, m1) ← m.getEmergenceRate d0 mosqEmergeRate n
    let (es, m2) ← emergenceRun mosqEmergeRate m1 (d0 + SimTime.oneDay) ns
    return (e :: es, m2)

end SimpleMPDAnophelesModel


/-! ## TransmissionModel -/

/-- Modelled from the spec: the constant `DBL_MIN` of `<cfloat>`, the smallest positive normal
`double`, `2^-1022`; ten times it is the threshold below which the summed availability is not
"meaningfully positive". -/
def DBL_MIN : ℚ := 1 / 2 ^ 1022

/-- Modelled from the spec: the simulation clock `sim` (Global.h) is not among the sources.  It is
"a global discrete day/time-step counter": `interval` is the length `SimTime::oneTS()` of a
time step in days, `stepsPerYear` is `sim::stepsPerYear()`, and `ts0` and `ts1` are the times
`sim::ts0()` and `sim::ts1()` of the start and of the end of the step being updated. -/
structure Sim where
  interval : Int
  stepsPerYear : Int
  ts0 : Int
  ts1 : Int

/-- Modelled from the spec: `t.moduloSteps(denominator)`, the number of whole time steps in `t`,
modulo `denominator` ("now mod len"). -/
def Sim.moduloSteps (sim : Sim) (t : Int) (denominator : Int) : Int :=
  mod_nn (Int.tdiv t sim.interval) denominator

/-- Modelled from the spec: `t.moduloYearSteps()`, the index of the time step of `t` within its
year. -/
def Sim.moduloYearSteps (sim : Sim) (t : Int) : Int :=
  mod_nn (Int.tdiv t sim.interval) sim.stepsPerYear

/-- Modelled from the spec: the clock during the update of the time step number `k` (counted
from 0) of a run of consecutive time steps: the step starts at day `k * interval` and ends at
day `(k + 1) * interval`. -/
def Sim.atStep (interval stepsPerYear : Int) (k : Nat) : Sim :=
  { interval := interval
    stepsPerYear := stepsPerYear
    ts0 := k * interval
    ts1 := (k + 1) * interval }

/-- The values of `enum SimulationMode`. -/
inductive SimulationMode where
  | preInit
  | forcedEIR
  | transientEIRknown
  | dynamicEIR
  deriving DecidableEq

/-- What `updateKappa` asks of one human of the population: `avail` is the value of
`human.perHostTransmission.relativeAvailabilityHetAge(human.age(sim::ts1()).inYears())` and
`pTransmit` the value of `human.withinHostModel->probTransmissionToMosquito(tbvFactor, 0)`. -/
structure Human where
  avail : ℚ
  pTransmit : ℚ

/-- The data members of `TransmissionModel`. -/
structure TransmissionModel where
  simulationMode : SimulationMode
  interventionMode : SimulationMode
  initialisationEIR : List ℚ
  laggedKappa : List ℚ
  annualEIR : ℚ
  _annualAverageKappa : ℚ
  _sumAnnualKappa : ℚ
  tsAdultEIR : ℚ
  surveyInputEIR : ℚ
  surveySimulatedEIR : ℚ
  lastSurveyTime : Int
  adultAge : Int
  numTransmittingHumans : Int
  tsAdultEntoInocs : ℚ
  tsNumAdults : Int

/-- The three accumulators of the loop of `updateKappa` over the humans. -/
structure KappaSums where
  sumWt_kappa : ℚ
  sumWeight : ℚ
  numTransmittingHumans : Int

namespace TransmissionModel

/-- Body of the loop of `updateKappa`, for one human. -/
def kappaStep (acc : KappaSums) (human : Human) : KappaSums :=
  let avail := human.avail
  let sumWeight := acc.sumWeight + avail
  let pTransmit := human.pTransmit
  let riskTrans := avail * pTransmit
  let sumWt_kappa := acc.sumWt_kappa + riskTrans
  { sumWt_kappa := sumWt_kappa
    sumWeight := sumWeight
    numTransmittingHumans :=
      if riskTrans > 0 then acc.numTransmittingHumans + 1 else acc.numTransmittingHumans }

/-- The method `updateKappa(population)`: the kappa of the step and the state left.  The
population is the list of its humans, `population.size()` the length of the list. -/
def updateKappa (sim : Sim) (s : TransmissionModel) (population : List Human) :
    Except Error (ℚ × TransmissionModel) := do
  let sums := population.foldl kappaStep
    { sumWt_kappa := 0, sumWeight := 0, numTransmittingHumans := 0 }
  let lKMod := sim.moduloSteps sim.ts1 s.laggedKappa.length
  let laggedKappa ←
    if population.length = 0 then vecSet s.laggedKappa lKMod 0
    else if ¬ (sums.sumWeight > DBL_MIN * 10) then throw Error.SumWeight
    else vecSet s.laggedKappa lKMod (sums.sumWt_kappa / sums.sumWeight)
  let tmod := sim.moduloYearSteps sim.ts0
  let kappa ← vecGet laggedKappa lKMod
  let eir ← vecGet s.initialisationEIR tmod
  let sumAnnualKappa := s._sumAnnualKappa + kappa * eir
  let annualAverageKappa :=
    if tmod = sim.stepsPerYear - 1 then sumAnnualKappa / s.annualEIR else s._annualAverageKappa
  let sumAnnualKappa := if tmod = sim.stepsPerYear - 1 then 0 else sumAnnualKappa
  let tsAdultEIR := s.tsAdultEntoInocs / (s.tsNumAdults : ℚ)
  return (kappa,
    { s with
      numTransmittingHumans := sums.numTransmittingHumans
      laggedKappa := laggedKappa
      _annualAverageKappa := annualAverageKappa
      _sumAnnualKappa := sumAnnualKappa
      tsAdultEIR := tsAdultEIR
      tsAdultEntoInocs := 0
      tsNumAdults := 0
      surveyInputEIR := s.surveyInputEIR + eir
      surveySimulatedEIR := s.surveySimulatedEIR + tsAdultEIR })

/-- What `updateKappa` needs of the clock and of the coordinator: a positive step length and
number of steps per year, non-negative times, a non-empty `laggedKappa`, and as many entries
in `initialisationEIR` as there are steps in a year (the constructor assigns that many). -/
def WellFormed (sim : Sim) (s : TransmissionModel) : Prop :=
  0 < sim.interval ∧ 0 < sim.stepsPerYear ∧ 0 ≤ sim.ts0 ∧ 0 ≤ sim.ts1 ∧
  0 < s.laggedKappa.length ∧ (s.initialisationEIR.length : Int) = sim.stepsPerYear

instance (sim : Sim) (s : TransmissionModel) : Decidable (WellFormed sim s) := by
  unfold WellFormed; infer_instance

/-- The state that `updateKappa` leaves when it stores the kappa `x`. -/
def afterKappa (sim : Sim) (s : TransmissionModel) (population : List Human)
    (x : ℚ) : TransmissionModel :=
  { s with
    numTransmittingHumans := (population.foldl TransmissionModel.kappaStep
      { sumWt_kappa := 0, sumWeight := 0, numTransmittingHumans := 0 }).numTransmittingHumans
    laggedKappa := s.laggedKappa.set
      ((sim.ts1 / sim.interval) % (s.laggedKappa.length : Int)).toNat x
    _annualAverageKappa :=
      if (sim.ts0 / sim.interval) % sim.stepsPerYear = sim.stepsPerYear - 1 then
        (s._sumAnnualKappa + x * s.initialisationEIR.getD
          ((sim.ts0 / sim.interval) % sim.stepsPerYear).toNat 0) / s.annualEIR
      else s._annualAverageKappa
    _sumAnnualKappa :=
      if (sim.ts0 / sim.interval) % sim.stepsPerYear = sim.stepsPerYear - 1 then 0
      else s._sumAnnualKappa + x * s.initialisationEIR.getD
        ((sim.ts0 / sim.interval) % sim.stepsPerYear).toNat 0
    tsAdultEIR := s.tsAdultEntoInocs / (s.tsNumAdults : ℚ)
    tsAdultEntoInocs := 0
    tsNumAdults := 0
    surveyInputEIR := s.surveyInputEIR + s.initialisationEIR.getD
      ((sim.ts0 / sim.interval) % sim.stepsPerYear).toNat 0
    surveySimulatedEIR := s.surveySimulatedEIR + s.tsAdultEntoInocs / (s.tsNumAdults : ℚ) }

end TransmissionModel

/-- A coordinator with an incubation buffer of three steps and 73 steps per year, whose forced
EIR is 2 on every step and whose annual EIR is 146. -/
def exampleCoordinator : TransmissionModel :=
  { simulationMode := .forcedEIR
    interventionMode := .dynamicEIR
    initialisationEIR := List.replicate 73 2
    laggedKappa := [1 / 4, 1 / 5, 1 / 8]
    annualEIR := 146
    _annualAverageKappa := 1 / 10
    _sumAnnualKappa := 3
    tsAdultEIR := 0
    surveyInputEIR := 0
    surveySimulatedEIR := 0
    lastSurveyTime := 0
    adultAge := 7300
    numTransmittingHumans := 0
    tsAdultEntoInocs := 4
    tsNumAdults := 2 }

/-- A population of three humans, the last of them not infectious. -/
def examplePopulation : List Human :=
  [⟨1, 1 / 2⟩, ⟨2, 1 / 4⟩, ⟨1, 0⟩]

/-! ## TransmissionModel: readMode and getEIR -/

/-- The function `readMode(str)`. -/
def readMode (str : String) : Except Error SimulationMode :=
  if str = "forced" then .ok SimulationMode.forcedEIR
  else if str = "dynamic" then .ok SimulationMode.dynamicEIR
  else .error .xml_scenario_error

namespace TransmissionModel

/-- The method `getEIR(human, age, ageYears, EIR)`: the value returned and the state left.  The
pure virtual `calculateEIR` is the parameter of that name: it is `const`, so it leaves the
coordinator alone, and it fills the out-vector `EIR` or throws.  `util::streamValidate` checks
nothing outside validation builds.  What the strategy does to the human is outside the
coordinator and is not modelled. -/
def getEIR (calculateEIR : TransmissionModel → Human → ℚ → Except Error (List ℚ))
    (s : TransmissionModel) (human : Human) (age : Int) (ageYears : ℚ) :
    Except Error (ℚ × TransmissionModel) := do
  let EIR ← calculateEIR s human ageYears
  let allEIR := EIR.sum
  if age ≥ s.adultAge then
    return (allEIR,
      { s with
        tsAdultEntoInocs := s.tsAdultEntoInocs + allEIR
        tsNumAdults := s.tsNumAdults + 1 })
  else
    return (allEIR, s)

/-- Modelled from the spec: `calculateEIR` is pure virtual in `TransmissionModel` and none of its
implementations is among the sources.  `getEIR` "delegates to the active mode's
EIR-calculation strategy", and "requesting EIR while still in PreInit is a programming-contract
violation (fatal)": in mode `preInit` the strategy ends with a failed contract check, in every
other mode it yields the per-genotype vector of the mode's strategy, the parameter
`strategy`. -/
def calculateEIR (strategy : SimulationMode → Human → ℚ → List ℚ)
    (s : TransmissionModel) (human : Human) (ageYears : ℚ) : Except Error (List ℚ) :=
  if s.simulationMode = SimulationMode.preInit then .error .assertion
  else .ok (strategy s.simulationMode human ageYears)

end TransmissionModel

/-! ## DescriptiveWithinHostModel -/

/-- Modelled from the spec: the constant `MAX_INFECTIONS` is declared outside the sources; the
spec gives `MAX_INFECTIONS = 21`. -/
def MAX_INFECTIONS : Int := 21

/-- Modelled from the spec: `Treatments::Stages` is declared outside the sources; the spec has
`stage ∈ {liver, blood, both}`. -/
inductive Stages where
  | LIVER
  | BLOOD
  | BOTH
  deriving DecidableEq

/-- Modelled from the spec: the class `DescriptiveInfection` is not among the sources.  An
infection is "one parasite cohort within a host; attributes: density, stage ∈ {liver, blood},
an expiry condition evaluated each step".  The three fields are what `getDensity()`,
`bloodStage()` and `expired()` return at the time step of the call. -/
structure DescriptiveInfection where
  density : ℚ
  bloodStage : Bool
  expired : Bool
  deriving DecidableEq

/-- The two static counters of `PopulationStats` that the within-host model updates. -/
structure PopulationStats where
  totalInfections : Int
  allowedInfections : Int
  deriving DecidableEq

/-- The three members that hold the immune status of the host. -/
structure ImmuneStatus where
  _cumulativeh : ℚ
  _cumulativeY : ℚ
  _cumulativeYlag : ℚ

/-- What the within-host model uses and the sources do not hold: the clock
(`TimeStep::simulation.asInt()`, `TimeStep::interval`), the static `_ylagLen`, the flag
`bugfix_max_dens`, the infection that `new DescriptiveInfection()` builds at this time step,
the base-class method `updateImmuneStatus`, which acts on the immune status of the host, and
the methods `determineDensities` and `clearImmunity` of an infection.  `determineDensities`
takes the infection and the six arguments of the call, and gives the infection it leaves and
the value it leaves in the reference argument `infStepMaxDens`. -/
structure WithinHostEnv where
  simulation : Int
  interval : Int
  _ylagLen : Int
  bugfix_max_dens : Bool
  createInfection : DescriptiveInfection
  updateImmuneStatus : ImmuneStatus → ImmuneStatus
  determineDensities :
    DescriptiveInfection → ℚ → ℚ → ℚ → ℚ → ℚ → ℚ → DescriptiveInfection × ℚ
  clearImmunity : DescriptiveInfection → DescriptiveInfection

/-- The data members of `DescriptiveWithinHostModel` that its methods read or write: those it
inherits (`numInfs`, the immune status, `_ylag`, the densities, the two treatment expiry
times) and its own list of infections, in arrival order. -/
structure DescriptiveWithinHostModel where
  numInfs : Int
  _cumulativeh : ℚ
  _cumulativeY : ℚ
  _cumulativeYlag : ℚ
  _innateImmSurvFact : ℚ
  _ylag : List ℚ
  totalDensity : ℚ
  timeStepMaxDensity : ℚ
  treatExpiryLiver : Int
  treatExpiryBlood : Int
  infections : List DescriptiveInfection

/-- The variables that the loop of `update` over the infections changes. -/
structure DensityPass where
  infections : List DescriptiveInfection
  numInfs : Int
  totalDensity : ℚ
  timeStepMaxDensity : ℚ
  _cumulativeY : ℚ

namespace DescriptiveWithinHostModel

/-- The test of the loop of `clearInfections`: is the infection erased? -/
def clearTest (stage : Stages) (inf : DescriptiveInfection) : Bool :=
  stage = Stages.BOTH ||
    (stage = Stages.LIVER && !inf.bloodStage) ||
    (stage = Stages.BLOOD && inf.bloodStage)

/-- The loop of `clearInfections` over the list: an infection that passes the test is erased,
the iterator moves on past any other. -/
def clearInfectionsLoop (stage : Stages) : List DescriptiveInfection → List DescriptiveInfection
  | [] => []
  | inf :: rest =>
    if clearTest stage inf then clearInfectionsLoop stage rest
    else inf :: clearInfectionsLoop stage rest

/-- The method `clearInfections(stage)`. -/
def clearInfections (s : DescriptiveWithinHostModel) (stage : Stages) :
    DescriptiveWithinHostModel :=
  let infections := clearInfectionsLoop stage s.infections
  { s with infections := infections, numInfs := infections.length }

/-- The method `clearImmunity()`. -/
def clearImmunity (env : WithinHostEnv) (s : DescriptiveWithinHostModel) :
    DescriptiveWithinHostModel :=
  { s with
    infections := s.infections.map env.clearImmunity
    _cumulativeh := 0
    _cumulativeYlag := 0 }

/-- The method `importInfection()`, with the counters of `PopulationStats` it updates. -/
def importInfection (env : WithinHostEnv) (stats : PopulationStats)
    (s : DescriptiveWithinHostModel) :
    Except Error (PopulationStats × DescriptiveWithinHostModel) := do
  let stats := { stats with totalInfections := stats.totalInfections + 1 }
  let (stats, s) :=
    if s.numInfs < MAX_INFECTIONS then
      ({ stats with allowedInfections := stats.allowedInfections + 1 },
        { s with
          _cumulativeh := s._cumulativeh + 1
          numInfs := s.numInfs + 1
          infections := s.infections ++ [env.createInfection] })
    else (stats, s)
  if ¬ (s.numInfs = (s.infections.length : Int)) then throw Error.assertion
  return (stats, s)

/-- First part of `update`, up to the second `assert`: the history slot of the current step is
written, the counters are raised, and the new infections are appended.  The number of
infections created is returned with the state. -/
def updateAdd (env : WithinHostEnv) (stats : PopulationStats) (s : DescriptiveWithinHostModel)
    (nNewInfs : Int) : Except Error (PopulationStats × DescriptiveWithinHostModel × Int) := do
  let ylag ← vecSet s._ylag (mod_nn env.simulation env._ylagLen) s.totalDensity
  let stats := { stats with totalInfections := stats.totalInfections + nNewInfs }
  let nNewInfs := min nNewInfs (MAX_INFECTIONS - s.numInfs)
  let stats := { stats with allowedInfections := stats.allowedInfections + nNewInfs }
  let numInfs := s.numInfs + nNewInfs
  if ¬ (numInfs ≥ 0 ∧ numInfs ≤ MAX_INFECTIONS) then throw Error.assertion
  let infections := s.infections ++ List.replicate nNewInfs.toNat env.createInfection
  if ¬ (numInfs = (infections.length : Int)) then throw Error.assertion
  return (stats, { s with _ylag := ylag, numInfs := numInfs, infections := infections },
    nNewInfs)

/-- The test of the loop of `update`: is the infection erased? -/
def removalTest (treatmentLiver treatmentBlood : Bool) (inf : DescriptiveInfection) : Bool :=
  inf.expired || (if inf.bloodStage then treatmentBlood else treatmentLiver)

/-- Body of the loop of `update`, for one infection. -/
def updateStep (env : WithinHostEnv) (ageInYears cumulativeh cumulativeY innateImmSurvFact
    bsvFactor : ℚ) (treatmentLiver treatmentBlood : Bool)
    (acc : DensityPass) (inf : DescriptiveInfection) : DensityPass :=
  if removalTest treatmentLiver treatmentBlood inf then
    { acc with numInfs := acc.numInfs - 1 }
  else
    let infStepMaxDens := acc.timeStepMaxDensity
    let r := env.determineDensities inf ageInYears cumulativeh cumulativeY infStepMaxDens
      innateImmSurvFact bsvFactor
    let infStepMaxDens :=
      if env.bugfix_max_dens then max r.2 acc.timeStepMaxDensity else r.2
    let density := r.1.density
    { infections := acc.infections ++ [r.1]
      numInfs := acc.numInfs
      totalDensity := acc.totalDensity + density
      timeStepMaxDensity := infStepMaxDens
      _cumulativeY := acc._cumulativeY + (env.interval : ℚ) * density }

/-- Second part of `update`, from the call of `updateImmuneStatus` to the end: the pass over the
infections.  `nNewInfs` is the number of infections created in the first part.  The total
density is a rational, so the last `assert`, that it is finite, holds. -/
def updatePass (env : WithinHostEnv) (s : DescriptiveWithinHostModel) (nNewInfs : Int)
    (ageInYears bsvFactor : ℚ) : DescriptiveWithinHostModel :=
  let imm := env.updateImmuneStatus
    { _cumulativeh := s._cumulativeh, _cumulativeY := s._cumulativeY,
      _cumulativeYlag := s._cumulativeYlag }
  let cumulativeh := imm._cumulativeh
  let cumulativeY := imm._cumulativeY
  let treatmentLiver := decide (s.treatExpiryLiver ≥ env.simulation)
  let treatmentBlood := decide (s.treatExpiryBlood ≥ env.simulation)
  let pass := s.infections.foldl
    (updateStep env ageInYears cumulativeh cumulativeY s._innateImmSurvFact bsvFactor
      treatmentLiver treatmentBlood)
    { infections := [], numInfs := s.numInfs, totalDensity := 0, timeStepMaxDensity := 0,
      _cumulativeY := imm._cumulativeY }
  { s with
    _cumulativeh := imm._cumulativeh + (nNewInfs : ℚ)
    _cumulativeY := pass._cumulativeY
    _cumulativeYlag := imm._cumulativeYlag
    infections := pass.infections
    numInfs := pass.numInfs
    totalDensity := pass.totalDensity
    timeStepMaxDensity := pass.timeStepMaxDensity }

/-- The method `update(nNewInfs, ageInYears, bsvFactor)`, with the counters of `PopulationStats`
it updates. -/
def update (env : WithinHostEnv) (stats : PopulationStats) (s : DescriptiveWithinHostModel)
    (nNewInfs : Int) (ageInYears bsvFactor : ℚ) :
    Except Error (PopulationStats × DescriptiveWithinHostModel) := do
  let (stats, s, nNewInfs) ← updateAdd env stats s nNewInfs
  return (stats, updatePass env s nNewInfs ageInYears bsvFactor)

/-- The method `addProphylacticEffects(pClearanceByTime)`. -/
def addProphylacticEffects (s : DescriptiveWithinHostModel) (pClearanceByTime : List ℚ) :
    Except Error DescriptiveWithinHostModel :=
  .error .xml_scenario_error

/-- The method `treatPkPd(schedule, dosages)`. -/
def treatPkPd (s : DescriptiveWithinHostModel) (schedule dosages : Nat) :
    Except Error DescriptiveWithinHostModel :=
  .error .WHFeatures

/-- The count invariant: `numInfs` is the size of the collection, and lies in
`[0, MAX_INFECTIONS]`. -/
def CountInvariant (s : DescriptiveWithinHostModel) : Prop :=
  s.numInfs = (s.infections.length : Int) ∧ 0 ≤ s.numInfs ∧ s.numInfs ≤ MAX_INFECTIONS

instance (s : DescriptiveWithinHostModel) : Decidable (CountInvariant s) := by
  unfold CountInvariant; infer_instance

/-- What `update` needs of the history buffer and of the clock: a non-negative time step and as
many slots in `_ylag` as `_ylagLen` says, at least one. -/
def HistoryWellFormed (env : WithinHostEnv) (s : DescriptiveWithinHostModel) : Prop :=
  0 ≤ env.simulation ∧ 0 < env._ylagLen ∧ (s._ylag.length : Int) = env._ylagLen

instance (env : WithinHostEnv) (s : DescriptiveWithinHostModel) :
    Decidable (HistoryWellFormed env s) := by
  unfold HistoryWellFormed; infer_instance

end DescriptiveWithinHostModel

/-! ## Concrete states -/

/-- A base-class part with annual vectors of 365 entries and a rest duration of 3 days. -/
def exampleBase : AnophelesModel :=
  { nhh_avail := 0
    nhh_sigma_df := 0
    nhh_sigma_dff := 0
    mosqSeekingDeathRate := 1
    mosqSeekingDuration := 1
    probMosqSurvivalOvipositing := 1
    mosqRestDuration := 3
    initNvFromSv := 1
    forcedS_v := List.replicate 365 1
    mosqEmergeRate := List.replicate 365 1 }

/-- A model with a development duration of two days, whose delay line holds 4 and 7. -/
def exampleModel : SimpleMPDAnophelesModel :=
  { base := exampleBase
    developmentDuration := 2
    probPreadultSurvival := 1 / 2
    fEggsLaidByOviposit := 3
    quinquennialOvipositing := List.replicate 1825 0
    invLarvalResources := List.replicate 365 0
    nOvipositingDelayed := [4, 7] }

/-- A valid configuration element: two days of development, survival `1/2`, three eggs. -/
def exampleElt : SimpleMPD :=
  { developmentDuration := 2
    developmentSurvival := 1 / 2
    femaleEggsLaidByOviposit := 3 }

/-- A population of two humans, neither of them available to mosquitoes. -/
def unavailablePopulation : List Human :=
  [⟨0, 1 / 2⟩, ⟨0, 1⟩]

/-- A clock at time step 7 with steps of five days, a history of four slots, and infections
whose density rises by one at each call of `determineDensities`. -/
def exampleEnv : WithinHostEnv :=
  { simulation := 7
    interval := 5
    _ylagLen := 4
    bugfix_max_dens := true
    createInfection := { density := 0, bloodStage := false, expired := false }
    updateImmuneStatus := fun imm => imm
    determineDensities := fun inf _ _ _ m _ _ =>
      ({ inf with density := inf.density + 1 }, max m (inf.density + 1))
    clearImmunity := fun inf => inf }

/-- The counters of a population with 100 infections requested so far, 90 of them allowed. -/
def exampleStats : PopulationStats :=
  { totalInfections := 100
    allowedInfections := 90 }

/-- A tracker that holds 20 blood-stage infections of density 2, with no treatment active at
time step 7 and a total density of 7 left by the step before. -/
def fullTracker : DescriptiveWithinHostModel :=
  { numInfs := 20
    _cumulativeh := 20
    _cumulativeY := 10
    _cumulativeYlag := 10
    _innateImmSurvFact := 1
    _ylag := [1, 2, 3, 4]
    totalDensity := 7
    timeStepMaxDensity := 2
    treatExpiryLiver := 0
    treatExpiryBlood := 0
    infections := List.replicate 20 { density := 2, bloodStage := true, expired := false } }

/-- A tracker that holds three liver-stage and two blood-stage infections, with a blood-stage
treatment active until time step 9, and a total density of 7 left by the step before. -/
def mixedTracker : DescriptiveWithinHostModel :=
  { numInfs := 5
    _cumulativeh := 5
    _cumulativeY := 10
    _cumulativeYlag := 10
    _innateImmSurvFact := 1
    _ylag := [1, 2, 3, 4]
    totalDensity := 7
    timeStepMaxDensity := 2
    treatExpiryLiver := 0
    treatExpiryBlood := 9
    infections :=
      [{ density := 1, bloodStage := false, expired := false },
       { density := 2, bloodStage := true, expired := false },
       { density := 3, bloodStage := false, expired := false },
       { density := 4, bloodStage := true, expired := false },
       { density := 5, bloodStage := false, expired := false }] }

/-- A strategy that gives two genotypes the EIR `1/2` and `1/4`, whatever the mode. -/
def exampleStrategy : SimulationMode → Human → ℚ → List ℚ :=
  fun _ _ _ => [1 / 2, 1 / 4]

/-- A coordinator that is still in mode `preInit`. -/
def preInitCoordinator : TransmissionModel :=
  { exampleCoordinator with simulationMode := SimulationMode.preInit }

namespace TransmissionModel

end TransmissionModel

/-- A model whose five-year record holds 3 ovipositing mosquitoes at day 0. -/
def recordedModel : SimpleMPDAnophelesModel :=
  { exampleModel with quinquennialOvipositing := 3 :: List.replicate 1824 0 }

/-- A model whose five-year record holds 2 ovipositing mosquitoes on every day. -/
def steadyModel : SimpleMPDAnophelesModel :=
  { exampleModel with quinquennialOvipositing := List.replicate 1825 2 }

/-- A model at equilibrium: every entry of the resource curve is `1/3` and the delay line holds
2 in the entry that the call of day 0 reads. -/
def equilibriumModel : SimpleMPDAnophelesModel :=
  { exampleModel with
    invLarvalResources := List.replicate 365 (1 / 3)
    nOvipositingDelayed := [4, 2] }

/-- Modelled from the spec: the streaming operators `&` of `util/checkpoint.h` are not among the
sources.  A checkpoint stream is "an ordered sequence of the numeric state", "written and read
in the same field order" by "symmetric read/write streaming operators".  One item of the
sequence is an `int`, as which a `SimTime` is written too, or a `double`. -/
inductive StreamItem where
  | int (i : Int)
  | double (x : ℚ)
  deriving DecidableEq

/-- Modelled from the spec: `x & stream` for an `int` and an output stream appends the item. -/
def writeInt (x : Int) (stream : List StreamItem) : List StreamItem :=
  stream ++ [StreamItem.int x]

/-- Modelled from the spec: `x & stream` for an `int` and an input stream takes the next item,
which has to be an `int`: the value read and the rest of the stream, or `none` for a read
error. -/
def readInt : List StreamItem → Option (Int × List StreamItem)
  | StreamItem.int x :: stream => some (x, stream)
  | _ => none

/-- Modelled from the spec: `x & stream` for a `double` and an output stream appends the
item. -/
def writeDouble (x : ℚ) (stream : List StreamItem) : List StreamItem :=
  stream ++ [StreamItem.double x]

/-- Modelled from the spec: `x & stream` for a `double` and an input stream takes the next
item, which has to be a `double`. -/
def readDouble : List StreamItem → Option (ℚ × List StreamItem)
  | StreamItem.double x :: stream => some (x, stream)
  | _ => none

/-- Modelled from the spec: `x & stream` for a vector of `double` and an output stream appends
the number of entries and then the entries in order. -/
def writeVector (v : List ℚ) (stream : List StreamItem) : List StreamItem :=
  v.foldl (fun stream x => writeDouble x stream) (writeInt v.length stream)

/-- Modelled from the spec: the entries of a vector of `n` entries, read in order. -/
def readDoubles : Nat → List StreamItem → Option (List ℚ × List StreamItem)
  | 0, stream => some ([], stream)
  | n + 1, stream => do
    let (x, stream) ← readDouble stream
    let (xs, stream) ← readDoubles n stream
    some (x :: xs, stream)

/-- Modelled from the spec: `x & stream` for a vector of `double` and an input stream takes the
number of entries, which must not be negative, and then that many entries; the vector read
replaces the one held. -/
def readVector (stream : List StreamItem) : Option (List ℚ × List StreamItem) := do
  let (n, stream) ← readInt stream
  if n < 0 then none else readDoubles n.toNat stream

/-- The `int` behind a value of `enum SimulationMode`: the enumerators count from 0. -/
def SimulationMode.toInt : SimulationMode → Int
  | SimulationMode.preInit => 0
  | SimulationMode.forcedEIR => 1
  | SimulationMode.transientEIRknown => 2
  | SimulationMode.dynamicEIR => 3

/-- The value of `enum SimulationMode` behind an `int`, for the four `int`s that have one. -/
def SimulationMode.ofInt (i : Int) : Option SimulationMode :=
  if i = 0 then some SimulationMode.preInit
  else if i = 1 then some SimulationMode.forcedEIR
  else if i = 2 then some SimulationMode.transientEIRknown
  else if i = 3 then some SimulationMode.dynamicEIR
  else none

namespace TransmissionModel

/-- The method `checkpoint(ostream& stream)`: the stream after the thirteen writes.  The two
modes are `int` members and are written as the `int` behind the mode. -/
def checkpoint_ostream (s : TransmissionModel) (stream : List StreamItem) : List StreamItem :=
  let stream := writeInt s.simulationMode.toInt stream
  let stream := writeInt s.interventionMode.toInt stream
  let stream := writeVector s.initialisationEIR stream
  let stream := writeVector s.laggedKappa stream
  let stream := writeDouble s.annualEIR stream
  let stream := writeDouble s._annualAverageKappa stream
  let stream := writeDouble s._sumAnnualKappa stream
  let stream := writeDouble s.tsAdultEIR stream
  let stream := writeDouble s.surveyInputEIR stream
  let stream := writeDouble s.surveySimulatedEIR stream
  let stream := writeInt s.lastSurveyTime stream
  let stream := writeInt s.adultAge stream
  writeInt s.numTransmittingHumans stream

/-- The method `checkpoint(istream& stream)`: the state after the thirteen reads and the rest of
the stream, or `none` for a read error, at which the reads end.  A mode read has to be one of
the four modes, which is all that the state of this development can hold.  The members that
the method does not read stay as they are. -/
def checkpoint_istream (s : TransmissionModel) (stream : List StreamItem) :
    Option (TransmissionModel × List StreamItem) :=
  match readInt stream with
  | none => none
  | some (i, stream) =>
  match SimulationMode.ofInt i with
  | none => none
  | some simulationMode =>
  match readInt stream with
  | none => none
  | some (i, stream) =>
  match SimulationMode.ofInt i with
  | none => none
  | some interventionMode =>
  match readVector stream with
  | none => none
  | some (initialisationEIR, stream) =>
  match readVector stream with
  | none => none
  | some (laggedKappa, stream) =>
  match readDouble stream with
  | none => none
  | some (annualEIR, stream) =>
  match readDouble stream with
  | none => none
  | some (_annualAverageKappa, stream) =>
  match readDouble stream with
  | none => none
  | some (_sumAnnualKappa, stream) =>
  match readDouble stream with
  | none => none
  | some (tsAdultEIR, stream) =>
  match readDouble stream with
  | none => none
  | some (surveyInputEIR, stream) =>
  match readDouble stream with
  | none => none
  | some (surveySimulatedEIR, stream) =>
  match readInt stream with
  | none => none
  | some (lastSurveyTime, stream) =>
  match readInt stream with
  | none => none
  | some (adultAge, stream) =>
  match readInt stream with
  | none => none
  | some (numTransmittingHumans, stream) =>
  some ({ s with
    simulationMode := simulationMode
    interventionMode := interventionMode
    initialisationEIR := initialisationEIR
    laggedKappa := laggedKappa
    annualEIR := annualEIR
    _annualAverageKappa := _annualAverageKappa
    _sumAnnualKappa := _sumAnnualKappa
    tsAdultEIR := tsAdultEIR
    surveyInputEIR := surveyInputEIR
    surveySimulatedEIR := surveySimulatedEIR
    lastSurveyTime := lastSurveyTime
    adultAge := adultAge
    numTransmittingHumans := numTransmittingHumans }, stream)

end TransmissionModel

namespace SimpleMPDAnophelesModel

/-- The operator `&` of the class on an output stream, which `checkpoint(ostream&)` calls: the
stream after the base class and the six members are written.  The base-class method
`AnophelesModel::checkpoint(ostream&)` is a parameter.  A `SimTime` is written as its days. -/
def checkpoint_ostream
    (AnophelesModel_checkpoint : AnophelesModel → List StreamItem → List StreamItem)
    (m : SimpleMPDAnophelesModel) (stream : List StreamItem) : List StreamItem :=
  let stream := AnophelesModel_checkpoint m.base stream
  let stream := writeVector m.quinquennialOvipositing stream
  let stream := writeInt m.developmentDuration stream
  let stream := writeDouble m.probPreadultSurvival stream
  let stream := writeDouble m.fEggsLaidByOviposit stream
  let stream := writeVector m.invLarvalResources stream
  writeVector m.nOvipositingDelayed stream

/-- The operator `&` of the class on an input stream, which `checkpoint(istream&)` calls: the
state after the base class and the six members are read, and the rest of the stream, or `none`
for a read error.  The base-class method `AnophelesModel::checkpoint(istream&)` is a
parameter. -/
def checkpoint_istream
    (AnophelesModel_checkpoint :
      AnophelesModel → List StreamItem → Option (AnophelesModel × List StreamItem))
    (m : SimpleMPDAnophelesModel) (stream : List StreamItem) :
    Option (SimpleMPDAnophelesModel × List StreamItem) := do
  let (base, stream) ← AnophelesModel_checkpoint m.base stream
  let (quinquennialOvipositing, stream) ← readVector stream
  let (developmentDuration, stream) ← readInt stream
  let (probPreadultSurvival, stream) ← readDouble stream
  let (fEggsLaidByOviposit, stream) ← readDouble stream
  let (invLarvalResources, stream) ← readVector stream
  let (nOvipositingDelayed, stream) ← readVector stream
  some ({ base := base
          developmentDuration := developmentDuration
          probPreadultSurvival := probPreadultSurvival
          fEggsLaidByOviposit := fEggsLaidByOviposit
          quinquennialOvipositing := quinquennialOvipositing
          invLarvalResources := invLarvalResources
          nOvipositingDelayed := nOvipositingDelayed }, stream)

end SimpleMPDAnophelesModel

/-- A base-class checkpoint that writes the rest duration, for the concrete states. -/
def exampleBaseWrite (b : AnophelesModel) (stream : List StreamItem) : List StreamItem :=
  writeInt b.mosqRestDuration stream

/-- A base-class checkpoint that reads the rest duration, for the concrete states. -/
def exampleBaseRead (b : AnophelesModel) (stream : List StreamItem) :
    Option (AnophelesModel × List StreamItem) := do
  let (mosqRestDuration, stream) ← readInt stream
  some ({ b with mosqRestDuration := mosqRestDuration }, stream)

namespace DescriptiveWithinHostModel

/-- The method `loadInfection(stream)`: `infections.push_back(new DescriptiveInfection(stream))`.
The constructor of `DescriptiveInfection` from a stream is the parameter `readInfection`. -/
def loadInfection
    (readInfection : List StreamItem → Option (DescriptiveInfection × List StreamItem))
    (s : DescriptiveWithinHostModel) (stream : List StreamItem) :
    Option (DescriptiveWithinHostModel × List StreamItem) := do
  let (inf, stream) ← readInfection stream
  some ({ s with infections := s.infections ++ [inf] }, stream)

/-- The loop `for (int i = 0; i < numInfs; ++i) loadInfection(stream)`, for `n` rounds. -/
def loadInfections
    (readInfection : List StreamItem → Option (DescriptiveInfection × List StreamItem)) :
    Nat → DescriptiveWithinHostModel → List StreamItem →
      Option (DescriptiveWithinHostModel × List StreamItem)
  | 0, s, stream => some (s, stream)
  | n + 1, s, stream => do
    let (s, stream) ← loadInfection readInfection s stream
    loadInfections readInfection n s stream

/-- The method `checkpoint(istream& stream)`: the outcome of the final assertion, with the state
read, and the rest of the stream, or `none` for a read error.  The base-class method
`WHFalciparum::checkpoint(istream&)`, which reads `numInfs` among the members of the base
class, is a parameter. -/
def checkpoint_istream
    (WHFalciparum_checkpoint :
      DescriptiveWithinHostModel → List StreamItem →
        Option (DescriptiveWithinHostModel × List StreamItem))
    (readInfection : List StreamItem → Option (DescriptiveInfection × List StreamItem))
    (s : DescriptiveWithinHostModel) (stream : List StreamItem) :
    Option (Except Error DescriptiveWithinHostModel × List StreamItem) := do
  let (s, stream) ← WHFalciparum_checkpoint s stream
  let (s, stream) ← loadInfections readInfection s.numInfs.toNat s stream
  if s.numInfs = (s.infections.length : Int) then some (.ok s, stream)
  else some (.error Error.assertion, stream)

/-- The method `checkpoint(ostream& stream)`: the stream after the base class and then each
infection of the collection, in order, are written.  The base-class method
`WHFalciparum::checkpoint(ostream&)` and the operator `&` of `DescriptiveInfection` are
parameters. -/
def checkpoint_ostream
    (WHFalciparum_checkpoint : DescriptiveWithinHostModel → List StreamItem → List StreamItem)
    (writeInfection : DescriptiveInfection → List StreamItem → List StreamItem)
    (s : DescriptiveWithinHostModel) (stream : List StreamItem) : List StreamItem :=
  let stream := WHFalciparum_checkpoint s stream
  s.infections.foldl (fun stream inf => writeInfection inf stream) stream

end DescriptiveWithinHostModel

/-- The items of an infection, for the concrete states: its density and its two flags. -/
def exampleInfectionItems (inf : DescriptiveInfection) : List StreamItem :=
  [StreamItem.double inf.density, StreamItem.int (if inf.bloodStage then 1 else 0),
    StreamItem.int (if inf.expired then 1 else 0)]

/-- An operator `&` of the infection on an output stream, for the concrete states. -/
def exampleWriteInfection (inf : DescriptiveInfection) (stream : List StreamItem) :
    List StreamItem :=
  stream ++ exampleInfectionItems inf

/-- A constructor of the infection from an input stream, for the concrete states. -/
def exampleReadInfection (stream : List StreamItem) :
    Option (DescriptiveInfection × List StreamItem) := do
  let (density, stream) ← readDouble stream
  let (bloodStage, stream) ← readInt stream
  let (expired, stream) ← readInt stream
  some ({ density := density, bloodStage := decide (bloodStage = 1),
          expired := decide (expired = 1) }, stream)

/-- A base-class checkpoint that writes `numInfs`, for the concrete states. -/
def exampleTrackerWrite (s : DescriptiveWithinHostModel) (stream : List StreamItem) :
    List StreamItem :=
  writeInt s.numInfs stream

/-- A base-class checkpoint that reads `numInfs`, for the concrete states. -/
def exampleTrackerRead (s : DescriptiveWithinHostModel) (stream : List StreamItem) :
    Option (DescriptiveWithinHostModel × List StreamItem) := do
  let (numInfs, stream) ← readInt stream
  some ({ s with numInfs := numInfs }, stream)

/-- A fresh tracker: no infection, and every number 0. -/
def freshTracker : DescriptiveWithinHostModel :=
  { numInfs := 0
    _cumulativeh := 0
    _cumulativeY := 0
    _cumulativeYlag := 0
    _innateImmSurvFact := 0
    _ylag := [0, 0, 0, 0]
    totalDensity := 0
    timeStepMaxDensity := 0
    treatExpiryLiver := 0
    treatExpiryBlood := 0
    infections := [] }

/-- A model in which no egg survives to emergence: `probPreadultSurvival` is 0, and the inverse
of the larval resources is 1 on every day. -/
def barrenModel : SimpleMPDAnophelesModel :=
  { exampleModel with
    probPreadultSurvival := 0
    invLarvalResources := List.replicate 365 1 }

/-- A model with density dependence: the inverse of the larval resources is `1/3` on every day
and the delay line holds 4 and 7. -/
def crowdedModel : SimpleMPDAnophelesModel :=
  { exampleModel with invLarvalResources := List.replicate 365 (1 / 3) }

/-- The model with density dependence, with 8 in place of 7 in the delay line. -/
def denserModel : SimpleMPDAnophelesModel :=
  { crowdedModel with nOvipositingDelayed := [4, 8] }

/-! # Theorems -/

/-! ## Vectors: checked accesses -/

theorem mod_nn_eq_emod {a b : Int} (ha : 0 ≤ a) (hb : 0 ≤ b) : mod_nn a b = a % b := by
  unfold mod_nn
  exact Int.tmod_eq_emod ha hb

theorem mod_nn_range {a b : Int} (ha : 0 ≤ a) (hb : 0 < b) :
    0 ≤ mod_nn a b ∧ mod_nn a b < b := by
  rw [mod_nn_eq_emod ha hb.le]
  exact ⟨Int.emod_nonneg a (ne_of_gt hb), Int.emod_lt_of_pos a hb⟩

theorem inRange_toNat {i : Int} {n : Nat} (h0 : 0 ≤ i) (h1 : i < (n : Int)) : i.toNat < n := by
  omega

theorem vecGet_ok (v : List ℚ) {i : Int} (h0 : 0 ≤ i) (h1 : i < (v.length : Int)) :
    vecGet v i = .ok (v.get ⟨i.toNat, inRange_toNat h0 h1⟩) := by
  unfold vecGet
  rw [dif_pos ⟨h0, inRange_toNat h0 h1⟩]

theorem vecGet_ok_getD (v : List ℚ) {i : Int} (h0 : 0 ≤ i) (h1 : i < (v.length : Int)) :
    vecGet v i = .ok (v.getD i.toNat 0) := by
  rw [vecGet_ok v h0 h1, List.getD_eq_getElem v 0 (inRange_toNat h0 h1)]
  rfl

theorem vecSet_ok (v : List ℚ) {i : Int} (x : ℚ) (h0 : 0 ≤ i) (h1 : i < (v.length : Int)) :
    vecSet v i x = .ok (v.set i.toNat x) := by
  unfold vecSet
  rw [if_pos ⟨h0, inRange_toNat h0 h1⟩]

theorem vecSet_length {v w : List ℚ} {i : Int} {x : ℚ} (h : vecSet v i x = .ok w) :
    w.length = v.length := by
  unfold vecSet at h
  split at h
  · cases h; simp
  · cases h

theorem vecGet_set_same (v : List ℚ) {i : Int} (x : ℚ) (h0 : 0 ≤ i) (h1 : i < (v.length : Int)) :
    vecGet (v.set i.toNat x) i = .ok x := by
  have h : i < ((v.set i.toNat x).length : Int) := by simpa using h1
  rw [vecGet_ok _ h0 h]
  simp

theorem vecGet_set_other (v : List ℚ) {i j : Int} (x : ℚ) (hi : 0 ≤ i) (hne : i ≠ j) :
    vecGet (v.set i.toNat x) j = vecGet v j := by
  unfold vecGet
  by_cases h : 0 ≤ j ∧ j.toNat < v.length
  · have h2 : 0 ≤ j ∧ j.toNat < (v.set i.toNat x).length := by simpa using h
    have hn : i.toNat ≠ j.toNat := by omega
    rw [dif_pos h, dif_pos h2]
    simp [List.getElem_set, hn]
  · have h2 : ¬ (0 ≤ j ∧ j.toNat < (v.set i.toNat x).length) := by simpa using h
    rw [dif_neg h, dif_neg h2]
    simp

theorem exampleModel_lengths : exampleModel.BufferLengths := by
  simp only [SimpleMPDAnophelesModel.BufferLengths, exampleModel, SimTime.fromYearsI,
    SimTime.oneYear, List.length_replicate, List.length_cons, List.length_nil]
  decide

/-! ## The error monad -/

/-- A sequence of two steps that ends with a result: the first step ended with a result, from
which the second went on. -/
theorem bind_eq_ok {α β : Type} {x : Except Error α} {f : α → Except Error β} {b : β}
    (h : x >>= f = Except.ok b) : ∃ a, x = Except.ok a ∧ f a = Except.ok b := by
  rcases x with e | a
  · have hne : (Except.error e >>= f) = Except.error e := rfl
    rw [hne] at h
    cases h
  · exact ⟨a, rfl, h⟩

/-- A loop whose body keeps the length of the vector it updates keeps that length. -/
theorem foldlM_length {α : Type} (f : List ℚ → α → Except Error (List ℚ))
    (hf : ∀ v a w, f v a = .ok w → w.length = v.length) :
    ∀ (l : List α) (v w : List ℚ), l.foldlM f v = .ok w → w.length = v.length := by
  intro l
  induction l with
  | nil =>
    intro v w h
    simp only [List.foldlM_nil, pure, Except.pure] at h
    cases h
    rfl
  | cons a l ih =>
    intro v w h
    rw [List.foldlM_cons] at h
    obtain ⟨v1, h1, h2⟩ := bind_eq_ok h
    rw [ih v1 w h2, hf v a v1 h1]

/-- A loop whose body succeeds on every state that satisfies `P`, and keeps `P`, succeeds. -/
theorem foldlM_ok {σ α : Type} (f : σ → α → Except Error σ) (P : σ → Prop) (l : List α)
    (hf : ∀ s a, a ∈ l → P s → ∃ s1, f s a = .ok s1 ∧ P s1) :
    ∀ s : σ, P s → ∃ s1, l.foldlM f s = .ok s1 ∧ P s1 := by
  induction l with
  | nil =>
    intro s hs
    exact ⟨s, rfl, hs⟩
  | cons a l ih =>
    intro s hs
    obtain ⟨s1, h1, hP1⟩ := hf s a (List.mem_cons_self a l) hs
    obtain ⟨s2, h2, hP2⟩ :=
      ih (fun s b hb hs => hf s b (List.mem_cons_of_mem a hb) hs) s1 hP1
    refine ⟨s2, ?_, hP2⟩
    rw [List.foldlM_cons, h1]
    exact h2

theorem SimpleMPDAnophelesModel.mem_daysBelow {n t : Int}
    (h : t ∈ SimpleMPDAnophelesModel.daysBelow n) : 0 ≤ t ∧ t < n := by
  unfold SimpleMPDAnophelesModel.daysBelow at h
  rw [List.mem_map] at h
  obtain ⟨k, hk, rfl⟩ := h
  rw [List.mem_range] at hk
  have : (Int.ofNat k) = (k : Int) := rfl
  omega

/-! ## SimpleMPDAnophelesModel: construction -/

theorem SimpleMPDAnophelesModel.new_of_valid (base : AnophelesModel) (elt : SimpleMPD)
    (h1 : 0 < elt.developmentDuration)
    (h2 : 0 ≤ elt.developmentSurvival ∧ elt.developmentSurvival ≤ 1)
    (h3 : 0 < elt.femaleEggsLaidByOviposit) :
    SimpleMPDAnophelesModel.new base elt = .ok
      { base := base
        developmentDuration := elt.developmentDuration
        probPreadultSurvival := elt.developmentSurvival
        fEggsLaidByOviposit := elt.femaleEggsLaidByOviposit
        quinquennialOvipositing := List.replicate (SimTime.fromYearsI 5).toNat (0 : ℚ)
        invLarvalResources := List.replicate SimTime.oneYear.toNat (0 : ℚ)
        nOvipositingDelayed := List.replicate elt.developmentDuration.toNat (0 : ℚ) } := by
  unfold SimpleMPDAnophelesModel.new
  simp only [SimTime.fromDays, SimTime.zero]
  rw [if_neg (not_not.mpr h1), if_neg (not_not.mpr h2), if_neg (not_not.mpr h3)]

theorem SimpleMPDAnophelesModel.new_of_invalid (base : AnophelesModel) (elt : SimpleMPD)
    (h : ¬ (0 < elt.developmentDuration ∧
      (0 ≤ elt.developmentSurvival ∧ elt.developmentSurvival ≤ 1) ∧
      0 < elt.femaleEggsLaidByOviposit)) :
    SimpleMPDAnophelesModel.new base elt = .error .xml_scenario_error := by
  unfold SimpleMPDAnophelesModel.new
  simp only [SimTime.fromDays, SimTime.zero]
  by_cases h1 : elt.developmentDuration > 0
  · rw [if_neg (not_not.mpr h1)]
    by_cases h2 : 0 ≤ elt.developmentSurvival ∧ elt.developmentSurvival ≤ 1
    · rw [if_neg (not_not.mpr h2)]
      by_cases h3 : elt.femaleEggsLaidByOviposit > 0
      · exact absurd ⟨h1, h2, h3⟩ h
      · rw [if_pos h3]
    · rw [if_pos h2]
  · rw [if_pos h1]

theorem SimpleMPDAnophelesModel.valid_of_new {base : AnophelesModel} {elt : SimpleMPD}
    {m : SimpleMPDAnophelesModel} (h : SimpleMPDAnophelesModel.new base elt = .ok m) :
    0 < elt.developmentDuration ∧
      (0 ≤ elt.developmentSurvival ∧ elt.developmentSurvival ≤ 1) ∧
      0 < elt.femaleEggsLaidByOviposit := by
  by_contra hv
  rw [SimpleMPDAnophelesModel.new_of_invalid base elt hv] at h
  cases h

/-- C1: the constructor fails, with the configuration error, if and only if
`developmentDuration <= 0`, or `developmentSurvival` lies outside `[0,1]`, or
`femaleEggsLaidByOviposit <= 0`; a failed construction yields no instance and no other error, and
for every triple with `developmentDuration > 0`, `0 <= survival <= 1` and `eggs > 0` the
construction succeeds with the three parameters stored. -/
theorem SimpleMPDAnophelesModel.new_fails_iff (base : AnophelesModel) (elt : SimpleMPD) :
    (SimpleMPDAnophelesModel.new base elt = .error .xml_scenario_error ↔
      (elt.developmentDuration ≤ 0 ∨
        (elt.developmentSurvival < 0 ∨ 1 < elt.developmentSurvival) ∨
        elt.femaleEggsLaidByOviposit ≤ 0)) ∧
    ((∃ m, SimpleMPDAnophelesModel.new base elt = .ok m) ↔
      (0 < elt.developmentDuration ∧
        (0 ≤ elt.developmentSurvival ∧ elt.developmentSurvival ≤ 1) ∧
        0 < elt.femaleEggsLaidByOviposit)) ∧
    (∀ e, SimpleMPDAnophelesModel.new base elt = .error e →
      e = .xml_scenario_error ∧ ∀ m, SimpleMPDAnophelesModel.new base elt ≠ .ok m) ∧
    (∀ m, SimpleMPDAnophelesModel.new base elt = .ok m →
      m.base = base ∧
      m.developmentDuration = elt.developmentDuration ∧
      m.probPreadultSurvival = elt.developmentSurvival ∧
      m.fEggsLaidByOviposit = elt.femaleEggsLaidByOviposit) := by
  by_cases hv : 0 < elt.developmentDuration ∧
      (0 ≤ elt.developmentSurvival ∧ elt.developmentSurvival ≤ 1) ∧
      0 < elt.femaleEggsLaidByOviposit
  · have hnew := SimpleMPDAnophelesModel.new_of_valid base elt hv.1 hv.2.1 hv.2.2
    obtain ⟨h1, ⟨h2, h2b⟩, h3⟩ := hv
    refine ⟨⟨fun h => ?_, fun h => ?_⟩, ⟨fun _ => ⟨h1, ⟨h2, h2b⟩, h3⟩, fun _ => ⟨_, hnew⟩⟩,
      fun e he => ?_, fun m hm => ?_⟩
    · rw [hnew] at h; cases h
    · rcases h with h | (h | h) | h
      · exact absurd h1 (not_lt.mpr h)
      · exact absurd h2 (not_le.mpr h)
      · exact absurd h2b (not_le.mpr h)
      · exact absurd h3 (not_lt.mpr h)
    · rw [hnew] at he; cases he
    · rw [hnew] at hm
      cases hm
      exact ⟨rfl, rfl, rfl, rfl⟩
  · have hnew := SimpleMPDAnophelesModel.new_of_invalid base elt hv
    refine ⟨⟨fun _ => ?_, fun _ => hnew⟩, ⟨fun h => ?_, fun h => absurd h hv⟩,
      fun e he => ?_, fun m hm => ?_⟩
    · by_contra hc
      apply hv
      have a1 : ¬ elt.developmentDuration ≤ 0 := fun a => hc (Or.inl a)
      have a2 : ¬ elt.developmentSurvival < 0 := fun a => hc (Or.inr (Or.inl (Or.inl a)))
      have a3 : ¬ 1 < elt.developmentSurvival := fun a => hc (Or.inr (Or.inl (Or.inr a)))
      have a4 : ¬ elt.femaleEggsLaidByOviposit ≤ 0 := fun a => hc (Or.inr (Or.inr a))
      exact ⟨not_le.mp a1, ⟨not_lt.mp a2, not_lt.mp a3⟩, not_le.mp a4⟩
    · obtain ⟨m, hm⟩ := h
      rw [hnew] at hm; cases hm
    · rw [hnew] at he
      cases he
      exact ⟨rfl, fun m hm => by rw [hnew] at hm; cases hm⟩
    · rw [hnew] at hm; cases hm

/-! ## SimpleMPDAnophelesModel: getEmergenceRate -/

/-- The two indices of `getEmergenceRate` into the delay line and the five-year history, and its
index into the resource curve, lie inside the buffers. -/
theorem SimpleMPDAnophelesModel.emergence_indices (m : SimpleMPDAnophelesModel) (d0 : Int)
    (hL : m.BufferLengths) (hD : 0 < m.developmentDuration) (hd : 0 ≤ d0) :
    (mod_nn (d0 + SimTime.oneDay) m.developmentDuration = (d0 + 1) % m.developmentDuration ∧
      0 ≤ (d0 + 1) % m.developmentDuration ∧
      (d0 + 1) % m.developmentDuration < (m.nOvipositingDelayed.length : Int)) ∧
    (mod_nn d0 SimTime.oneYear = d0 % 365 ∧ 0 ≤ d0 % 365 ∧
      d0 % 365 < (m.invLarvalResources.length : Int)) ∧
    (mod_nn (d0 + SimTime.oneDay) (SimTime.fromYearsI 5) = (d0 + 1) % (5 * 365) ∧
      0 ≤ (d0 + 1) % (5 * 365) ∧
      (d0 + 1) % (5 * 365) < (m.quinquennialOvipositing.length : Int)) := by
  obtain ⟨hq, hr, hn⟩ := hL
  simp only [SimTime.oneDay, SimTime.oneYear, SimTime.fromYearsI] at *
  refine ⟨⟨mod_nn_eq_emod (by omega) hD.le, Int.emod_nonneg _ (ne_of_gt hD), ?_⟩,
    ⟨mod_nn_eq_emod hd (by norm_num), by omega, by omega⟩,
    ⟨mod_nn_eq_emod (by omega) (by norm_num), by omega, by omega⟩⟩
  rw [hn]
  exact Int.emod_lt_of_pos _ hD

/-- What `getEmergenceRate` returns and the state it leaves, for a state that satisfies the
buffer-length invariant. -/
theorem SimpleMPDAnophelesModel.getEmergenceRate_eq (m : SimpleMPDAnophelesModel) (d0 : Int)
    (mosqEmergeRate : List ℚ) (nOvipositing : ℚ)
    (hL : m.BufferLengths) (hD : 0 < m.developmentDuration) (hd : 0 ≤ d0) :
    m.getEmergenceRate d0 mosqEmergeRate nOvipositing = .ok
      (m.probPreadultSurvival *
          (m.fEggsLaidByOviposit *
            m.nOvipositingDelayed.getD ((d0 + 1) % m.developmentDuration).toNat 0) /
        (1 + m.invLarvalResources.getD (d0 % 365).toNat 0 *
          (m.fEggsLaidByOviposit *
            m.nOvipositingDelayed.getD ((d0 + 1) % m.developmentDuration).toNat 0)),
       { m with
         nOvipositingDelayed :=
           m.nOvipositingDelayed.set ((d0 + 1) % m.developmentDuration).toNat nOvipositing
         quinquennialOvipositing :=
           m.quinquennialOvipositing.set ((d0 + 1) % (5 * 365)).toNat nOvipositing }) := by
  obtain ⟨⟨e1, a1, b1⟩, ⟨e2, a2, b2⟩, ⟨e3, a3, b3⟩⟩ := m.emergence_indices d0 hL hD hd
  unfold SimpleMPDAnophelesModel.getEmergenceRate
  simp only [e1, e2, e3, vecGet_ok_getD _ a1 b1, vecGet_ok_getD _ a2 b2,
    vecSet_ok _ _ a1 b1, vecSet_ok _ _ a3 b3, bind, Except.bind, pure, Except.pure]

/-- C2: for every day `d0 >= 0` and every state that satisfies the buffer-length invariant,
`getEmergenceRate(d0, ., n)` returns
`probPreadultSurvival * laid / (1 + invLarvalResources[d0 mod 365] * laid)` with
`laid = fEggsLaidByOviposit * nOvipositingDelayed[(d0+1) mod developmentDuration]`, both entries
read from the state before the call; the value is the same for every argument `n`. -/
theorem SimpleMPDAnophelesModel.getEmergenceRate_value (m : SimpleMPDAnophelesModel) (d0 : Int)
    (hL : m.BufferLengths) (hD : 0 < m.developmentDuration) (hd : 0 ≤ d0) :
    ∃ delayed res : ℚ,
      vecGet m.nOvipositingDelayed ((d0 + 1) % m.developmentDuration) = .ok delayed ∧
      vecGet m.invLarvalResources (d0 % 365) = .ok res ∧
      ∀ (mosqEmergeRate : List ℚ) (n : ℚ), ∃ m1,
        m.getEmergenceRate d0 mosqEmergeRate n = .ok
          (m.probPreadultSurvival * (m.fEggsLaidByOviposit * delayed) /
            (1 + res * (m.fEggsLaidByOviposit * delayed)), m1) := by
  obtain ⟨⟨_, a1, b1⟩, ⟨_, a2, b2⟩, _⟩ := m.emergence_indices d0 hL hD hd
  exact ⟨_, _, vecGet_ok_getD _ a1 b1, vecGet_ok_getD _ a2 b2,
    fun er n => ⟨_, m.getEmergenceRate_eq d0 er n hL hD hd⟩⟩

/-- C2, at a concrete state: with delay line `[4, 7]`, two days of development, survival `1/2`,
three eggs per oviposition and no density dependence, the call of day 0 returns
`1/2 * (3 * 7) = 21/2`, for the argument 9 as for the argument 100. -/
theorem SimpleMPDAnophelesModel.getEmergenceRate_value_witness :
    ∃ m1 m2, exampleModel.getEmergenceRate 0 [] 9 = .ok (21 / 2, m1) ∧
      exampleModel.getEmergenceRate 0 [] 100 = .ok (21 / 2, m2) := by
  obtain ⟨delayed, res, h1, h2, h⟩ :=
    SimpleMPDAnophelesModel.getEmergenceRate_value exampleModel 0 exampleModel_lengths
      (by decide) (by decide)
  have e1 : delayed = 7 := by
    have : vecGet exampleModel.nOvipositingDelayed ((0 + 1) % exampleModel.developmentDuration)
        = .ok 7 := by
      rfl
    rw [this] at h1
    cases h1
    rfl
  have e2 : res = 0 := by
    have : vecGet exampleModel.invLarvalResources (0 % 365) = .ok 0 := by
      rw [vecGet_ok_getD _ (by decide)
        (by simp only [exampleModel, List.length_replicate]; decide)]
      simp only [exampleModel, List.getD_eq_getElem?_getD,
        List.getElem?_getD_replicate_default_eq]
    rw [this] at h2
    cases h2
    rfl
  subst e1 e2
  obtain ⟨m1, h9⟩ := h [] 9
  obtain ⟨m2, h100⟩ := h [] 100
  have ev : exampleModel.probPreadultSurvival * (exampleModel.fEggsLaidByOviposit * 7) /
      (1 + 0 * (exampleModel.fEggsLaidByOviposit * 7)) = 21 / 2 := by
    simp only [exampleModel]
    norm_num
  rw [ev] at h9 h100
  exact ⟨m1, m2, h9, h100⟩

/-- C4: `getEmergenceRate(d0, ., n)` changes exactly two buffer entries: afterwards
`nOvipositingDelayed[(d0+1) mod developmentDuration]` and
`quinquennialOvipositing[(d0+1) mod (5*365)]` hold `n`, an access at any other index of
either buffer gives what it gave before, and `invLarvalResources`, the three parameters and the
base-class part are unchanged. -/
theorem SimpleMPDAnophelesModel.getEmergenceRate_frame (m : SimpleMPDAnophelesModel) (d0 : Int)
    (mosqEmergeRate : List ℚ) (n : ℚ)
    (hL : m.BufferLengths) (hD : 0 < m.developmentDuration) (hd : 0 ≤ d0) :
    ∃ e m1, m.getEmergenceRate d0 mosqEmergeRate n = .ok (e, m1) ∧
      (∀ j : Int, vecGet m1.nOvipositingDelayed j =
        if j = (d0 + 1) % m.developmentDuration then .ok n
        else vecGet m.nOvipositingDelayed j) ∧
      (∀ j : Int, vecGet m1.quinquennialOvipositing j =
        if j = (d0 + 1) % (5 * 365) then .ok n else vecGet m.quinquennialOvipositing j) ∧
      m1.invLarvalResources = m.invLarvalResources ∧
      m1.developmentDuration = m.developmentDuration ∧
      m1.probPreadultSurvival = m.probPreadultSurvival ∧
      m1.fEggsLaidByOviposit = m.fEggsLaidByOviposit ∧
      m1.base = m.base := by
  obtain ⟨⟨_, a1, b1⟩, _, ⟨_, a3, b3⟩⟩ := m.emergence_indices d0 hL hD hd
  refine ⟨_, _, m.getEmergenceRate_eq d0 mosqEmergeRate n hL hD hd, ?_, ?_,
    rfl, rfl, rfl, rfl, rfl⟩
  · intro j
    by_cases hj : j = (d0 + 1) % m.developmentDuration
    · rw [if_pos hj, hj]
      exact vecGet_set_same _ n a1 b1
    · rw [if_neg hj]
      exact vecGet_set_other _ n a1 (Ne.symm hj)
  · intro j
    by_cases hj : j = (d0 + 1) % (5 * 365)
    · rw [if_pos hj, hj]
      exact vecGet_set_same _ n a3 b3
    · rw [if_neg hj]
      exact vecGet_set_other _ n a3 (Ne.symm hj)

/-- C4, at a concrete state: the call of day 0 with argument 9 on the state with delay line
`[4, 7]`. -/
theorem SimpleMPDAnophelesModel.getEmergenceRate_frame_witness :
    exampleModel.BufferLengths ∧ 0 < exampleModel.developmentDuration ∧ (0 : Int) ≤ 0 ∧
    ∃ e m1, exampleModel.getEmergenceRate 0 [] 9 = .ok (e, m1) ∧
      (∀ j : Int, vecGet m1.nOvipositingDelayed j =
        if j = (0 + 1) % exampleModel.developmentDuration then .ok 9
        else vecGet exampleModel.nOvipositingDelayed j) ∧
      (∀ j : Int, vecGet m1.quinquennialOvipositing j =
        if j = (0 + 1) % (5 * 365) then .ok 9
        else vecGet exampleModel.quinquennialOvipositing j) ∧
      m1.invLarvalResources = exampleModel.invLarvalResources ∧
      m1.developmentDuration = exampleModel.developmentDuration ∧
      m1.probPreadultSurvival = exampleModel.probPreadultSurvival ∧
      m1.fEggsLaidByOviposit = exampleModel.fEggsLaidByOviposit ∧
      m1.base = exampleModel.base :=
  ⟨exampleModel_lengths, by decide, by decide,
    SimpleMPDAnophelesModel.getEmergenceRate_frame exampleModel 0 [] 9 exampleModel_lengths
      (by decide) (by decide)⟩

/-! ## SimpleMPDAnophelesModel: the buffer-length invariant -/

theorem SimpleMPDAnophelesModel.getEmergenceRate_lengths {m m1 : SimpleMPDAnophelesModel}
    {d0 : Int} {mosqEmergeRate : List ℚ} {n e : ℚ}
    (h : m.getEmergenceRate d0 mosqEmergeRate n = .ok (e, m1)) (hL : m.BufferLengths) :
    m1.BufferLengths ∧ m1.developmentDuration = m.developmentDuration := by
  unfold SimpleMPDAnophelesModel.getEmergenceRate at h
  obtain ⟨_, _, h⟩ := bind_eq_ok h
  obtain ⟨_, _, h⟩ := bind_eq_ok h
  obtain ⟨v1, h1, h⟩ := bind_eq_ok h
  obtain ⟨v2, h2, h⟩ := bind_eq_ok h
  simp only [pure, Except.pure, Except.ok.injEq, Prod.mk.injEq] at h
  obtain ⟨_, rfl⟩ := h
  obtain ⟨hq, hr, hn⟩ := hL
  refine ⟨⟨?_, hr, ?_⟩, rfl⟩
  · show ((v2.length : Nat) : Int) = _
    rw [vecSet_length h2]
    exact hq
  · show ((v1.length : Nat) : Int) = _
    rw [vecSet_length h1]
    exact hn

theorem SimpleMPDAnophelesModel.init2DelayedStep_length (b : AnophelesModel) (d : Int) (x : ℚ)
    (v : List ℚ) (t : Int) (w : List ℚ)
    (h : SimpleMPDAnophelesModel.init2DelayedStep b d x v t = .ok w) : w.length = v.length := by
  unfold SimpleMPDAnophelesModel.init2DelayedStep at h
  obtain ⟨_, _, h⟩ := bind_eq_ok h
  exact vecSet_length h

theorem SimpleMPDAnophelesModel.init2ResourcesStep_length (b : AnophelesModel) (d : Int)
    (p f x : ℚ) (v : List ℚ) (t : Int) (w : List ℚ)
    (h : SimpleMPDAnophelesModel.init2ResourcesStep b d p f x v t = .ok w) :
    w.length = v.length := by
  unfold SimpleMPDAnophelesModel.init2ResourcesStep at h
  obtain ⟨_, _, h⟩ := bind_eq_ok h
  obtain ⟨_, _, h⟩ := bind_eq_ok h
  exact vecSet_length h

theorem SimpleMPDAnophelesModel.initIterateStep_length (m : SimpleMPDAnophelesModel)
    (v : List ℚ) (t : Int) (w : List ℚ)
    (h : m.initIterateStep v t = .ok w) : w.length = v.length := by
  unfold SimpleMPDAnophelesModel.initIterateStep at h
  obtain ⟨_, _, h⟩ := bind_eq_ok h
  obtain ⟨_, _, h⟩ := bind_eq_ok h
  obtain ⟨_, _, h⟩ := bind_eq_ok h
  obtain ⟨_, _, h⟩ := bind_eq_ok h
  obtain ⟨_, _, h⟩ := bind_eq_ok h
  obtain ⟨_, _, h⟩ := bind_eq_ok h
  exact vecSet_length h

theorem SimpleMPDAnophelesModel.init2_lengths {m m1 : SimpleMPDAnophelesModel}
    {exp : ℚ → ℚ} {bi : AnophelesModel → Int → ℚ → ℚ → ℚ → ℚ → ℚ → AnophelesModel}
    {nHumans : Int} {a1 a2 a3 a4 a5 : ℚ}
    (h : m.init2 exp bi nHumans a1 a2 a3 a4 a5 = .ok m1) (hL : m.BufferLengths) :
    m1.BufferLengths ∧ m1.developmentDuration = m.developmentDuration := by
  unfold SimpleMPDAnophelesModel.init2 at h
  obtain ⟨v1, h1, h⟩ := bind_eq_ok h
  split at h
  · exact absurd h (by simp [throw, throwThe, MonadExceptOf.throw, bind, Except.bind])
  · simp only [pure, Except.pure, bind, Except.bind] at h
    obtain ⟨v2, h2, h⟩ := bind_eq_ok h
    simp only [pure, Except.pure, Except.ok.injEq] at h
    subst h
    obtain ⟨hq, hr, hn⟩ := hL
    refine ⟨⟨hq, ?_, ?_⟩, rfl⟩
    · show ((v2.length : Nat) : Int) = _
      rw [foldlM_length _ (SimpleMPDAnophelesModel.init2ResourcesStep_length _ _ _ _ _) _ _ _ h2]
      exact hr
    · show ((v1.length : Nat) : Int) = _
      rw [foldlM_length _ (SimpleMPDAnophelesModel.init2DelayedStep_length _ _ _) _ _ _ h1]
      exact hn

theorem SimpleMPDAnophelesModel.initIterate_lengths {m m1 : SimpleMPDAnophelesModel}
    {bit : AnophelesModel → Bool × AnophelesModel} {fitted : Bool}
    (h : m.initIterate bit = .ok (fitted, m1)) (hL : m.BufferLengths) :
    m1.BufferLengths ∧ m1.developmentDuration = m.developmentDuration := by
  unfold SimpleMPDAnophelesModel.initIterate at h
  simp only at h
  split at h
  · exact absurd h (by simp [throw, throwThe, MonadExceptOf.throw, bind, Except.bind])
  · simp only [pure, Except.pure, bind, Except.bind] at h
    obtain ⟨v, h1, h⟩ := bind_eq_ok h
    simp only [pure, Except.pure, Except.ok.injEq, Prod.mk.injEq] at h
    obtain ⟨_, rfl⟩ := h
    obtain ⟨hq, hr, hn⟩ := hL
    refine ⟨⟨hq, ?_, hn⟩, rfl⟩
    show ((v.length : Nat) : Int) = _
    rw [foldlM_length _ (SimpleMPDAnophelesModel.initIterateStep_length _) _ _ _ h1]
    exact hr

theorem SimpleMPDAnophelesModel.scale_lengths (m : SimpleMPDAnophelesModel)
    (bs : AnophelesModel → ℚ → AnophelesModel) (factor : ℚ) (hL : m.BufferLengths) :
    (m.scale bs factor).BufferLengths := by
  obtain ⟨hq, hr, hn⟩ := hL
  refine ⟨hq, hr, ?_⟩
  show (((vectors_scale m.nOvipositingDelayed factor).length : Nat) : Int) = _
  unfold vectors_scale
  rw [List.length_map]
  exact hn

/-- C6: after a successful construction `quinquennialOvipositing` has length `5*365`,
`invLarvalResources` length 365 and `nOvipositingDelayed` length `developmentDuration`, and every
entry of the three is zero; and from every state with these three lengths, `init2`,
`initIterate`, `getEmergenceRate` and `scale` leave a state with the same three lengths. -/
theorem SimpleMPDAnophelesModel.bufferLengths_invariant (base : AnophelesModel) (elt : SimpleMPD)
    (m : SimpleMPDAnophelesModel) (h : SimpleMPDAnophelesModel.new base elt = .ok m) :
    (m.quinquennialOvipositing.length = 5 * 365 ∧
      m.invLarvalResources.length = 365 ∧
      (m.nOvipositingDelayed.length : Int) = m.developmentDuration ∧
      m.developmentDuration = elt.developmentDuration) ∧
    ((∀ x ∈ m.quinquennialOvipositing, x = 0) ∧
      (∀ x ∈ m.invLarvalResources, x = 0) ∧
      (∀ x ∈ m.nOvipositingDelayed, x = 0)) ∧
    m.BufferLengths ∧
    (∀ s : SimpleMPDAnophelesModel, s.BufferLengths →
      (∀ exp bi nHumans a1 a2 a3 a4 a5 s1,
        s.init2 exp bi nHumans a1 a2 a3 a4 a5 = .ok s1 →
          s1.BufferLengths ∧ s1.developmentDuration = s.developmentDuration) ∧
      (∀ bit fitted s1, s.initIterate bit = .ok (fitted, s1) →
          s1.BufferLengths ∧ s1.developmentDuration = s.developmentDuration) ∧
      (∀ d0 mosqEmergeRate n e s1, s.getEmergenceRate d0 mosqEmergeRate n = .ok (e, s1) →
          s1.BufferLengths ∧ s1.developmentDuration = s.developmentDuration) ∧
      (∀ bs factor, (s.scale bs factor).BufferLengths ∧
          (s.scale bs factor).developmentDuration = s.developmentDuration)) := by
  have hv := SimpleMPDAnophelesModel.valid_of_new h
  rw [SimpleMPDAnophelesModel.new_of_valid base elt hv.1 hv.2.1 hv.2.2] at h
  cases h
  have hD : (0 : Int) ≤ elt.developmentDuration := hv.1.le
  refine ⟨⟨?_, ?_, ?_, rfl⟩, ⟨?_, ?_, ?_⟩, ⟨?_, ?_, ?_⟩, ?_⟩
  · simp only [List.length_replicate, SimTime.fromYearsI]; decide
  · simp only [List.length_replicate, SimTime.oneYear]; decide
  · simp only [List.length_replicate]; omega
  · intro x hx; exact List.eq_of_mem_replicate hx
  · intro x hx; exact List.eq_of_mem_replicate hx
  · intro x hx; exact List.eq_of_mem_replicate hx
  · simp only [List.length_replicate, SimTime.fromYearsI]; decide
  · simp only [List.length_replicate, SimTime.oneYear]; decide
  · simp only [List.length_replicate]; omega
  · intro s hs
    refine ⟨?_, ?_, ?_, ?_⟩
    · intro exp bi nHumans a1 a2 a3 a4 a5 s1 h1
      exact SimpleMPDAnophelesModel.init2_lengths h1 hs
    · intro bit fitted s1 h1
      exact SimpleMPDAnophelesModel.initIterate_lengths h1 hs
    · intro d0 er n e s1 h1
      exact SimpleMPDAnophelesModel.getEmergenceRate_lengths h1 hs
    · intro bs factor
      exact ⟨s.scale_lengths bs factor hs, rfl⟩

/-- C6, at a concrete configuration: the model constructed for two days of development has
buffers of 1825, 365 and 2 entries, and the state left by a call of `getEmergenceRate` followed
by `scale` has the same lengths. -/
theorem SimpleMPDAnophelesModel.bufferLengths_invariant_witness :
    ∃ m, SimpleMPDAnophelesModel.new exampleBase exampleElt = .ok m ∧
      m.quinquennialOvipositing.length = 1825 ∧
      m.invLarvalResources.length = 365 ∧
      m.nOvipositingDelayed.length = 2 ∧
      ∃ e s1, m.getEmergenceRate 0 [] 9 = .ok (e, s1) ∧ s1.BufferLengths ∧
        (s1.scale (fun b _ => b) 2).BufferLengths := by
  have hnew := SimpleMPDAnophelesModel.new_of_valid exampleBase exampleElt (by decide)
    (by norm_num [exampleElt]) (by norm_num [exampleElt])
  obtain ⟨⟨l1, l2, l3, l4⟩, _, hBL, hpres⟩ :=
    SimpleMPDAnophelesModel.bufferLengths_invariant exampleBase exampleElt _ hnew
  refine ⟨_, hnew, l1, l2, ?_, ?_⟩
  · have l5 : exampleElt.developmentDuration = 2 := rfl
    omega
  · have hget := SimpleMPDAnophelesModel.getEmergenceRate_eq _ 0 [] 9 hBL
      (show (0 : Int) < exampleElt.developmentDuration by decide) (le_refl 0)
    have h1 := ((hpres _ hBL).2.2.1 _ _ _ _ _ hget).1
    exact ⟨_, _, hget, h1, ((hpres _ h1).2.2.2 _ _).1⟩

/-! ## SimpleMPDAnophelesModel: the delay line -/

theorem emod_shift_ne {d D : Int} {k : Nat} (hk : (k : Int) + 1 < D) :
    (d + 1 + k + 1) % D ≠ (d + 1) % D := by
  intro h
  rw [Int.emod_eq_emod_iff_emod_sub_eq_zero] at h
  have e : d + 1 + (k : Int) + 1 - (d + 1) = k + 1 := by ring
  rw [e, Int.emod_eq_of_lt (by omega) hk] at h
  omega

/-- One call: it succeeds, keeps the invariant, the parameters and the resource curve, and
writes its argument into the slot `(d + 1) mod developmentDuration` of the delay line. -/
theorem SimpleMPDAnophelesModel.getEmergenceRate_step (m : SimpleMPDAnophelesModel) (d : Int)
    (mosqEmergeRate : List ℚ) (n : ℚ)
    (hL : m.BufferLengths) (hD : 0 < m.developmentDuration) (hd : 0 ≤ d) :
    ∃ e ms, m.getEmergenceRate d mosqEmergeRate n = .ok (e, ms) ∧
      ms.BufferLengths ∧ ms.developmentDuration = m.developmentDuration ∧
      ms.invLarvalResources = m.invLarvalResources ∧
      ms.probPreadultSurvival = m.probPreadultSurvival ∧
      ms.fEggsLaidByOviposit = m.fEggsLaidByOviposit ∧
      ms.nOvipositingDelayed =
        m.nOvipositingDelayed.set ((d + 1) % m.developmentDuration).toNat n := by
  have hstep := m.getEmergenceRate_eq d mosqEmergeRate n hL hD hd
  obtain ⟨hL1, hD1⟩ := SimpleMPDAnophelesModel.getEmergenceRate_lengths hstep hL
  exact ⟨_, _, hstep, hL1, hD1, rfl, rfl, rfl, rfl⟩

/-- A run of daily calls from day `d` succeeds, keeps the invariant, the parameters and the
resource curve, and leaves alone every slot of the delay line that none of its days writes. -/
theorem SimpleMPDAnophelesModel.emergenceRun_ok (mosqEmergeRate : List ℚ) :
    ∀ (ns : List ℚ) (m : SimpleMPDAnophelesModel) (d : Int),
      m.BufferLengths → 0 < m.developmentDuration → 0 ≤ d →
      ∃ es m1, SimpleMPDAnophelesModel.emergenceRun mosqEmergeRate m d ns = .ok (es, m1) ∧
        es.length = ns.length ∧
        m1.BufferLengths ∧ m1.developmentDuration = m.developmentDuration ∧
        m1.invLarvalResources = m.invLarvalResources ∧
        m1.probPreadultSurvival = m.probPreadultSurvival ∧
        m1.fEggsLaidByOviposit = m.fEggsLaidByOviposit ∧
        ∀ j : Int, (∀ k : Nat, k < ns.length → (d + k + 1) % m.developmentDuration ≠ j) →
          vecGet m1.nOvipositingDelayed j = vecGet m.nOvipositingDelayed j := by
  intro ns
  induction ns with
  | nil =>
    intro m d hL _ _
    exact ⟨[], m, rfl, rfl, hL, rfl, rfl, rfl, rfl, fun _ _ => rfl⟩
  | cons n ns ih =>
    intro m d hL hD hd
    obtain ⟨e0, ms, hstep, hL1, hD1, hr1, hp1, hf1, hset⟩ :=
      m.getEmergenceRate_step d mosqEmergeRate n hL hD hd
    obtain ⟨es, m1, hrun, hlen, hL2, hD2, hr2, hp2, hf2, hslots⟩ :=
      ih ms (d + 1) hL1 (by rw [hD1]; exact hD) (by omega)
    refine ⟨e0 :: es, m1, ?_, by simp [hlen], hL2, hD2.trans hD1, hr2.trans hr1,
      hp2.trans hp1, hf2.trans hf1, ?_⟩
    · rw [SimpleMPDAnophelesModel.emergenceRun, hstep]
      simp only [bind, Except.bind, SimTime.oneDay, hrun, pure, Except.pure]
    · intro j hj
      have h0 : (d + 1) % m.developmentDuration ≠ j := by
        have := hj 0 (by simp)
        simpa using this
      rw [hslots j ?_, hset]
      · exact vecGet_set_other _ n (Int.emod_nonneg _ (ne_of_gt hD)) h0
      · intro k hk
        have := hj (k + 1) (by simp; omega)
        have e : d + ((k + 1 : Nat) : Int) + 1 = d + 1 + (k : Int) + 1 := by push_cast; ring
        rw [e] at this
        rw [hD1]
        exact this

/-- C3: for a model with `developmentDuration = D > 0` and calls of `getEmergenceRate` made once
per day on the consecutive days `d`, ..., `d + D`, the delay-line entry that the call of day
`d + D` reads is the count `n` passed to the call of day `d`, whatever was passed on the days
between, and that call returns the emergence computed from `laid = fEggsLaidByOviposit * n`. -/
theorem SimpleMPDAnophelesModel.delay_line (m : SimpleMPDAnophelesModel) (d : Int)
    (mosqEmergeRate : List ℚ) (n : ℚ) (ns : List ℚ) (nLast : ℚ)
    (hL : m.BufferLengths) (hD : 0 < m.developmentDuration) (hd : 0 ≤ d)
    (hlen : ((n :: ns).length : Int) = m.developmentDuration) :
    ∃ es m1, SimpleMPDAnophelesModel.emergenceRun mosqEmergeRate m d (n :: ns) = .ok (es, m1) ∧
      vecGet m1.nOvipositingDelayed
        (mod_nn (d + m.developmentDuration + SimTime.oneDay) m1.developmentDuration) = .ok n ∧
      ∃ res m2, vecGet m.invLarvalResources ((d + m.developmentDuration) % 365) = .ok res ∧
        m1.getEmergenceRate (d + m.developmentDuration) mosqEmergeRate nLast = .ok
          (m.probPreadultSurvival * (m.fEggsLaidByOviposit * n) /
            (1 + res * (m.fEggsLaidByOviposit * n)), m2) := by
  obtain ⟨e0, ms, hstep, hL1, hD1, hr1, hp1, hf1, hset⟩ :=
    m.getEmergenceRate_step d mosqEmergeRate n hL hD hd
  obtain ⟨es, m1, hrun, _, hL2, hD2, hr2, hp2, hf2, hslots⟩ :=
    SimpleMPDAnophelesModel.emergenceRun_ok mosqEmergeRate ns ms (d + 1) hL1
      (by rw [hD1]; exact hD) (by omega)
  have hD3 : m1.developmentDuration = m.developmentDuration := hD2.trans hD1
  obtain ⟨⟨e1, a1, b1⟩, ⟨_, a2, b2⟩, _⟩ := m.emergence_indices d hL hD hd
  have hlen2 : (ns.length : Int) + 1 = m.developmentDuration := by
    rw [← hlen]; simp
  -- the slot written on day `d` is the slot read on day `d + D`
  have hslot : (d + m.developmentDuration + 1) % m.developmentDuration
      = (d + 1) % m.developmentDuration := by
    have e : d + m.developmentDuration + 1 = d + 1 + m.developmentDuration := by ring
    rw [e, Int.add_emod_self]
  have hread : vecGet m1.nOvipositingDelayed ((d + 1) % m.developmentDuration) = .ok n := by
    rw [hslots _ ?_, hset]
    · exact vecGet_set_same _ n a1 b1
    · intro k hk
      have hk2 : (k : Int) + 1 < m.developmentDuration := by omega
      rw [hD1]
      exact emod_shift_ne hk2
  have hdD : 0 ≤ d + m.developmentDuration := by omega
  have hget := m1.getEmergenceRate_eq (d + m.developmentDuration) mosqEmergeRate nLast hL2
    (by rw [hD3]; exact hD) hdD
  obtain ⟨⟨_, a4, b4⟩, ⟨_, a5, b5⟩, _⟩ :=
    m1.emergence_indices (d + m.developmentDuration) hL2 (by rw [hD3]; exact hD) hdD
  have hval : m1.nOvipositingDelayed.getD
      ((d + m.developmentDuration + 1) % m1.developmentDuration).toNat 0 = n := by
    have h1 := vecGet_ok_getD _ a4 b4
    rw [hD3, hslot, hread] at h1
    rw [hD3, hslot]
    cases h1
    rfl
  rw [hval, hp2, hf2, hp1, hf1, hr2, hr1] at hget
  refine ⟨e0 :: es, m1, ?_, ?_, _, _, ?_, hget⟩
  · rw [SimpleMPDAnophelesModel.emergenceRun, hstep]
    simp only [bind, Except.bind, SimTime.oneDay, hrun, pure, Except.pure]
  · rw [hD3, SimTime.oneDay, mod_nn_eq_emod (by omega) hD.le, hslot]
    exact hread
  · rw [hr2, hr1] at b5
    exact vecGet_ok_getD _ a5 b5

/-- C3, at a concrete state: with two days of development, the counts 9 and 5 passed on the days
0 and 1, the call of day 2 reads 9 and returns `1/2 * (3 * 9) = 27/2`. -/
theorem SimpleMPDAnophelesModel.delay_line_witness :
    ∃ es m1 m2, SimpleMPDAnophelesModel.emergenceRun [] exampleModel 0 [9, 5] = .ok (es, m1) ∧
      vecGet m1.nOvipositingDelayed (mod_nn (0 + 2 + 1) m1.developmentDuration) = .ok 9 ∧
      m1.getEmergenceRate 2 [] 1 = .ok (27 / 2, m2) := by
  obtain ⟨es, m1, hrun, hread, res, m2, hres, hget⟩ :=
    SimpleMPDAnophelesModel.delay_line exampleModel 0 [] 9 [5] 1 exampleModel_lengths
      (by decide) (by decide) (by decide)
  have e2 : res = 0 := by
    have : vecGet exampleModel.invLarvalResources ((0 + exampleModel.developmentDuration) % 365)
        = .ok 0 := by
      rw [vecGet_ok_getD _ (by decide)
        (by simp only [exampleModel, List.length_replicate]; decide)]
      simp only [exampleModel, List.getD_eq_getElem?_getD,
        List.getElem?_getD_replicate_default_eq]
    rw [this] at hres
    cases hres
    rfl
  subst e2
  have ev : exampleModel.probPreadultSurvival * (exampleModel.fEggsLaidByOviposit * 9) /
      (1 + 0 * (exampleModel.fEggsLaidByOviposit * 9)) = 27 / 2 := by
    simp only [exampleModel]
    norm_num
  rw [ev] at hget
  exact ⟨es, m1, m2, hrun, hread, hget⟩

/-! ## SimpleMPDAnophelesModel: the indices of the four operations -/

theorem SimpleMPDAnophelesModel.init2DelayedStep_ok (b : AnophelesModel) (D : Int) (x : ℚ)
    (hS : (b.forcedS_v.length : Int) = 365) (htau : 0 ≤ b.mosqRestDuration)
    (hD : 0 < D) (hD1 : D ≤ 365)
    (v : List ℚ) (t : Int) (ht : t ∈ SimpleMPDAnophelesModel.daysBelow D)
    (hv : (v.length : Int) = D) :
    ∃ w, SimpleMPDAnophelesModel.init2DelayedStep b D x v t = .ok w ∧ (w.length : Int) = D := by
  obtain ⟨t0, t1⟩ := SimpleMPDAnophelesModel.mem_daysBelow ht
  have r := mod_nn_range (a := t + b.mosqRestDuration) (b := D) (by omega) hD
  have g1 := vecGet_ok_getD b.forcedS_v (i := t) t0 (by omega)
  unfold SimpleMPDAnophelesModel.init2DelayedStep
  simp only [g1, bind, Except.bind]
  rw [vecSet_ok v _ r.1 (by omega)]
  exact ⟨_, rfl, by simp [hv]⟩

theorem TransmissionModel.foldl_kappaStep (population : List Human) :
    ∀ acc : KappaSums,
      (population.foldl TransmissionModel.kappaStep acc).sumWeight =
        acc.sumWeight + (population.map Human.avail).sum ∧
      (population.foldl TransmissionModel.kappaStep acc).sumWt_kappa =
        acc.sumWt_kappa + (population.map (fun h => h.avail * h.pTransmit)).sum := by
  induction population with
  | nil => intro acc; simp
  | cons h t ih =>
    intro acc
    obtain ⟨h1, h2⟩ := ih (TransmissionModel.kappaStep acc h)
    rw [List.foldl_cons, h1, h2]
    simp only [TransmissionModel.kappaStep, List.map_cons, List.sum_cons]
    constructor <;> ring

/-- The sums that the loop of `updateKappa` leaves: the summed availability and the summed
availability times transmission probability. -/
theorem TransmissionModel.kappaSums (population : List Human) :
    (population.foldl TransmissionModel.kappaStep
      { sumWt_kappa := 0, sumWeight := 0, numTransmittingHumans := 0 }).sumWeight =
        (population.map Human.avail).sum ∧
    (population.foldl TransmissionModel.kappaStep
      { sumWt_kappa := 0, sumWeight := 0, numTransmittingHumans := 0 }).sumWt_kappa =
        (population.map (fun h => h.avail * h.pTransmit)).sum := by
  obtain ⟨h1, h2⟩ := TransmissionModel.foldl_kappaStep population
    { sumWt_kappa := 0, sumWeight := 0, numTransmittingHumans := 0 }
  rw [h1, h2]
  simp

/-- The two indices of `updateKappa`: the slot of `laggedKappa` and the step of the year. -/
theorem TransmissionModel.kappa_indices (sim : Sim) (s : TransmissionModel)
    (hWF : TransmissionModel.WellFormed sim s) :
    (sim.moduloSteps sim.ts1 s.laggedKappa.length
        = (sim.ts1 / sim.interval) % (s.laggedKappa.length : Int) ∧
      0 ≤ (sim.ts1 / sim.interval) % (s.laggedKappa.length : Int) ∧
      (sim.ts1 / sim.interval) % (s.laggedKappa.length : Int) < (s.laggedKappa.length : Int)) ∧
    (sim.moduloYearSteps sim.ts0 = (sim.ts0 / sim.interval) % sim.stepsPerYear ∧
      0 ≤ (sim.ts0 / sim.interval) % sim.stepsPerYear ∧
      (sim.ts0 / sim.interval) % sim.stepsPerYear < (s.initialisationEIR.length : Int)) := by
  obtain ⟨hi, hy, h0, h1, hk, he⟩ := hWF
  have hk1 : (0 : Int) < (s.laggedKappa.length : Int) := by omega
  refine ⟨⟨?_, Int.emod_nonneg _ (ne_of_gt hk1), Int.emod_lt_of_pos _ hk1⟩,
    ⟨?_, Int.emod_nonneg _ (ne_of_gt hy), ?_⟩⟩
  · unfold Sim.moduloSteps
    rw [Int.tdiv_eq_ediv h1 hi.le, mod_nn_eq_emod (Int.ediv_nonneg h1 hi.le) hk1.le]
  · unfold Sim.moduloYearSteps
    rw [Int.tdiv_eq_ediv h0 hi.le, mod_nn_eq_emod (Int.ediv_nonneg h0 hi.le) hy.le]
  · rw [he]
    exact Int.emod_lt_of_pos _ hy

theorem TransmissionModel.updateKappa_ok (sim : Sim) (s : TransmissionModel)
    (population : List Human) (hWF : TransmissionModel.WellFormed sim s) (x : ℚ)
    (hx : (population = [] ∧ x = 0) ∨
      (population ≠ [] ∧ DBL_MIN * 10 < (population.map Human.avail).sum ∧
        x = (population.map (fun h => h.avail * h.pTransmit)).sum /
          (population.map Human.avail).sum)) :
    s.updateKappa sim population = .ok (x, s.afterKappa sim population x) := by
  obtain ⟨⟨e1, a1, b1⟩, ⟨e2, a2, b2⟩⟩ := TransmissionModel.kappa_indices sim s hWF
  obtain ⟨hw, hk⟩ := TransmissionModel.kappaSums population
  have hread : vecGet (s.laggedKappa.set
      ((sim.ts1 / sim.interval) % (s.laggedKappa.length : Int)).toNat x)
      ((sim.ts1 / sim.interval) % (s.laggedKappa.length : Int)) = .ok x :=
    vecGet_set_same _ x a1 b1
  unfold TransmissionModel.updateKappa
  simp only [e1, e2, hw, hk]
  rcases hx with ⟨hp, rfl⟩ | ⟨hp, hgt, rfl⟩
  · rw [if_pos (by rw [hp]; rfl), vecSet_ok _ _ a1 b1]
    simp only [hread, vecGet_ok_getD _ a2 b2, bind, Except.bind, pure, Except.pure]
    rfl
  · have hl : ¬ population.length = 0 := fun h => hp (List.length_eq_zero.mp h)
    rw [if_neg hl, if_neg (not_not.mpr hgt), vecSet_ok _ _ a1 b1]
    simp only [hread, vecGet_ok_getD _ a2 b2, bind, Except.bind, pure, Except.pure]
    rfl

theorem TransmissionModel.updateKappa_throws (sim : Sim) (s : TransmissionModel)
    (population : List Human) (hne : population ≠ [])
    (hle : ¬ DBL_MIN * 10 < (population.map Human.avail).sum) :
    s.updateKappa sim population = .error .SumWeight := by
  obtain ⟨hw, _⟩ := TransmissionModel.kappaSums population
  have hl : ¬ population.length = 0 := fun h => hne (List.length_eq_zero.mp h)
  unfold TransmissionModel.updateKappa
  simp only [hw]
  rw [if_neg hl, if_pos hle]
  rfl

theorem DBL_MIN_threshold_pos : 0 < DBL_MIN * 10 := by
  unfold DBL_MIN
  positivity

/-- C7: on an empty population `updateKappa` raises no error and returns 0, and the slot of
`laggedKappa` for the current step, `(ts1 / interval) mod laggedKappa.size()`, holds 0
afterwards, whatever `laggedKappa` held before; no other slot changes. -/
theorem TransmissionModel.updateKappa_empty (sim : Sim) (s : TransmissionModel)
    (hWF : TransmissionModel.WellFormed sim s) :
    ∃ s1, s.updateKappa sim [] = .ok (0, s1) ∧
      vecGet s1.laggedKappa (sim.moduloSteps sim.ts1 s.laggedKappa.length) = .ok 0 ∧
      ∀ j : Int, vecGet s1.laggedKappa j =
        if j = (sim.ts1 / sim.interval) % (s.laggedKappa.length : Int) then .ok 0
        else vecGet s.laggedKappa j := by
  obtain ⟨⟨e1, a1, b1⟩, _⟩ := TransmissionModel.kappa_indices sim s hWF
  refine ⟨_, s.updateKappa_ok sim [] hWF 0 (Or.inl ⟨rfl, rfl⟩), ?_, ?_⟩
  · rw [e1]
    exact vecGet_set_same _ 0 a1 b1
  · intro j
    by_cases hj : j = (sim.ts1 / sim.interval) % (s.laggedKappa.length : Int)
    · rw [if_pos hj, hj]
      exact vecGet_set_same _ 0 a1 b1
    · rw [if_neg hj]
      exact vecGet_set_other _ 0 a1 (Ne.symm hj)

/-- C8: `updateKappa` raises the simulation-state error `SumWeight` if and only if the population
is non-empty and the summed availability is not greater than the positive threshold
`10 * DBL_MIN`; it raises no other error; a non-empty population whose hosts all have
availability 0 raises it; and the error differs from the configuration error. -/
theorem TransmissionModel.updateKappa_sumWeight (sim : Sim) (s : TransmissionModel)
    (population : List Human) (hWF : TransmissionModel.WellFormed sim s) :
    (s.updateKappa sim population = .error .SumWeight ↔
      (population ≠ [] ∧ ¬ DBL_MIN * 10 < (population.map Human.avail).sum)) ∧
    (∀ e, s.updateKappa sim population = .error e → e = .SumWeight) ∧
    0 < DBL_MIN * 10 ∧
    (population ≠ [] → (∀ h ∈ population, h.avail = 0) →
      s.updateKappa sim population = .error .SumWeight) ∧
    Error.SumWeight ≠ Error.xml_scenario_error := by
  have hcases : (population ≠ [] ∧ ¬ DBL_MIN * 10 < (population.map Human.avail).sum) ∨
      ∃ x, s.updateKappa sim population = .ok (x, s.afterKappa sim population x) := by
    by_cases hp : population = []
    · exact Or.inr ⟨0, s.updateKappa_ok sim population hWF 0 (Or.inl ⟨hp, rfl⟩)⟩
    · by_cases hgt : DBL_MIN * 10 < (population.map Human.avail).sum
      · exact Or.inr ⟨_, s.updateKappa_ok sim population hWF _ (Or.inr ⟨hp, hgt, rfl⟩)⟩
      · exact Or.inl ⟨hp, hgt⟩
  refine ⟨⟨fun h => ?_, fun h => s.updateKappa_throws sim population h.1 h.2⟩,
    fun e he => ?_, DBL_MIN_threshold_pos, fun hne hz => ?_, by decide⟩
  · rcases hcases with hc | ⟨x, hx⟩
    · exact hc
    · rw [hx] at h; cases h
  · rcases hcases with hc | ⟨x, hx⟩
    · rw [s.updateKappa_throws sim population hc.1 hc.2] at he
      cases he
      rfl
    · rw [hx] at he; cases he
  · apply s.updateKappa_throws sim population hne
    have hsum : (population.map Human.avail).sum = 0 := by
      apply List.sum_eq_zero
      intro x hx
      rw [List.mem_map] at hx
      obtain ⟨h, hh, rfl⟩ := hx
      exact hz h hh
    rw [hsum]
    exact not_lt.mpr DBL_MIN_threshold_pos.le

/-- C9: for a non-empty population whose summed availability exceeds the threshold,
`updateKappa` returns `kappa = (sum_i availability_i * transmitToMosquito_i) /
(sum_i availability_i)`; afterwards the slot `(ts1 / interval) mod laggedKappa.size()` of
`laggedKappa` holds that value and every other slot holds what it held before. -/
theorem TransmissionModel.updateKappa_value (sim : Sim) (s : TransmissionModel)
    (population : List Human) (hWF : TransmissionModel.WellFormed sim s)
    (hne : population ≠ []) (hgt : DBL_MIN * 10 < (population.map Human.avail).sum) :
    ∃ s1, s.updateKappa sim population = .ok
        ((population.map (fun h => h.avail * h.pTransmit)).sum /
          (population.map Human.avail).sum, s1) ∧
      s1.laggedKappa.length = s.laggedKappa.length ∧
      ∀ j : Int, vecGet s1.laggedKappa j =
        if j = (sim.ts1 / sim.interval) % (s.laggedKappa.length : Int) then
          .ok ((population.map (fun h => h.avail * h.pTransmit)).sum /
            (population.map Human.avail).sum)
        else vecGet s.laggedKappa j := by
  obtain ⟨⟨e1, a1, b1⟩, _⟩ := TransmissionModel.kappa_indices sim s hWF
  refine ⟨_, s.updateKappa_ok sim population hWF _ (Or.inr ⟨hne, hgt, rfl⟩), ?_, ?_⟩
  · simp [TransmissionModel.afterKappa]
  · intro j
    by_cases hj : j = (sim.ts1 / sim.interval) % (s.laggedKappa.length : Int)
    · rw [if_pos hj, hj]
      exact vecGet_set_same _ _ a1 b1
    · rw [if_neg hj]
      exact vecGet_set_other _ _ a1 (Ne.symm hj)

theorem exampleCoordinator_wellFormed (k : Nat) :
    TransmissionModel.WellFormed (Sim.atStep 5 73 k) exampleCoordinator := by
  unfold TransmissionModel.WellFormed Sim.atStep
  simp only [exampleCoordinator, List.length_replicate, List.length_cons, List.length_nil]
  refine ⟨by decide, by decide, by positivity, by positivity, by decide, by decide⟩

theorem DBL_MIN_le_quarter : DBL_MIN ≤ 1 / 4 := by
  unfold DBL_MIN
  apply div_le_div_of_nonneg_left (by norm_num) (by norm_num)
  calc (4 : ℚ) = 2 ^ 2 := by norm_num
    _ ≤ 2 ^ 1022 := pow_le_pow_right₀ (by norm_num) (by norm_num)

theorem examplePopulation_weight :
    DBL_MIN * 10 < (examplePopulation.map Human.avail).sum := by
  have e : (examplePopulation.map Human.avail).sum = 4 := by
    simp only [examplePopulation, List.map_cons, List.map_nil, List.sum_cons, List.sum_nil]
    norm_num
  rw [e]
  linarith [DBL_MIN_le_quarter]

theorem examplePopulation_kappa :
    (examplePopulation.map (fun h => h.avail * h.pTransmit)).sum /
      (examplePopulation.map Human.avail).sum = 1 / 4 := by
  simp only [examplePopulation, List.map_cons, List.map_nil, List.sum_cons, List.sum_nil]
  norm_num

/-- C7, at a concrete state: at the last step of the first year (step 72 of 73, five days
each), the empty population gives kappa 0 and slot 1 of the three-slot buffer holds 0. -/
theorem TransmissionModel.updateKappa_empty_witness :
    ∃ s1, exampleCoordinator.updateKappa (Sim.atStep 5 73 72) [] = .ok (0, s1) ∧
      vecGet s1.laggedKappa 1 = .ok 0 ∧ vecGet s1.laggedKappa 0 = .ok (1 / 4) := by
  obtain ⟨s1, h1, h2, h3⟩ :=
    TransmissionModel.updateKappa_empty (Sim.atStep 5 73 72) exampleCoordinator
      (exampleCoordinator_wellFormed 72)
  refine ⟨s1, h1, h2, ?_⟩
  rw [h3 0]
  rfl

/-- C8, at a concrete state: two humans of availability 0 raise the `SumWeight` error. -/
theorem TransmissionModel.updateKappa_sumWeight_witness :
    exampleCoordinator.updateKappa (Sim.atStep 5 73 72) unavailablePopulation
      = .error .SumWeight :=
  (TransmissionModel.updateKappa_sumWeight (Sim.atStep 5 73 72) exampleCoordinator
    unavailablePopulation (exampleCoordinator_wellFormed 72)).2.2.2.1
    (by simp [unavailablePopulation])
    (by simp [unavailablePopulation])

/-- C9, at a concrete state: availabilities 1, 2, 1 and transmission probabilities 1/2, 1/4, 0
give kappa `(1/2 + 1/2 + 0) / 4 = 1/4`, stored in slot 1, with slot 2 as before. -/
theorem TransmissionModel.updateKappa_value_witness :
    ∃ s1, exampleCoordinator.updateKappa (Sim.atStep 5 73 72) examplePopulation
        = .ok (1 / 4, s1) ∧
      vecGet s1.laggedKappa 1 = .ok (1 / 4) ∧ vecGet s1.laggedKappa 2 = .ok (1 / 8) := by
  obtain ⟨s1, h1, _, h3⟩ :=
    TransmissionModel.updateKappa_value (Sim.atStep 5 73 72) exampleCoordinator
      examplePopulation (exampleCoordinator_wellFormed 72)
      (by simp [examplePopulation]) examplePopulation_weight
  rw [examplePopulation_kappa] at h1 h3
  refine ⟨s1, h1, ?_, ?_⟩
  · rw [h3 1]
    rfl
  · rw [h3 2]
    rfl

/-! ## TransmissionModel: the annual average of kappa -/

/-- The loop of `clearInfections` keeps, in order, the infections that fail its test. -/
theorem DescriptiveWithinHostModel.clearInfectionsLoop_eq_filter (stage : Stages) :
    ∀ l : List DescriptiveInfection,
      DescriptiveWithinHostModel.clearInfectionsLoop stage l =
        l.filter (fun inf => !DescriptiveWithinHostModel.clearTest stage inf) := by
  intro l
  induction l with
  | nil => rfl
  | cons inf rest ih =>
    by_cases h : DescriptiveWithinHostModel.clearTest stage inf = true
    · simp [DescriptiveWithinHostModel.clearInfectionsLoop, h, ih]
    · simp [DescriptiveWithinHostModel.clearInfectionsLoop, h, ih]

/-- C12: after `clearInfections(stage)` the collection holds exactly the infections of the
original collection that do not match the stage, in their original order: the blood-stage ones
after `LIVER`, the liver-stage ones after `BLOOD`, none after `BOTH`; and `numInfs` is their
number. -/
theorem DescriptiveWithinHostModel.clearInfections_filter (s : DescriptiveWithinHostModel)
    (stage : Stages) :
    (s.clearInfections stage).infections =
      s.infections.filter (fun inf => decide (¬ (stage = Stages.BOTH ∨
        (stage = Stages.LIVER ∧ inf.bloodStage = false) ∨
        (stage = Stages.BLOOD ∧ inf.bloodStage = true)))) ∧
    (s.clearInfections Stages.LIVER).infections =
      s.infections.filter (fun inf => inf.bloodStage) ∧
    (s.clearInfections Stages.BLOOD).infections =
      s.infections.filter (fun inf => !inf.bloodStage) ∧
    (s.clearInfections Stages.BOTH).infections = [] ∧
    (s.clearInfections stage).numInfs = ((s.clearInfections stage).infections.length : Int) := by
  refine ⟨?_, ?_, ?_, ?_, rfl⟩
  · show DescriptiveWithinHostModel.clearInfectionsLoop stage s.infections = _
    rw [DescriptiveWithinHostModel.clearInfectionsLoop_eq_filter]
    apply List.filter_congr
    intro inf _
    cases stage <;> cases hb : inf.bloodStage <;>
      simp [DescriptiveWithinHostModel.clearTest, hb]
  · show DescriptiveWithinHostModel.clearInfectionsLoop Stages.LIVER s.infections = _
    rw [DescriptiveWithinHostModel.clearInfectionsLoop_eq_filter]
    apply List.filter_congr
    intro inf _
    cases hb : inf.bloodStage <;> simp [DescriptiveWithinHostModel.clearTest, hb]
  · show DescriptiveWithinHostModel.clearInfectionsLoop Stages.BLOOD s.infections = _
    rw [DescriptiveWithinHostModel.clearInfectionsLoop_eq_filter]
    apply List.filter_congr
    intro inf _
    cases hb : inf.bloodStage <;> simp [DescriptiveWithinHostModel.clearTest, hb]
  · show DescriptiveWithinHostModel.clearInfectionsLoop Stages.BOTH s.infections = _
    rw [DescriptiveWithinHostModel.clearInfectionsLoop_eq_filter]
    simp [DescriptiveWithinHostModel.clearTest]

/-- C12, at a concrete state: of three liver-stage and two blood-stage infections,
`clearInfections(BLOOD)` leaves the three liver-stage ones, in their order. -/
theorem DescriptiveWithinHostModel.clearInfections_filter_witness :
    (mixedTracker.clearInfections Stages.BLOOD).infections =
      [{ density := 1, bloodStage := false, expired := false },
       { density := 3, bloodStage := false, expired := false },
       { density := 5, bloodStage := false, expired := false }] ∧
    (mixedTracker.clearInfections Stages.BLOOD).numInfs = 3 := by
  obtain ⟨_, _, h3, _, h5⟩ :=
    DescriptiveWithinHostModel.clearInfections_filter mixedTracker Stages.BLOOD
  rw [h5, h3]
  constructor <;> rfl

/-! ## DescriptiveWithinHostModel: unsupported operations -/

/-- C17, refuted as stated: `addProphylacticEffects` fails with the configuration error
`xml_scenario_error`, which is not the feature-unsupported classification `WHFeatures`. -/
theorem DescriptiveWithinHostModel.unsupported_counterexample :
    mixedTracker.addProphylacticEffects [1 / 2] = .error Error.xml_scenario_error ∧
    mixedTracker.addProphylacticEffects [1 / 2] ≠ .error Error.WHFeatures := by
  constructor
  · rfl
  · intro h
    cases h

/-- C17, amended: `treatPkPd` fails on every input with the feature-unsupported classification
`WHFeatures`, and `addProphylacticEffects` fails on every input with the configuration error;
neither returns normally. -/
theorem DescriptiveWithinHostModel.unsupported_fail (s : DescriptiveWithinHostModel)
    (schedule dosages : Nat) (pClearanceByTime : List ℚ) :
    s.treatPkPd schedule dosages = .error Error.WHFeatures ∧
    s.addProphylacticEffects pClearanceByTime = .error Error.xml_scenario_error ∧
    (∀ s1, s.treatPkPd schedule dosages ≠ .ok s1) ∧
    (∀ s1, s.addProphylacticEffects pClearanceByTime ≠ .ok s1) := by
  refine ⟨rfl, rfl, ?_, ?_⟩
  · intro s1 h
    cases h
  · intro s1 h
    cases h

/-! ## TransmissionModel: readMode and getEIR -/

/-- C18: `readMode` maps "forced" to `forcedEIR` and "dynamic" to `dynamicEIR`, fails with the
configuration error for every other string, among them the empty string, other letter case
and the names of the other modes, and never returns `preInit` or `transientEIRknown`. -/
theorem readMode_cases :
    readMode "forced" = .ok SimulationMode.forcedEIR ∧
    readMode "dynamic" = .ok SimulationMode.dynamicEIR ∧
    (∀ str : String, str ≠ "forced" → str ≠ "dynamic" →
      readMode str = .error Error.xml_scenario_error) ∧
    (∀ str : String, readMode str ≠ .ok SimulationMode.preInit ∧
      readMode str ≠ .ok SimulationMode.transientEIRknown) ∧
    readMode "" = .error Error.xml_scenario_error ∧
    readMode "Forced" = .error Error.xml_scenario_error ∧
    readMode "DYNAMIC" = .error Error.xml_scenario_error ∧
    readMode "preInit" = .error Error.xml_scenario_error ∧
    readMode "transientEIRknown" = .error Error.xml_scenario_error := by
  have hother : ∀ str : String, str ≠ "forced" → str ≠ "dynamic" →
      readMode str = .error Error.xml_scenario_error := by
    intro str h1 h2
    unfold readMode
    rw [if_neg h1, if_neg h2]
  refine ⟨rfl, rfl, hother, ?_, hother _ (by decide) (by decide),
    hother _ (by decide) (by decide), hother _ (by decide) (by decide),
    hother _ (by decide) (by decide), hother _ (by decide) (by decide)⟩
  intro str
  unfold readMode
  by_cases h1 : str = "forced"
  · rw [if_pos h1]
    constructor <;> intro h <;> cases h
  · rw [if_neg h1]
    by_cases h2 : str = "dynamic"
    · rw [if_pos h2]
      constructor <;> intro h <;> cases h
    · rw [if_neg h2]
      constructor <;> intro h <;> cases h

/-- What `getEIR` returns when the strategy fills the vector `EIR`. -/
theorem TransmissionModel.getEIR_ok
    (calculateEIR : TransmissionModel → Human → ℚ → Except Error (List ℚ))
    (s : TransmissionModel) (human : Human) (age : Int) (ageYears : ℚ) (EIR : List ℚ)
    (h : calculateEIR s human ageYears = .ok EIR) :
    s.getEIR calculateEIR human age ageYears = .ok
      (EIR.sum,
        if age ≥ s.adultAge then
          { s with
            tsAdultEntoInocs := s.tsAdultEntoInocs + EIR.sum
            tsNumAdults := s.tsNumAdults + 1 }
        else s) := by
  unfold TransmissionModel.getEIR
  simp only [h, bind, Except.bind]
  by_cases ha : age ≥ s.adultAge
  · rw [if_pos ha, if_pos ha]
    rfl
  · rw [if_neg ha, if_neg ha]
    rfl

/-- A failure of the strategy is the failure of `getEIR`. -/
theorem TransmissionModel.getEIR_error
    (calculateEIR : TransmissionModel → Human → ℚ → Except Error (List ℚ))
    (s : TransmissionModel) (human : Human) (age : Int) (ageYears : ℚ) (e : Error)
    (h : calculateEIR s human ageYears = .error e) :
    s.getEIR calculateEIR human age ageYears = .error e := by
  unfold TransmissionModel.getEIR
  simp only [h, bind, Except.bind]

/-- C19: while `simulationMode` is `preInit`, `getEIR` fails for every host and age, with the
failure of the strategy's contract check, and returns no EIR. -/
theorem TransmissionModel.getEIR_preInit (strategy : SimulationMode → Human → ℚ → List ℚ)
    (s : TransmissionModel) (human : Human) (age : Int) (ageYears : ℚ)
    (h : s.simulationMode = SimulationMode.preInit) :
    s.getEIR (TransmissionModel.calculateEIR strategy) human age ageYears
      = .error Error.assertion ∧
    ∀ r, s.getEIR (TransmissionModel.calculateEIR strategy) human age ageYears ≠ .ok r := by
  have hc : TransmissionModel.calculateEIR strategy s human ageYears = .error Error.assertion := by
    unfold TransmissionModel.calculateEIR
    rw [if_pos h]
  have hg := s.getEIR_error _ human age ageYears _ hc
  refine ⟨hg, ?_⟩
  intro r hr
  rw [hg] at hr
  cases hr

/-- C19, at a concrete state: a coordinator in mode `preInit` gives no EIR to an adult. -/
theorem TransmissionModel.getEIR_preInit_witness :
    preInitCoordinator.simulationMode = SimulationMode.preInit ∧
    preInitCoordinator.getEIR (TransmissionModel.calculateEIR exampleStrategy) ⟨1, 1 / 2⟩
      8000 22 = .error Error.assertion :=
  ⟨rfl, (TransmissionModel.getEIR_preInit exampleStrategy preInitCoordinator ⟨1, 1 / 2⟩
    8000 22 rfl).1⟩

/-- C20: when the strategy fills the vector `EIR`, `getEIR` returns the sum of its entries; for
an age at or above `adultAge` the state left differs from the state before in
`tsAdultEntoInocs`, raised by that sum, and in `tsNumAdults`, raised by one, and in nothing
else; for an age below it the state is unchanged. -/
theorem TransmissionModel.getEIR_sum
    (calculateEIR : TransmissionModel → Human → ℚ → Except Error (List ℚ))
    (s : TransmissionModel) (human : Human) (age : Int) (ageYears : ℚ) (EIR : List ℚ)
    (h : calculateEIR s human ageYears = .ok EIR) :
    (age ≥ s.adultAge →
      s.getEIR calculateEIR human age ageYears = .ok
        (EIR.sum,
          { s with
            tsAdultEntoInocs := s.tsAdultEntoInocs + EIR.sum
            tsNumAdults := s.tsNumAdults + 1 })) ∧
    (age < s.adultAge →
      s.getEIR calculateEIR human age ageYears = .ok (EIR.sum, s)) ∧
    (∃ s1, s.getEIR calculateEIR human age ageYears = .ok (EIR.sum, s1) ∧
      s1.simulationMode = s.simulationMode ∧ s1.interventionMode = s.interventionMode ∧
      s1.initialisationEIR = s.initialisationEIR ∧ s1.laggedKappa = s.laggedKappa ∧
      s1.annualEIR = s.annualEIR ∧ s1._annualAverageKappa = s._annualAverageKappa ∧
      s1._sumAnnualKappa = s._sumAnnualKappa ∧ s1.tsAdultEIR = s.tsAdultEIR ∧
      s1.surveyInputEIR = s.surveyInputEIR ∧ s1.surveySimulatedEIR = s.surveySimulatedEIR ∧
      s1.lastSurveyTime = s.lastSurveyTime ∧ s1.adultAge = s.adultAge ∧
      s1.numTransmittingHumans = s.numTransmittingHumans) := by
  have hg := s.getEIR_ok calculateEIR human age ageYears EIR h
  refine ⟨fun ha => ?_, fun ha => ?_, ?_⟩
  · rw [hg, if_pos ha]
  · rw [hg, if_neg (not_le.mpr ha)]
  · refine ⟨_, hg, ?_⟩
    by_cases ha : age ≥ s.adultAge
    · rw [if_pos ha]
      exact ⟨rfl, rfl, rfl, rfl, rfl, rfl, rfl, rfl, rfl, rfl, rfl, rfl, rfl⟩
    · rw [if_neg ha]
      exact ⟨rfl, rfl, rfl, rfl, rfl, rfl, rfl, rfl, rfl, rfl, rfl, rfl, rfl⟩

/-- C20, at a concrete state: with the per-genotype EIR `1/2` and `1/4`, an adult of 8000 days
gets `3/4`, the accumulator rises from 4 to `19/4` and the count from 2 to 3; a child of 100
days gets `3/4` and both stay. -/
theorem TransmissionModel.getEIR_sum_witness :
    ∃ s1, exampleCoordinator.getEIR (TransmissionModel.calculateEIR exampleStrategy)
        ⟨1, 1 / 2⟩ 8000 22 = .ok (3 / 4, s1) ∧
      s1.tsAdultEntoInocs = 19 / 4 ∧ s1.tsNumAdults = 3 ∧
      exampleCoordinator.getEIR (TransmissionModel.calculateEIR exampleStrategy)
        ⟨1, 1 / 2⟩ 100 (1 / 4) = .ok (3 / 4, exampleCoordinator) := by
  have hsum : ([1 / 2, 1 / 4] : List ℚ).sum = 3 / 4 := by
    simp only [List.sum_cons, List.sum_nil]
    norm_num
  obtain ⟨h1, _, _⟩ :=
    TransmissionModel.getEIR_sum (TransmissionModel.calculateEIR exampleStrategy)
      exampleCoordinator ⟨1, 1 / 2⟩ 8000 22 [1 / 2, 1 / 4] rfl
  obtain ⟨_, h2, _⟩ :=
    TransmissionModel.getEIR_sum (TransmissionModel.calculateEIR exampleStrategy)
      exampleCoordinator ⟨1, 1 / 2⟩ 100 (1 / 4) [1 / 2, 1 / 4] rfl
  have a1 := h1 (by decide)
  have a2 := h2 (by decide)
  rw [hsum] at a1 a2
  refine ⟨_, a1, ?_, rfl, a2⟩
  simp only [exampleCoordinator]
  norm_num

/-! ## DescriptiveWithinHostModel: update -/

/-- The first part of `update` on a tracker that satisfies the count invariant, for a request
of `n >= 0` infections: it succeeds and creates `min n (MAX_INFECTIONS - numInfs)`
infections. -/
theorem DescriptiveWithinHostModel.updateAdd_ok (env : WithinHostEnv) (stats : PopulationStats)
    (s : DescriptiveWithinHostModel) (n : Int)
    (hinv : s.CountInvariant) (hH : DescriptiveWithinHostModel.HistoryWellFormed env s)
    (hn : 0 ≤ n) :
    DescriptiveWithinHostModel.updateAdd env stats s n = .ok
      ({ totalInfections := stats.totalInfections + n
         allowedInfections := stats.allowedInfections + min n (MAX_INFECTIONS - s.numInfs) },
       { s with
         _ylag := s._ylag.set (env.simulation % env._ylagLen).toNat s.totalDensity
         numInfs := s.numInfs + min n (MAX_INFECTIONS - s.numInfs)
         infections := s.infections ++
           List.replicate (min n (MAX_INFECTIONS - s.numInfs)).toNat env.createInfection },
       min n (MAX_INFECTIONS - s.numInfs)) := by
  obtain ⟨h1, h2, h3⟩ := hinv
  obtain ⟨g1, g2, g3⟩ := hH
  have hidx : mod_nn env.simulation env._ylagLen = env.simulation % env._ylagLen :=
    mod_nn_eq_emod g1 g2.le
  have a1 : 0 ≤ env.simulation % env._ylagLen := Int.emod_nonneg _ (ne_of_gt g2)
  have b1 : env.simulation % env._ylagLen < (s._ylag.length : Int) := by
    rw [g3]
    exact Int.emod_lt_of_pos _ g2
  have hk0 : 0 ≤ min n (MAX_INFECTIONS - s.numInfs) := by omega
  have hbound : s.numInfs + min n (MAX_INFECTIONS - s.numInfs) ≥ 0 ∧
      s.numInfs + min n (MAX_INFECTIONS - s.numInfs) ≤ MAX_INFECTIONS := by
    constructor <;> omega
  have hlen : s.numInfs + min n (MAX_INFECTIONS - s.numInfs) =
      ((s.infections ++ List.replicate (min n (MAX_INFECTIONS - s.numInfs)).toNat
        env.createInfection).length : Int) := by
    rw [List.length_append, List.length_replicate]
    push_cast
    rw [Int.toNat_of_nonneg hk0, h1]
  unfold DescriptiveWithinHostModel.updateAdd
  rw [hidx, vecSet_ok _ _ a1 b1]
  simp only [bind, Except.bind, pure, Except.pure]
  rw [if_neg (not_not.mpr hbound), if_neg (not_not.mpr hlen)]

/-- The loop of `update`, from any value of its variables: it appends to the infections kept so
far the infections of the list that fail the removal test, each one advanced by
`determineDensities` with the same arguments `ageInYears`, `cumulativeh`, `cumulativeY`,
`innateImmSurvFact` and `bsvFactor`, in the order of the list; it lowers `numInfs` by the
number of the others; and it adds the densities of the appended infections to `totalDensity`
and, times `interval`, to `_cumulativeY`. -/
theorem DescriptiveWithinHostModel.updateStep_foldl (env : WithinHostEnv)
    (a ch cY innate bsv : ℚ) (tL tB : Bool) :
    ∀ (l : List DescriptiveInfection) (acc : DensityPass),
      ∃ tail : List DescriptiveInfection,
        (l.foldl (DescriptiveWithinHostModel.updateStep env a ch cY innate bsv tL tB)
          acc).infections = acc.infections ++ tail ∧
        List.Forall₂
          (fun inf inf1 => ∃ m, inf1 = (env.determineDensities inf a ch cY m innate bsv).1)
          (l.filter (fun inf => !DescriptiveWithinHostModel.removalTest tL tB inf)) tail ∧
        (l.foldl (DescriptiveWithinHostModel.updateStep env a ch cY innate bsv tL tB)
          acc).numInfs = acc.numInfs - ((l.length : Int) - (tail.length : Int)) ∧
        (l.foldl (DescriptiveWithinHostModel.updateStep env a ch cY innate bsv tL tB)
          acc).totalDensity = acc.totalDensity + (tail.map (fun i => i.density)).sum ∧
        (l.foldl (DescriptiveWithinHostModel.updateStep env a ch cY innate bsv tL tB)
          acc)._cumulativeY =
            acc._cumulativeY + (env.interval : ℚ) * (tail.map (fun i => i.density)).sum := by
  intro l
  induction l with
  | nil =>
    intro acc
    exact ⟨[], by simp, by simp, by simp, by simp, by simp⟩
  | cons inf rest ih =>
    intro acc
    rw [List.foldl_cons]
    by_cases ht : DescriptiveWithinHostModel.removalTest tL tB inf = true
    · have hstep : DescriptiveWithinHostModel.updateStep env a ch cY innate bsv tL tB acc inf
          = { acc with numInfs := acc.numInfs - 1 } := by
        unfold DescriptiveWithinHostModel.updateStep
        rw [if_pos ht]
      rw [hstep]
      obtain ⟨tail, h1, h2, h3, h4, h5⟩ := ih { acc with numInfs := acc.numInfs - 1 }
      refine ⟨tail, h1, ?_, ?_, h4, h5⟩
      · rw [List.filter_cons_of_neg (by simp [ht])]
        exact h2
      · rw [h3]
        simp only [List.length_cons]
        push_cast
        ring
    · have hstep : DescriptiveWithinHostModel.updateStep env a ch cY innate bsv tL tB acc inf
          = { infections := acc.infections ++
                [(env.determineDensities inf a ch cY acc.timeStepMaxDensity innate bsv).1]
              numInfs := acc.numInfs
              totalDensity := acc.totalDensity +
                (env.determineDensities inf a ch cY acc.timeStepMaxDensity innate bsv).1.density
              timeStepMaxDensity :=
                if env.bugfix_max_dens then
                  max (env.determineDensities inf a ch cY acc.timeStepMaxDensity innate bsv).2
                    acc.timeStepMaxDensity
                else (env.determineDensities inf a ch cY acc.timeStepMaxDensity innate bsv).2
              _cumulativeY := acc._cumulativeY + (env.interval : ℚ) *
                (env.determineDensities inf a ch cY acc.timeStepMaxDensity innate
                  bsv).1.density } := by
        unfold DescriptiveWithinHostModel.updateStep
        rw [if_neg ht]
      rw [hstep]
      obtain ⟨tail, h1, h2, h3, h4, h5⟩ := ih _
      refine ⟨(env.determineDensities inf a ch cY acc.timeStepMaxDensity innate bsv).1 :: tail,
        ?_, ?_, ?_, ?_, ?_⟩
      · rw [h1]
        simp
      · rw [List.filter_cons_of_pos (by simp [ht])]
        exact List.Forall₂.cons ⟨_, rfl⟩ h2
      · rw [h3]
        simp only [List.length_cons]
        push_cast
        ring
      · rw [h4]
        simp only [List.map_cons, List.sum_cons]
        ring
      · rw [h5]
        simp only [List.map_cons, List.sum_cons]
        ring

/-- What `update` leaves, on a tracker that satisfies the count invariant, for a request of
`n >= 0` infections. -/
theorem DescriptiveWithinHostModel.update_spec (env : WithinHostEnv) (stats : PopulationStats)
    (s : DescriptiveWithinHostModel) (n : Int) (a b : ℚ)
    (hinv : s.CountInvariant) (hH : DescriptiveWithinHostModel.HistoryWellFormed env s)
    (hn : 0 ≤ n) :
    ∃ s2, DescriptiveWithinHostModel.update env stats s n a b = .ok
        ({ totalInfections := stats.totalInfections + n
           allowedInfections := stats.allowedInfections + min n (MAX_INFECTIONS - s.numInfs) },
          s2) ∧
      List.Forall₂
        (fun inf inf1 => ∃ m, inf1 = (env.determineDensities inf a
          (env.updateImmuneStatus ⟨s._cumulativeh, s._cumulativeY, s._cumulativeYlag⟩)._cumulativeh
          (env.updateImmuneStatus ⟨s._cumulativeh, s._cumulativeY, s._cumulativeYlag⟩)._cumulativeY
          m s._innateImmSurvFact b).1)
        ((s.infections ++ List.replicate (min n (MAX_INFECTIONS - s.numInfs)).toNat
            env.createInfection).filter
          (fun inf => !DescriptiveWithinHostModel.removalTest
            (decide (s.treatExpiryLiver ≥ env.simulation))
            (decide (s.treatExpiryBlood ≥ env.simulation)) inf))
        s2.infections ∧
      s2.numInfs = (s2.infections.length : Int) ∧
      s2.totalDensity = (s2.infections.map (fun i => i.density)).sum ∧
      s2._cumulativeY =
        (env.updateImmuneStatus ⟨s._cumulativeh, s._cumulativeY, s._cumulativeYlag⟩)._cumulativeY
          + (env.interval : ℚ) * (s2.infections.map (fun i => i.density)).sum ∧
      s2._cumulativeh =
        (env.updateImmuneStatus ⟨s._cumulativeh, s._cumulativeY, s._cumulativeYlag⟩)._cumulativeh
          + ((min n (MAX_INFECTIONS - s.numInfs) : Int) : ℚ) ∧
      s2._ylag = s._ylag.set (env.simulation % env._ylagLen).toNat s.totalDensity ∧
      s2.treatExpiryLiver = s.treatExpiryLiver ∧ s2.treatExpiryBlood = s.treatExpiryBlood := by
  have hadd := DescriptiveWithinHostModel.updateAdd_ok env stats s n hinv hH hn
  obtain ⟨h1, h2, h3⟩ := hinv
  have hk0 : 0 ≤ min n (MAX_INFECTIONS - s.numInfs) := by omega
  obtain ⟨tail, f1, f2, f3, f4, f5⟩ :=
    DescriptiveWithinHostModel.updateStep_foldl env a
      (env.updateImmuneStatus ⟨s._cumulativeh, s._cumulativeY, s._cumulativeYlag⟩)._cumulativeh
      (env.updateImmuneStatus ⟨s._cumulativeh, s._cumulativeY, s._cumulativeYlag⟩)._cumulativeY
      s._innateImmSurvFact b
      (decide (s.treatExpiryLiver ≥ env.simulation))
      (decide (s.treatExpiryBlood ≥ env.simulation))
      (s.infections ++ List.replicate (min n (MAX_INFECTIONS - s.numInfs)).toNat
        env.createInfection)
      { infections := [], numInfs := s.numInfs + min n (MAX_INFECTIONS - s.numInfs),
        totalDensity := 0, timeStepMaxDensity := 0,
        _cumulativeY :=
          (env.updateImmuneStatus
            ⟨s._cumulativeh, s._cumulativeY, s._cumulativeYlag⟩)._cumulativeY }
  simp only [List.nil_append, zero_add] at f1 f4
  refine ⟨DescriptiveWithinHostModel.updatePass env
    { s with
      _ylag := s._ylag.set (env.simulation % env._ylagLen).toNat s.totalDensity
      numInfs := s.numInfs + min n (MAX_INFECTIONS - s.numInfs)
      infections := s.infections ++
        List.replicate (min n (MAX_INFECTIONS - s.numInfs)).toNat env.createInfection }
    (min n (MAX_INFECTIONS - s.numInfs)) a b, ?_, ?_, ?_, ?_, ?_, ?_, ?_, ?_, ?_⟩
  · unfold DescriptiveWithinHostModel.update
    rw [hadd]
    rfl
  · simp only [DescriptiveWithinHostModel.updatePass]
    rw [f1]
    exact f2
  · simp only [DescriptiveWithinHostModel.updatePass]
    rw [f3, f1, List.length_append, List.length_replicate]
    push_cast
    rw [Int.toNat_of_nonneg hk0, h1]
    ring
  · simp only [DescriptiveWithinHostModel.updatePass]
    rw [f4, f1]
  · simp only [DescriptiveWithinHostModel.updatePass]
    rw [f5, f1]
  · rfl
  · rfl
  · rfl
  · rfl

/-- The removal test of `update`, in words: the infection has expired, or it is blood-stage and
the blood-stage treatment has not expired, or it is liver-stage and the liver-stage treatment
has not expired. -/
theorem DescriptiveWithinHostModel.removalTest_iff (env : WithinHostEnv)
    (s : DescriptiveWithinHostModel) (inf : DescriptiveInfection) :
    DescriptiveWithinHostModel.removalTest (decide (s.treatExpiryLiver ≥ env.simulation))
        (decide (s.treatExpiryBlood ≥ env.simulation)) inf = true ↔
      (inf.expired = true ∨
        (inf.bloodStage = true ∧ s.treatExpiryBlood ≥ env.simulation) ∨
        (inf.bloodStage = false ∧ s.treatExpiryLiver ≥ env.simulation)) := by
  unfold DescriptiveWithinHostModel.removalTest
  cases he : inf.expired <;> cases hb : inf.bloodStage <;> simp

theorem DescriptiveWithinHostModel.survivors_eq (env : WithinHostEnv)
    (s : DescriptiveWithinHostModel) (l : List DescriptiveInfection) :
    l.filter (fun inf => !DescriptiveWithinHostModel.removalTest
        (decide (s.treatExpiryLiver ≥ env.simulation))
        (decide (s.treatExpiryBlood ≥ env.simulation)) inf) =
      l.filter (fun inf => decide (¬ (inf.expired = true ∨
        (inf.bloodStage = true ∧ s.treatExpiryBlood ≥ env.simulation) ∨
        (inf.bloodStage = false ∧ s.treatExpiryLiver ≥ env.simulation)))) := by
  apply List.filter_congr
  intro inf _
  have h := DescriptiveWithinHostModel.removalTest_iff env s inf
  by_cases ht : DescriptiveWithinHostModel.removalTest
      (decide (s.treatExpiryLiver ≥ env.simulation))
      (decide (s.treatExpiryBlood ≥ env.simulation)) inf = true
  · rw [ht, decide_eq_false (not_not.mpr (h.mp ht))]
    rfl
  · have hn : ¬ (inf.expired = true ∨
        (inf.bloodStage = true ∧ s.treatExpiryBlood ≥ env.simulation) ∨
        (inf.bloodStage = false ∧ s.treatExpiryLiver ≥ env.simulation)) :=
      fun hc => ht (h.mpr hc)
    simp only [Bool.not_eq_true] at ht
    rw [ht, decide_eq_true hn]
    rfl

/-- C11: for a tracker that holds `c = numInfs <= MAX_INFECTIONS` infections and a request of
`n >= 0` new infections, `update` creates exactly `min n (MAX_INFECTIONS - c)` infections,
appended to the collection; `totalInfections` grows by `n` and `allowedInfections` by the
number created, so the rejected count grows by `max 0 (c + n - MAX_INFECTIONS)`; and if no
infection of the collection expires or is treated in the call, the tracker ends with
`min (c + n) MAX_INFECTIONS` infections. -/
theorem DescriptiveWithinHostModel.update_capacity (env : WithinHostEnv)
    (stats : PopulationStats) (s : DescriptiveWithinHostModel) (n : Int) (a b : ℚ)
    (hinv : s.CountInvariant) (hH : DescriptiveWithinHostModel.HistoryWellFormed env s)
    (hn : 0 ≤ n) :
    ∃ st s1 s2,
      DescriptiveWithinHostModel.updateAdd env stats s n =
        .ok (st, s1, min n (MAX_INFECTIONS - s.numInfs)) ∧
      DescriptiveWithinHostModel.update env stats s n a b = .ok (st, s2) ∧
      s1.infections = s.infections ++
        List.replicate (min n (MAX_INFECTIONS - s.numInfs)).toNat env.createInfection ∧
      (s1.infections.length : Int) =
        (s.infections.length : Int) + min n (MAX_INFECTIONS - s.numInfs) ∧
      st.totalInfections = stats.totalInfections + n ∧
      st.allowedInfections = stats.allowedInfections + min n (MAX_INFECTIONS - s.numInfs) ∧
      (st.totalInfections - st.allowedInfections) -
          (stats.totalInfections - stats.allowedInfections) =
        max 0 (s.numInfs + n - MAX_INFECTIONS) ∧
      ((∀ inf ∈ s1.infections, inf.expired = false ∧
          (inf.bloodStage = true → ¬ s.treatExpiryBlood ≥ env.simulation) ∧
          (inf.bloodStage = false → ¬ s.treatExpiryLiver ≥ env.simulation)) →
        s2.numInfs = min (s.numInfs + n) MAX_INFECTIONS ∧
        (s2.infections.length : Int) = min (s.numInfs + n) MAX_INFECTIONS) := by
  have hadd := DescriptiveWithinHostModel.updateAdd_ok env stats s n hinv hH hn
  obtain ⟨s2, hupd, hfor, hnum, _⟩ :=
    DescriptiveWithinHostModel.update_spec env stats s n a b hinv hH hn
  obtain ⟨h1, h2, h3⟩ := hinv
  have hk0 : 0 ≤ min n (MAX_INFECTIONS - s.numInfs) := by omega
  have hlen : ((s.infections ++ List.replicate (min n (MAX_INFECTIONS - s.numInfs)).toNat
      env.createInfection).length : Int) =
      (s.infections.length : Int) + min n (MAX_INFECTIONS - s.numInfs) := by
    rw [List.length_append, List.length_replicate]
    push_cast
    rw [Int.toNat_of_nonneg hk0]
  refine ⟨_, _, s2, hadd, hupd, rfl, hlen, rfl, rfl, ?_, ?_⟩
  · show stats.totalInfections + n -
      (stats.allowedInfections + min n (MAX_INFECTIONS - s.numInfs)) -
        (stats.totalInfections - stats.allowedInfections) = _
    omega
  · intro hkeep
    have hall : (s.infections ++ List.replicate (min n (MAX_INFECTIONS - s.numInfs)).toNat
        env.createInfection).filter
          (fun inf => !DescriptiveWithinHostModel.removalTest
            (decide (s.treatExpiryLiver ≥ env.simulation))
            (decide (s.treatExpiryBlood ≥ env.simulation)) inf) =
        s.infections ++ List.replicate (min n (MAX_INFECTIONS - s.numInfs)).toNat
          env.createInfection := by
      rw [List.filter_eq_self]
      intro inf hmem
      obtain ⟨e1, e2, e3⟩ := hkeep inf hmem
      have hnot : ¬ DescriptiveWithinHostModel.removalTest
          (decide (s.treatExpiryLiver ≥ env.simulation))
          (decide (s.treatExpiryBlood ≥ env.simulation)) inf = true := by
        rw [DescriptiveWithinHostModel.removalTest_iff]
        rintro (h | ⟨hb, ht⟩ | ⟨hb, ht⟩)
        · rw [e1] at h; cases h
        · exact e2 hb ht
        · exact e3 hb ht
      simp only [Bool.not_eq_true] at hnot
      rw [hnot]
      rfl
    rw [hall] at hfor
    have hl := hfor.length_eq
    have hl2 : (s2.infections.length : Int) =
        (s.infections.length : Int) + min n (MAX_INFECTIONS - s.numInfs) := by
      rw [← hl]
      exact hlen
    constructor
    · rw [hnum, hl2]
      omega
    · rw [hl2]
      omega

theorem DescriptiveWithinHostModel.importInfection_spec (env : WithinHostEnv)
    (stats : PopulationStats) (s : DescriptiveWithinHostModel) (hinv : s.CountInvariant) :
    ∃ st s1, DescriptiveWithinHostModel.importInfection env stats s = .ok (st, s1) ∧
      s1.CountInvariant := by
  obtain ⟨h1, h2, h3⟩ := hinv
  unfold DescriptiveWithinHostModel.importInfection
  by_cases hlt : s.numInfs < MAX_INFECTIONS
  · have hlen : s.numInfs + 1 = ((s.infections ++ [env.createInfection]).length : Int) := by
      rw [List.length_append, List.length_singleton]
      push_cast
      rw [h1]
    simp only [if_pos hlt, bind, Except.bind, pure, Except.pure]
    rw [if_neg (not_not.mpr hlen)]
    refine ⟨_, _, rfl, hlen, ?_, ?_⟩
    · show (0 : Int) ≤ s.numInfs + 1
      omega
    · show s.numInfs + 1 ≤ MAX_INFECTIONS
      omega
  · simp only [if_neg hlt, bind, Except.bind, pure, Except.pure]
    rw [if_neg (not_not.mpr h1)]
    exact ⟨_, _, rfl, h1, h2, h3⟩

theorem DescriptiveWithinHostModel.clearInfectionsLoop_length (stage : Stages) :
    ∀ l : List DescriptiveInfection,
      (DescriptiveWithinHostModel.clearInfectionsLoop stage l).length ≤ l.length := by
  intro l
  rw [DescriptiveWithinHostModel.clearInfectionsLoop_eq_filter]
  exact List.length_filter_le _ _

/-- C13: from a tracker in which `numInfs` is the size of the collection and lies in
`[0, MAX_INFECTIONS]`, each mutating call, `update` with any request `n >= 0`,
`importInfection`, `clearInfections(stage)` and `clearImmunity`, runs to its end and leaves a
tracker in which `numInfs` is again the size of the collection and lies in
`[0, MAX_INFECTIONS]`. -/
theorem DescriptiveWithinHostModel.count_invariant (env : WithinHostEnv)
    (stats : PopulationStats) (s : DescriptiveWithinHostModel) (hinv : s.CountInvariant) :
    (∀ (n : Int) (a b : ℚ), 0 ≤ n → DescriptiveWithinHostModel.HistoryWellFormed env s →
      ∃ st s1, DescriptiveWithinHostModel.update env stats s n a b = .ok (st, s1) ∧
        s1.CountInvariant) ∧
    (∃ st s1, DescriptiveWithinHostModel.importInfection env stats s = .ok (st, s1) ∧
      s1.CountInvariant) ∧
    (∀ stage : Stages, (s.clearInfections stage).CountInvariant) ∧
    (DescriptiveWithinHostModel.clearImmunity env s).CountInvariant := by
  refine ⟨?_, DescriptiveWithinHostModel.importInfection_spec env stats s hinv, ?_, ?_⟩
  · intro n a b hn hH
    obtain ⟨s2, hupd, hfor, hnum, _⟩ :=
      DescriptiveWithinHostModel.update_spec env stats s n a b hinv hH hn
    obtain ⟨h1, h2, h3⟩ := hinv
    have hk0 : 0 ≤ min n (MAX_INFECTIONS - s.numInfs) := by omega
    have hl := hfor.length_eq
    have hle := List.length_filter_le
      (fun inf => !DescriptiveWithinHostModel.removalTest
        (decide (s.treatExpiryLiver ≥ env.simulation))
        (decide (s.treatExpiryBlood ≥ env.simulation)) inf)
      (s.infections ++ List.replicate (min n (MAX_INFECTIONS - s.numInfs)).toNat
        env.createInfection)
    rw [hl, List.length_append, List.length_replicate] at hle
    refine ⟨_, s2, hupd, hnum, ?_, ?_⟩
    · rw [hnum]
      omega
    · rw [hnum]
      omega
  · intro stage
    obtain ⟨h1, h2, h3⟩ := hinv
    have hle := DescriptiveWithinHostModel.clearInfectionsLoop_length stage s.infections
    refine ⟨rfl, ?_, ?_⟩
    · show (0 : Int) ≤
        ((DescriptiveWithinHostModel.clearInfectionsLoop stage s.infections).length : Int)
      omega
    · show ((DescriptiveWithinHostModel.clearInfectionsLoop stage s.infections).length : Int)
        ≤ MAX_INFECTIONS
      omega
  · obtain ⟨h1, h2, h3⟩ := hinv
    refine ⟨?_, h2, h3⟩
    show s.numInfs = (((s.infections.map env.clearImmunity).length : Nat) : Int)
    rw [List.length_map]
    exact h1

/-- C14: in a call of `update`, of the collection as it stands after the new infections were
appended, the infections that stay are exactly those for which none of the three holds: it has
expired; it is blood-stage and the blood-stage treatment expiry time is `>=` the current time
step; it is liver-stage and the liver-stage treatment expiry time is `>=` the current time
step.  They stay in their order, each advanced by `determineDensities`.  A blood-stage
infection that has not expired stays whenever the blood-stage treatment has expired, whatever
the liver-stage treatment, and likewise for a liver-stage infection. -/
theorem DescriptiveWithinHostModel.update_removal (env : WithinHostEnv)
    (stats : PopulationStats) (s : DescriptiveWithinHostModel) (n : Int) (a b : ℚ)
    (hinv : s.CountInvariant) (hH : DescriptiveWithinHostModel.HistoryWellFormed env s)
    (hn : 0 ≤ n) :
    ∃ st s1 s2,
      DescriptiveWithinHostModel.updateAdd env stats s n =
        .ok (st, s1, min n (MAX_INFECTIONS - s.numInfs)) ∧
      DescriptiveWithinHostModel.update env stats s n a b = .ok (st, s2) ∧
      List.Forall₂
        (fun inf inf1 => ∃ m, inf1 = (env.determineDensities inf a
          (env.updateImmuneStatus ⟨s._cumulativeh, s._cumulativeY, s._cumulativeYlag⟩)._cumulativeh
          (env.updateImmuneStatus ⟨s._cumulativeh, s._cumulativeY, s._cumulativeYlag⟩)._cumulativeY
          m s._innateImmSurvFact b).1)
        (s1.infections.filter (fun inf => decide (¬ (inf.expired = true ∨
          (inf.bloodStage = true ∧ s.treatExpiryBlood ≥ env.simulation) ∨
          (inf.bloodStage = false ∧ s.treatExpiryLiver ≥ env.simulation)))))
        s2.infections ∧
      (∀ inf ∈ s1.infections, inf.expired = false → inf.bloodStage = true →
        ¬ s.treatExpiryBlood ≥ env.simulation →
        inf ∈ s1.infections.filter (fun inf => decide (¬ (inf.expired = true ∨
          (inf.bloodStage = true ∧ s.treatExpiryBlood ≥ env.simulation) ∨
          (inf.bloodStage = false ∧ s.treatExpiryLiver ≥ env.simulation))))) ∧
      (∀ inf ∈ s1.infections, inf.expired = false → inf.bloodStage = false →
        ¬ s.treatExpiryLiver ≥ env.simulation →
        inf ∈ s1.infections.filter (fun inf => decide (¬ (inf.expired = true ∨
          (inf.bloodStage = true ∧ s.treatExpiryBlood ≥ env.simulation) ∨
          (inf.bloodStage = false ∧ s.treatExpiryLiver ≥ env.simulation))))) := by
  have hadd := DescriptiveWithinHostModel.updateAdd_ok env stats s n hinv hH hn
  obtain ⟨s2, hupd, hfor, _⟩ :=
    DescriptiveWithinHostModel.update_spec env stats s n a b hinv hH hn
  rw [DescriptiveWithinHostModel.survivors_eq] at hfor
  refine ⟨_, _, s2, hadd, hupd, hfor, ?_, ?_⟩
  · intro inf hmem he hb ht
    rw [List.mem_filter]
    refine ⟨hmem, decide_eq_true ?_⟩
    rintro (h | ⟨_, h⟩ | ⟨h, _⟩)
    · rw [he] at h; cases h
    · exact ht h
    · rw [hb] at h; cases h
  · intro inf hmem he hb ht
    rw [List.mem_filter]
    refine ⟨hmem, decide_eq_true ?_⟩
    rintro (h | ⟨h, _⟩ | ⟨_, h⟩)
    · rw [he] at h; cases h
    · rw [hb] at h; cases h
    · exact ht h

/-- C15, amended: `update` writes the total density that the tracker held before the call, the
one that the call before accumulated, into the slot `simulation mod _ylagLen` of the history,
as the first of its actions, and leaves every other slot unchanged; the density accumulated in
the pass of this call is left in `totalDensity`. -/
theorem DescriptiveWithinHostModel.update_history (env : WithinHostEnv)
    (stats : PopulationStats) (s : DescriptiveWithinHostModel) (n : Int) (a b : ℚ)
    (hinv : s.CountInvariant) (hH : DescriptiveWithinHostModel.HistoryWellFormed env s)
    (hn : 0 ≤ n) :
    ∃ st s1 s2,
      DescriptiveWithinHostModel.updateAdd env stats s n =
        .ok (st, s1, min n (MAX_INFECTIONS - s.numInfs)) ∧
      DescriptiveWithinHostModel.update env stats s n a b = .ok (st, s2) ∧
      s2._ylag = s1._ylag ∧
      (∀ j : Int, vecGet s2._ylag j =
        if j = env.simulation % env._ylagLen then .ok s.totalDensity
        else vecGet s._ylag j) ∧
      s2.totalDensity = (s2.infections.map (fun i => i.density)).sum := by
  have hadd := DescriptiveWithinHostModel.updateAdd_ok env stats s n hinv hH hn
  obtain ⟨s2, hupd, _, _, hdens, _, _, hylag, _⟩ :=
    DescriptiveWithinHostModel.update_spec env stats s n a b hinv hH hn
  obtain ⟨g1, g2, g3⟩ := hH
  have a1 : 0 ≤ env.simulation % env._ylagLen := Int.emod_nonneg _ (ne_of_gt g2)
  have b1 : env.simulation % env._ylagLen < (s._ylag.length : Int) := by
    rw [g3]
    exact Int.emod_lt_of_pos _ g2
  refine ⟨_, _, s2, hadd, hupd, hylag, ?_, hdens⟩
  intro j
  rw [hylag]
  by_cases hj : j = env.simulation % env._ylagLen
  · rw [if_pos hj, hj]
    exact vecGet_set_same _ _ a1 b1
  · rw [if_neg hj]
    exact vecGet_set_other _ _ a1 (Ne.symm hj)

/-! ## DescriptiveWithinHostModel: concrete calls -/

theorem mixedTracker_wellFormed :
    mixedTracker.CountInvariant ∧
      DescriptiveWithinHostModel.HistoryWellFormed exampleEnv mixedTracker := by
  constructor <;> decide

/-- The call `update(0, 30, 1)` on the tracker with three liver-stage and two blood-stage
infections, at time step 7, while the blood-stage treatment is active: the two blood-stage
infections are erased, the three others rise to the densities 2, 4 and 6. -/
theorem mixedTracker_update :
    ∃ s2, DescriptiveWithinHostModel.update exampleEnv exampleStats mixedTracker 0 30 1 =
        .ok ({ totalInfections := 100, allowedInfections := 90 }, s2) ∧
      s2.infections =
        [{ density := 2, bloodStage := false, expired := false },
         { density := 4, bloodStage := false, expired := false },
         { density := 6, bloodStage := false, expired := false }] ∧
      s2.numInfs = 3 ∧ s2.totalDensity = 12 ∧ s2._cumulativeY = 70 ∧
      s2._ylag = [1, 2, 3, 7] := by
  obtain ⟨s2, hupd, hfor, hnum, hdens, hcum, _, hylag, _⟩ :=
    DescriptiveWithinHostModel.update_spec exampleEnv exampleStats mixedTracker 0 30 1
      mixedTracker_wellFormed.1 mixedTracker_wellFormed.2 (le_refl 0)
  have hs : (mixedTracker.infections ++
      List.replicate (min 0 (MAX_INFECTIONS - mixedTracker.numInfs)).toNat
        exampleEnv.createInfection).filter
        (fun inf => !DescriptiveWithinHostModel.removalTest
          (decide (mixedTracker.treatExpiryLiver ≥ exampleEnv.simulation))
          (decide (mixedTracker.treatExpiryBlood ≥ exampleEnv.simulation)) inf) =
      [{ density := 1, bloodStage := false, expired := false },
       { density := 3, bloodStage := false, expired := false },
       { density := 5, bloodStage := false, expired := false }] := by
    rfl
  rw [hs] at hfor
  have hinf : s2.infections =
      [{ density := 2, bloodStage := false, expired := false },
       { density := 4, bloodStage := false, expired := false },
       { density := 6, bloodStage := false, expired := false }] := by
    rw [List.forall₂_cons_left_iff] at hfor
    obtain ⟨x1, u1, ⟨_, rfl⟩, hfor, e1⟩ := hfor
    rw [List.forall₂_cons_left_iff] at hfor
    obtain ⟨x2, u2, ⟨_, rfl⟩, hfor, rfl⟩ := hfor
    rw [List.forall₂_cons_left_iff] at hfor
    obtain ⟨x3, u3, ⟨_, rfl⟩, hfor, rfl⟩ := hfor
    rw [List.forall₂_nil_left_iff] at hfor
    subst hfor
    rw [e1]
    simp only [exampleEnv]
    norm_num
  refine ⟨s2, hupd, hinf, ?_, ?_, ?_, ?_⟩
  · rw [hnum, hinf]
    rfl
  · rw [hdens, hinf]
    simp only [List.map_cons, List.map_nil, List.sum_cons, List.sum_nil]
    norm_num
  · rw [hcum, hinf]
    simp only [List.map_cons, List.map_nil, List.sum_cons, List.sum_nil, exampleEnv,
      mixedTracker]
    norm_num
  · rw [hylag]
    rfl

theorem fullTracker_wellFormed :
    fullTracker.CountInvariant ∧
      DescriptiveWithinHostModel.HistoryWellFormed exampleEnv fullTracker := by
  constructor <;> decide

/-- C11, at a concrete state, with `MAX_INFECTIONS = 21`: a tracker that holds 20 infections and
is asked for 5 more ends with 21 infections; the requested total rises from 100 to 105, the
allowed total from 90 to 91, and the rejected count by 4. -/
theorem DescriptiveWithinHostModel.update_capacity_witness :
    ∃ st s2, DescriptiveWithinHostModel.update exampleEnv exampleStats fullTracker 5 30 1 =
        .ok (st, s2) ∧
      s2.numInfs = 21 ∧ (s2.infections.length : Int) = 21 ∧
      st.totalInfections = 105 ∧ st.allowedInfections = 91 ∧
      (st.totalInfections - st.allowedInfections) -
        (exampleStats.totalInfections - exampleStats.allowedInfections) = 4 := by
  obtain ⟨st, s1, s2, _, hupd, hs1, _, ht, ha, hrej, hkeep⟩ :=
    DescriptiveWithinHostModel.update_capacity exampleEnv exampleStats fullTracker 5 30 1
      fullTracker_wellFormed.1 fullTracker_wellFormed.2 (by decide)
  have hall : ∀ inf ∈ s1.infections, inf.expired = false ∧
      (inf.bloodStage = true → ¬ fullTracker.treatExpiryBlood ≥ exampleEnv.simulation) ∧
      (inf.bloodStage = false → ¬ fullTracker.treatExpiryLiver ≥ exampleEnv.simulation) := by
    intro inf hmem
    rw [hs1, List.mem_append] at hmem
    rcases hmem with h | h
    · have e := List.eq_of_mem_replicate h
      subst e
      exact ⟨rfl, fun _ => by decide, fun _ => by decide⟩
    · have e := List.eq_of_mem_replicate h
      subst e
      exact ⟨rfl, fun _ => by decide, fun _ => by decide⟩
  obtain ⟨k1, k2⟩ := hkeep hall
  refine ⟨st, s2, hupd, ?_, ?_, ?_, ?_, ?_⟩
  · rw [k1]; rfl
  · rw [k2]; rfl
  · rw [ht]; rfl
  · rw [ha]; rfl
  · rw [hrej]; rfl

/-- C13, at a concrete state: from the tracker that holds 20 infections, each of the four
mutating calls leaves the count invariant in force. -/
theorem DescriptiveWithinHostModel.count_invariant_witness :
    (∃ st s1, DescriptiveWithinHostModel.update exampleEnv exampleStats fullTracker 5 30 1 =
        .ok (st, s1) ∧ s1.CountInvariant) ∧
    (∃ st s1, DescriptiveWithinHostModel.importInfection exampleEnv exampleStats fullTracker =
        .ok (st, s1) ∧ s1.CountInvariant) ∧
    (fullTracker.clearInfections Stages.BLOOD).CountInvariant ∧
    (DescriptiveWithinHostModel.clearImmunity exampleEnv fullTracker).CountInvariant := by
  obtain ⟨h1, h2, h3, h4⟩ :=
    DescriptiveWithinHostModel.count_invariant exampleEnv exampleStats fullTracker
      fullTracker_wellFormed.1
  exact ⟨h1 5 30 1 (by decide) fullTracker_wellFormed.2, h2, h3 Stages.BLOOD, h4⟩

/-- C14, at a concrete state: at time step 7, with the blood-stage treatment active until step
9 and the liver-stage treatment expired, the two blood-stage infections are removed and the
three liver-stage ones stay, in their order. -/
theorem DescriptiveWithinHostModel.update_removal_witness :
    ∃ st s2, DescriptiveWithinHostModel.update exampleEnv exampleStats mixedTracker 0 30 1 =
        .ok (st, s2) ∧
      s2.infections =
        [{ density := 2, bloodStage := false, expired := false },
         { density := 4, bloodStage := false, expired := false },
         { density := 6, bloodStage := false, expired := false }] := by
  obtain ⟨st, _, s2, _, hupd, _⟩ :=
    DescriptiveWithinHostModel.update_removal exampleEnv exampleStats mixedTracker 0 30 1
      mixedTracker_wellFormed.1 mixedTracker_wellFormed.2 (le_refl 0)
  obtain ⟨s3, hupd3, hinf, _⟩ := mixedTracker_update
  rw [hupd] at hupd3
  cases hupd3
  exact ⟨_, _, hupd, hinf⟩

/-- C15, refuted as stated: the tracker holds the total density 7 before the call, and the pass
of the call accumulates 12; afterwards the slot `7 mod 4 = 3` of the history holds 7, not
12. -/
theorem DescriptiveWithinHostModel.history_counterexample :
    (DescriptiveWithinHostModel.update exampleEnv exampleStats mixedTracker 0 30 1).map
        (fun r => (r.2._ylag, r.2.totalDensity)) = .ok ([1, 2, 3, 7], 12) ∧
    exampleEnv.simulation % exampleEnv._ylagLen = 3 ∧
    mixedTracker.totalDensity = 7 ∧
    vecGet [1, 2, 3, 7] 3 ≠ .ok 12 := by
  obtain ⟨s2, hupd, _, _, hdens, _, hylag⟩ := mixedTracker_update
  refine ⟨?_, by decide, rfl, ?_⟩
  · rw [hupd]
    show Except.ok (s2._ylag, s2.totalDensity) = _
    rw [hylag, hdens]
  · have h : vecGet [1, 2, 3, 7] 3 = .ok 7 := rfl
    rw [h]
    intro hc
    have h2 : (7 : ℚ) = 12 := by
      cases hc
    norm_num at h2

/-- C15, amended, at a concrete state: after the call the slot 3 of the history holds 7, the
total density before the call, the slot 0 still holds 1, and `totalDensity` is 12. -/
theorem DescriptiveWithinHostModel.update_history_witness :
    ∃ st s2, DescriptiveWithinHostModel.update exampleEnv exampleStats mixedTracker 0 30 1 =
        .ok (st, s2) ∧
      vecGet s2._ylag 3 = .ok 7 ∧ vecGet s2._ylag 0 = .ok 1 ∧ s2.totalDensity = 12 := by
  obtain ⟨st, _, s2, _, hupd, _, hslot, _⟩ :=
    DescriptiveWithinHostModel.update_history exampleEnv exampleStats mixedTracker 0 30 1
      mixedTracker_wellFormed.1 mixedTracker_wellFormed.2 (le_refl 0)
  obtain ⟨s3, hupd3, _, _, hdens, _⟩ := mixedTracker_update
  rw [hupd] at hupd3
  cases hupd3
  refine ⟨_, _, hupd, ?_, ?_, hdens⟩
  · rw [hslot 3]
    rfl
  · rw [hslot 0]
    rfl

/-! ## TransmissionModel: kappa as a probability -/

/-- The count that the loop of `updateKappa` leaves: one for every human whose risk of
transmission `avail * pTransmit` is positive. -/
theorem TransmissionModel.foldl_kappaStep_count (population : List Human) :
    ∀ acc : KappaSums,
      (population.foldl TransmissionModel.kappaStep acc).numTransmittingHumans =
        acc.numTransmittingHumans +
          ((population.filter (fun h => decide (h.avail * h.pTransmit > 0))).length : Int) := by
  induction population with
  | nil => intro acc; simp
  | cons h t ih =>
    intro acc
    rw [List.foldl_cons, ih]
    by_cases hp : h.avail * h.pTransmit > 0
    · simp only [TransmissionModel.kappaStep, if_pos hp, List.filter_cons, decide_eq_true hp,
        if_true, List.length_cons]
      push_cast
      ring
    · simp only [TransmissionModel.kappaStep, if_neg hp, List.filter_cons, decide_eq_false hp]
      simp

theorem sum_risk_bounds (population : List Human)
    (ha : ∀ h ∈ population, 0 ≤ h.avail)
    (hp : ∀ h ∈ population, 0 ≤ h.pTransmit ∧ h.pTransmit ≤ 1) :
    0 ≤ (population.map (fun h => h.avail * h.pTransmit)).sum ∧
    (population.map (fun h => h.avail * h.pTransmit)).sum ≤ (population.map Human.avail).sum := by
  induction population with
  | nil => simp
  | cons h t ih =>
    obtain ⟨i1, i2⟩ := ih (fun x hx => ha x (List.mem_cons_of_mem _ hx))
      (fun x hx => hp x (List.mem_cons_of_mem _ hx))
    have h0 := ha h (List.mem_cons_self _ _)
    obtain ⟨p0, p1⟩ := hp h (List.mem_cons_self _ _)
    simp only [List.map_cons, List.sum_cons]
    have e1 : 0 ≤ h.avail * h.pTransmit := mul_nonneg h0 p0
    have e2 : h.avail * h.pTransmit ≤ h.avail := by nlinarith
    constructor <;> linarith

/-- C30: for a non-empty population in which every availability is at least 0 and every
probability of transmission to the mosquito lies in `[0, 1]`, and whose summed availability
exceeds the threshold, `updateKappa` returns a kappa with `0 ≤ kappa ≤ 1`; the
`numTransmittingHumans` it leaves is the number of humans with `avail * pTransmit > 0`, which
lies between 0 and the size of the population. -/
theorem TransmissionModel.updateKappa_probability (sim : Sim) (s : TransmissionModel)
    (population : List Human) (hWF : TransmissionModel.WellFormed sim s)
    (hne : population ≠ [])
    (ha : ∀ h ∈ population, 0 ≤ h.avail)
    (hp : ∀ h ∈ population, 0 ≤ h.pTransmit ∧ h.pTransmit ≤ 1)
    (hgt : DBL_MIN * 10 < (population.map Human.avail).sum) :
    ∃ kappa s1, s.updateKappa sim population = .ok (kappa, s1) ∧
      0 ≤ kappa ∧ kappa ≤ 1 ∧
      s1.numTransmittingHumans =
        ((population.filter (fun h => decide (h.avail * h.pTransmit > 0))).length : Int) ∧
      0 ≤ s1.numTransmittingHumans ∧ s1.numTransmittingHumans ≤ (population.length : Int) := by
  obtain ⟨b0, b1⟩ := sum_risk_bounds population ha hp
  have hpos : 0 < (population.map Human.avail).sum := lt_trans DBL_MIN_threshold_pos hgt
  have hcount := TransmissionModel.foldl_kappaStep_count population
    { sumWt_kappa := 0, sumWeight := 0, numTransmittingHumans := 0 }
  have hn : (s.afterKappa sim population ((population.map (fun h => h.avail * h.pTransmit)).sum /
      (population.map Human.avail).sum)).numTransmittingHumans =
      ((population.filter (fun h => decide (h.avail * h.pTransmit > 0))).length : Int) := by
    simp only [TransmissionModel.afterKappa, hcount]
    simp
  refine ⟨_, _, s.updateKappa_ok sim population hWF _ (Or.inr ⟨hne, hgt, rfl⟩),
    div_nonneg b0 hpos.le, (div_le_one hpos).mpr b1, hn, ?_, ?_⟩
  · rw [hn]
    exact Int.ofNat_nonneg _
  · rw [hn]
    exact Int.ofNat_le.mpr (List.length_filter_le _ _)

/-- C30, at a concrete state: availabilities 1, 2, 1 with transmission probabilities 1/2, 1/4,
0 give a kappa in `[0, 1]` and two transmitting humans out of three. -/
theorem TransmissionModel.updateKappa_probability_witness :
    ∃ kappa s1, exampleCoordinator.updateKappa (Sim.atStep 5 73 72) examplePopulation
        = .ok (kappa, s1) ∧
      0 ≤ kappa ∧ kappa ≤ 1 ∧ s1.numTransmittingHumans = 2 := by
  obtain ⟨kappa, s1, h1, h2, h3, h4, _, _⟩ :=
    TransmissionModel.updateKappa_probability (Sim.atStep 5 73 72) exampleCoordinator
      examplePopulation (exampleCoordinator_wellFormed 72)
      (by simp [examplePopulation])
      (by simp only [examplePopulation, List.mem_cons, List.mem_singleton, List.not_mem_nil,
            or_false]
          rintro h (rfl | rfl | rfl) <;> norm_num)
      (by simp only [examplePopulation, List.mem_cons, List.mem_singleton, List.not_mem_nil,
            or_false]
          rintro h (rfl | rfl | rfl) <;> norm_num)
      examplePopulation_weight
  refine ⟨kappa, s1, h1, h2, h3, ?_⟩
  rw [h4]
  simp only [examplePopulation, List.filter_cons]
  norm_num

/-! ## TransmissionModel: the adult EIR of a step -/

/-- Reading a scaled vector gives the scaled entry, and fails where reading the vector fails. -/
theorem vecGet_vectors_scale (v : List ℚ) (a : ℚ) (i : Int) :
    vecGet (vectors_scale v a) i = (vecGet v i).map (fun x => x * a) := by
  unfold vecGet vectors_scale
  by_cases h : 0 ≤ i ∧ i.toNat < v.length
  · have h2 : 0 ≤ i ∧ i.toNat < (v.map (fun x => x * a)).length := by
      rw [List.length_map]
      exact h
    rw [dif_pos h, dif_pos h2]
    simp [Except.map]
  · have h2 : ¬ (0 ≤ i ∧ i.toNat < (v.map (fun x => x * a)).length) := by
      rw [List.length_map]
      exact h
    rw [dif_neg h, dif_neg h2]
    simp [Except.map]

/-- C25, as stated, fails: `scale` leaves `quinquennialOvipositing` as it was.  Scaling by 2 a
model whose five-year record holds 3 at day 0 leaves that entry at 3, where the stated product
is 6. -/
theorem SimpleMPDAnophelesModel.scale_counterexample :
    (recordedModel.scale (fun b _ => b) 2).quinquennialOvipositing =
      recordedModel.quinquennialOvipositing ∧
    vecGet (recordedModel.scale (fun b _ => b) 2).quinquennialOvipositing 0 = .ok 3 ∧
    vecGet (vectors_scale recordedModel.quinquennialOvipositing 2) 0 = .ok (3 * 2) ∧
    (3 : ℚ) ≠ 3 * 2 := by
  have h : vecGet recordedModel.quinquennialOvipositing 0 = .ok 3 := by
    rw [vecGet_ok_getD _ (le_refl 0)
      (by simp only [recordedModel, List.length_cons, List.length_replicate]; decide)]
    rfl
  refine ⟨rfl, h, ?_, by norm_num⟩
  rw [vecGet_vectors_scale, h]
  rfl

/-- C25, amended: `scale(factor)` multiplies every entry of `nOvipositingDelayed` by `factor`,
keeping its length, and hands the base-class part to the base-class `scale`; it leaves
`quinquennialOvipositing`, `invLarvalResources` and the three parameters
`developmentDuration`, `probPreadultSurvival` and `fEggsLaidByOviposit` unchanged. -/
theorem SimpleMPDAnophelesModel.scale_delayed
    (AnophelesModel_scale : AnophelesModel → ℚ → AnophelesModel)
    (m : SimpleMPDAnophelesModel) (factor : ℚ) :
    (m.scale AnophelesModel_scale factor).nOvipositingDelayed.length
      = m.nOvipositingDelayed.length ∧
    (∀ i : Int, vecGet (m.scale AnophelesModel_scale factor).nOvipositingDelayed i =
      (vecGet m.nOvipositingDelayed i).map (fun x => x * factor)) ∧
    (m.scale AnophelesModel_scale factor).base = AnophelesModel_scale m.base factor ∧
    (m.scale AnophelesModel_scale factor).quinquennialOvipositing = m.quinquennialOvipositing ∧
    (m.scale AnophelesModel_scale factor).invLarvalResources = m.invLarvalResources ∧
    (m.scale AnophelesModel_scale factor).developmentDuration = m.developmentDuration ∧
    (m.scale AnophelesModel_scale factor).probPreadultSurvival = m.probPreadultSurvival ∧
    (m.scale AnophelesModel_scale factor).fEggsLaidByOviposit = m.fEggsLaidByOviposit := by
  refine ⟨?_, fun i => ?_, rfl, rfl, rfl, rfl, rfl, rfl⟩
  · simp [SimpleMPDAnophelesModel.scale, vectors_scale]
  · exact vecGet_vectors_scale m.nOvipositingDelayed factor i

/-! ## SimpleMPDAnophelesModel: the resources of the last time step -/

/-- A loop whose body at `t` writes the value `G t` into entry `t` of a vector of `n` entries:
it runs to its end, and leaves `G t` in every entry `t` it visited and the other entries as
they were. -/
theorem foldlM_pointwise (f : List ℚ → Int → Except Error (List ℚ)) (G : Int → ℚ) (n : Nat)
    (l : List Int) (hl : ∀ t ∈ l, 0 ≤ t ∧ t < (n : Int))
    (hf : ∀ (v : List ℚ) (t : Int), t ∈ l → v.length = n → f v t = .ok (v.set t.toNat (G t))) :
    ∀ v : List ℚ, v.length = n →
      ∃ w, l.foldlM f v = .ok w ∧ w.length = n ∧
        ∀ j : Int, vecGet w j = if j ∈ l then .ok (G j) else vecGet v j := by
  induction l with
  | nil =>
    intro v hv
    exact ⟨v, rfl, hv, fun j => by simp⟩
  | cons t l ih =>
    intro v hv
    obtain ⟨t0, t1⟩ := hl t (List.mem_cons_self _ _)
    obtain ⟨w, hw, hwl, hget⟩ := ih (fun s hs => hl s (List.mem_cons_of_mem _ hs))
      (fun u s hs hu => hf u s (List.mem_cons_of_mem _ hs) hu)
      (v.set t.toNat (G t)) (by simp [hv])
    refine ⟨w, ?_, hwl, ?_⟩
    · rw [List.foldlM_cons, hf v t (List.mem_cons_self _ _) hv]
      exact hw
    · intro j
      rw [hget j]
      by_cases hj : j ∈ l
      · rw [if_pos hj, if_pos (List.mem_cons_of_mem _ hj)]
      · rw [if_neg hj]
        by_cases hjt : j = t
        · rw [if_pos (by rw [hjt]; exact List.mem_cons_self _ _), hjt]
          exact vecGet_set_same v (G t) t0 (by rw [hv]; exact t1)
        · rw [if_neg (by
            intro h
            rcases List.mem_cons.mp h with h | h
            · exact hjt h
            · exact hj h)]
          exact vecGet_set_other v (G t) t0 (Ne.symm hjt)

/-- Every day of the year is among the days that a loop over the year visits. -/
theorem SimpleMPDAnophelesModel.daysBelow_mem {n t : Int} (h0 : 0 ≤ t) (h1 : t < n) :
    t ∈ SimpleMPDAnophelesModel.daysBelow n := by
  unfold SimpleMPDAnophelesModel.daysBelow
  rw [List.mem_map]
  refine ⟨t.toNat, ?_, ?_⟩
  · rw [List.mem_range]
    omega
  · simp only [Int.ofNat_eq_coe]
    omega

/-- What `initIterate` leaves: the flag of the base class, the base-class part as the base
class left it, and in entry `t` of `invLarvalResources` the value `(p * y - E) / (E * y)`
computed from the five reads of `quinquennialOvipositing` and from `mosqEmergeRate[t]`. -/
theorem SimpleMPDAnophelesModel.initIterate_pointwise (m : SimpleMPDAnophelesModel)
    (bit : AnophelesModel → Bool × AnophelesModel)
    (hL : m.BufferLengths) (hD : 0 < m.developmentDuration) (hD1 : m.developmentDuration ≤ 365)
    (he : ((bit m.base).2.mosqEmergeRate.length : Int) = 365) :
    ∃ w : List ℚ, m.initIterate bit = .ok ((bit m.base).1,
        { m with base := (bit m.base).2, invLarvalResources := w }) ∧
      w.length = 365 ∧
      ∀ t : Int, 0 ≤ t → t < 365 → vecGet w t = .ok
        ((m.probPreadultSurvival * (m.fEggsLaidByOviposit * 0.2 *
            (m.quinquennialOvipositing.getD (t - m.developmentDuration + 365).toNat 0 +
              m.quinquennialOvipositing.getD (t - m.developmentDuration + 365 * 2).toNat 0 +
              m.quinquennialOvipositing.getD (t - m.developmentDuration + 365 * 3).toNat 0 +
              m.quinquennialOvipositing.getD (t - m.developmentDuration + 365 * 4).toNat 0 +
              m.quinquennialOvipositing.getD
                ((t - m.developmentDuration + 365 * 5) % (365 * 5)).toNat 0)) -
            (bit m.base).2.mosqEmergeRate.getD t.toNat 0) /
          ((bit m.base).2.mosqEmergeRate.getD t.toNat 0 * (m.fEggsLaidByOviposit * 0.2 *
            (m.quinquennialOvipositing.getD (t - m.developmentDuration + 365).toNat 0 +
              m.quinquennialOvipositing.getD (t - m.developmentDuration + 365 * 2).toNat 0 +
              m.quinquennialOvipositing.getD (t - m.developmentDuration + 365 * 3).toNat 0 +
              m.quinquennialOvipositing.getD (t - m.developmentDuration + 365 * 4).toNat 0 +
              m.quinquennialOvipositing.getD
                ((t - m.developmentDuration + 365 * 5) % (365 * 5)).toNat 0)))) := by
  obtain ⟨hq, hr, hn⟩ := hL
  simp only [SimTime.oneYear, SimTime.fromYearsI] at hq hr
  obtain ⟨w, hw, hwl, hget⟩ := foldlM_pointwise
    (SimpleMPDAnophelesModel.initIterateStep { m with base := (bit m.base).2 })
    (fun t => (m.probPreadultSurvival * (m.fEggsLaidByOviposit * 0.2 *
            (m.quinquennialOvipositing.getD (t - m.developmentDuration + 365).toNat 0 +
              m.quinquennialOvipositing.getD (t - m.developmentDuration + 365 * 2).toNat 0 +
              m.quinquennialOvipositing.getD (t - m.developmentDuration + 365 * 3).toNat 0 +
              m.quinquennialOvipositing.getD (t - m.developmentDuration + 365 * 4).toNat 0 +
              m.quinquennialOvipositing.getD
                ((t - m.developmentDuration + 365 * 5) % (365 * 5)).toNat 0)) -
            (bit m.base).2.mosqEmergeRate.getD t.toNat 0) /
          ((bit m.base).2.mosqEmergeRate.getD t.toNat 0 * (m.fEggsLaidByOviposit * 0.2 *
            (m.quinquennialOvipositing.getD (t - m.developmentDuration + 365).toNat 0 +
              m.quinquennialOvipositing.getD (t - m.developmentDuration + 365 * 2).toNat 0 +
              m.quinquennialOvipositing.getD (t - m.developmentDuration + 365 * 3).toNat 0 +
              m.quinquennialOvipositing.getD (t - m.developmentDuration + 365 * 4).toNat 0 +
              m.quinquennialOvipositing.getD
                ((t - m.developmentDuration + 365 * 5) % (365 * 5)).toNat 0))))
    365 (SimpleMPDAnophelesModel.daysBelow SimTime.oneYear)
    (fun t ht => SimpleMPDAnophelesModel.mem_daysBelow ht)
    (fun v t ht hv => by
      obtain ⟨t0, t1⟩ := SimpleMPDAnophelesModel.mem_daysBelow ht
      simp only [SimTime.oneYear] at t1
      have r5 := mod_nn_range (a := t - m.developmentDuration + 365 * 5) (b := 365 * 5)
        (by omega) (by norm_num)
      have e5 : mod_nn (t - m.developmentDuration + 365 * 5) (365 * 5) =
          (t - m.developmentDuration + 365 * 5) % (365 * 5) :=
        mod_nn_eq_emod (by omega) (by norm_num)
      have g1 := vecGet_ok_getD m.quinquennialOvipositing
        (i := t - m.developmentDuration + 365) (by omega) (by omega)
      have g2 := vecGet_ok_getD m.quinquennialOvipositing
        (i := t - m.developmentDuration + 365 * 2) (by omega) (by omega)
      have g3 := vecGet_ok_getD m.quinquennialOvipositing
        (i := t - m.developmentDuration + 365 * 3) (by omega) (by omega)
      have g4 := vecGet_ok_getD m.quinquennialOvipositing
        (i := t - m.developmentDuration + 365 * 4) (by omega) (by omega)
      have g5 := vecGet_ok_getD m.quinquennialOvipositing
        (i := mod_nn (t - m.developmentDuration + 365 * 5) (365 * 5)) r5.1 (by omega)
      have g6 := vecGet_ok_getD (bit m.base).2.mosqEmergeRate (i := t) t0 (by omega)
      unfold SimpleMPDAnophelesModel.initIterateStep
      simp only [SimTime.oneYear, SimTime.fromYearsI, g1, g2, g3, g4, g5, g6, bind, Except.bind]
      rw [vecSet_ok v _ t0 (by omega), e5])
    m.invLarvalResources (by omega)
  refine ⟨w, ?_, hwl, ?_⟩
  · unfold SimpleMPDAnophelesModel.initIterate
    simp only [SimTime.oneYear] at he hw ⊢
    simp only [he, not_true_eq_false, if_false, hw, bind, Except.bind, pure, Except.pure]
  · intro t t0 t1
    have hm : t ∈ SimpleMPDAnophelesModel.daysBelow SimTime.oneYear :=
      SimpleMPDAnophelesModel.daysBelow_mem t0 t1
    rw [hget t, if_pos hm]

/-- What `init2` leaves in `invLarvalResources`: in entry `t` the value `(p * y - E) / (E * y)`
computed from `forcedS_v` at the day `developmentDuration + restDuration` days before `t`
and from `mosqEmergeRate[t]`. -/
theorem SimpleMPDAnophelesModel.init2_pointwise (m : SimpleMPDAnophelesModel) (exp : ℚ → ℚ)
    (bi : AnophelesModel → Int → ℚ → ℚ → ℚ → ℚ → ℚ → AnophelesModel)
    (nHumans : Int) (a1 a2 a3 a4 a5 : ℚ) (b : AnophelesModel) (x : ℚ)
    (hb : b = bi m.base nHumans a1 a2 a3 a4 a5)
    (hx : x = (a5 + b.nhh_sigma_dff) *
      ((1 - exp (-(a2 + b.nhh_avail + b.mosqSeekingDeathRate) * b.mosqSeekingDuration)) /
        (a2 + b.nhh_avail + b.mosqSeekingDeathRate)) * b.probMosqSurvivalOvipositing)
    (hL : m.BufferLengths) (hD : 0 < m.developmentDuration)
    (hS : (b.forcedS_v.length : Int) = 365) (hE : (b.mosqEmergeRate.length : Int) = 365)
    (htau : 0 ≤ b.mosqRestDuration) (hsum : b.mosqRestDuration + m.developmentDuration ≤ 365) :
    ∃ delayed w : List ℚ, m.init2 exp bi nHumans a1 a2 a3 a4 a5 = .ok
        { m with base := b, nOvipositingDelayed := delayed, invLarvalResources := w } ∧
      w.length = 365 ∧
      ∀ t : Int, 0 ≤ t → t < 365 → vecGet w t = .ok
        ((m.probPreadultSurvival * (m.fEggsLaidByOviposit * x * b.initNvFromSv *
            b.forcedS_v.getD
              ((t + 365 - b.mosqRestDuration - m.developmentDuration) % 365).toNat 0) -
            b.mosqEmergeRate.getD t.toNat 0) /
          (b.mosqEmergeRate.getD t.toNat 0 * (m.fEggsLaidByOviposit * x * b.initNvFromSv *
            b.forcedS_v.getD
              ((t + 365 - b.mosqRestDuration - m.developmentDuration) % 365).toNat 0))) := by
  obtain ⟨hq, hr, hn⟩ := hL
  simp only [SimTime.oneYear] at hr
  obtain ⟨w1, hw1, _⟩ := foldlM_ok
    (SimpleMPDAnophelesModel.init2DelayedStep b m.developmentDuration x)
    (fun v => (v.length : Int) = m.developmentDuration)
    (SimpleMPDAnophelesModel.daysBelow m.developmentDuration)
    (fun v t ht hv => SimpleMPDAnophelesModel.init2DelayedStep_ok _ _ _ hS htau hD
      (by omega) v t ht hv)
    m.nOvipositingDelayed hn
  obtain ⟨w, hw, hwl, hget⟩ := foldlM_pointwise
    (SimpleMPDAnophelesModel.init2ResourcesStep b m.developmentDuration m.probPreadultSurvival
      m.fEggsLaidByOviposit x)
    (fun t => (m.probPreadultSurvival * (m.fEggsLaidByOviposit * x * b.initNvFromSv *
            b.forcedS_v.getD
              ((t + 365 - b.mosqRestDuration - m.developmentDuration) % 365).toNat 0) -
            b.mosqEmergeRate.getD t.toNat 0) /
          (b.mosqEmergeRate.getD t.toNat 0 * (m.fEggsLaidByOviposit * x * b.initNvFromSv *
            b.forcedS_v.getD
              ((t + 365 - b.mosqRestDuration - m.developmentDuration) % 365).toNat 0)))
    365 (SimpleMPDAnophelesModel.daysBelow SimTime.oneYear)
    (fun t ht => SimpleMPDAnophelesModel.mem_daysBelow ht)
    (fun v t ht hv => by
      obtain ⟨t0, t1⟩ := SimpleMPDAnophelesModel.mem_daysBelow ht
      simp only [SimTime.oneYear] at t1
      have r := mod_nn_range (a := t + 365 - b.mosqRestDuration - m.developmentDuration)
        (b := 365) (by omega) (by norm_num)
      have e : mod_nn (t + 365 - b.mosqRestDuration - m.developmentDuration) 365 =
          (t + 365 - b.mosqRestDuration - m.developmentDuration) % 365 :=
        mod_nn_eq_emod (by omega) (by norm_num)
      have g1 := vecGet_ok_getD b.forcedS_v
        (i := mod_nn (t + 365 - b.mosqRestDuration - m.developmentDuration) 365) r.1 (by omega)
      have g2 := vecGet_ok_getD b.mosqEmergeRate (i := t) t0 (by omega)
      unfold SimpleMPDAnophelesModel.init2ResourcesStep
      simp only [SimTime.oneYear, g1, g2, bind, Except.bind]
      rw [vecSet_ok v _ t0 (by omega), e])
    m.invLarvalResources (by omega)
  refine ⟨w1, w, ?_, hwl, ?_⟩
  · unfold SimpleMPDAnophelesModel.init2
    simp only [← hb, ← hx]
    simp only [SimTime.oneYear] at hw
    simp only [hw1, hw, SimTime.oneYear, hsum, not_true_eq_false, if_false, bind, Except.bind,
      pure, Except.pure]
  · intro t t0 t1
    have hm : t ∈ SimpleMPDAnophelesModel.daysBelow SimTime.oneYear :=
      SimpleMPDAnophelesModel.daysBelow_mem t0 t1
    rw [hget t, if_pos hm]

/-- The inversion behind the fitted resource curve: with `g = (p * y - E) / (E * y)` the
emergence formula gives back `E`. -/
theorem inversion_identity (p y E : ℚ) (hE : E ≠ 0) (hy : y ≠ 0) (hp : p ≠ 0) :
    p * y / (1 + (p * y - E) / (E * y) * y) = E := by
  have h1 : 1 + (p * y - E) / (E * y) * y = p * y / E := by
    field_simp
    ring
  rw [h1]
  field_simp

/-- C26: `initIterate` and `init2` store in entry `t` of `invLarvalResources` the value
`g = (p * y - E) / (E * y)`, with `p = probPreadultSurvival`, `E = mosqEmergeRate[t]` and `y`
the laid-egg term of that day; whenever `E`, `y` and `p` are not 0, `p * y / (1 + g * y) = E`,
and a call of `getEmergenceRate` that reads `g` and lays `y` eggs returns `E`. -/
theorem SimpleMPDAnophelesModel.equilibrium_inversion (m : SimpleMPDAnophelesModel)
    (hL : m.BufferLengths) (hD : 0 < m.developmentDuration) (hD1 : m.developmentDuration ≤ 365) :
    (∀ bit : AnophelesModel → Bool × AnophelesModel,
      ((bit m.base).2.mosqEmergeRate.length : Int) = 365 →
      ∃ fitted m1, m.initIterate bit = .ok (fitted, m1) ∧
        ∀ t : Int, 0 ≤ t → t < 365 → ∃ y E : ℚ,
          y = m.fEggsLaidByOviposit * 0.2 *
            (m.quinquennialOvipositing.getD (t - m.developmentDuration + 365).toNat 0 +
              m.quinquennialOvipositing.getD (t - m.developmentDuration + 365 * 2).toNat 0 +
              m.quinquennialOvipositing.getD (t - m.developmentDuration + 365 * 3).toNat 0 +
              m.quinquennialOvipositing.getD (t - m.developmentDuration + 365 * 4).toNat 0 +
              m.quinquennialOvipositing.getD
                ((t - m.developmentDuration + 365 * 5) % (365 * 5)).toNat 0) ∧
          vecGet (bit m.base).2.mosqEmergeRate t = .ok E ∧
          vecGet m1.invLarvalResources t =
            .ok ((m.probPreadultSurvival * y - E) / (E * y)) ∧
          (E ≠ 0 → y ≠ 0 → m.probPreadultSurvival ≠ 0 →
            m.probPreadultSurvival * y /
              (1 + (m.probPreadultSurvival * y - E) / (E * y) * y) = E)) ∧
    (∀ (exp : ℚ → ℚ) (bi : AnophelesModel → Int → ℚ → ℚ → ℚ → ℚ → ℚ → AnophelesModel)
      (nHumans : Int) (a1 a2 a3 a4 a5 : ℚ) (b : AnophelesModel) (x : ℚ),
      b = bi m.base nHumans a1 a2 a3 a4 a5 →
      x = (a5 + b.nhh_sigma_dff) *
        ((1 - exp (-(a2 + b.nhh_avail + b.mosqSeekingDeathRate) * b.mosqSeekingDuration)) /
          (a2 + b.nhh_avail + b.mosqSeekingDeathRate)) * b.probMosqSurvivalOvipositing →
      (b.forcedS_v.length : Int) = 365 → (b.mosqEmergeRate.length : Int) = 365 →
      0 ≤ b.mosqRestDuration → b.mosqRestDuration + m.developmentDuration ≤ 365 →
      ∃ m1, m.init2 exp bi nHumans a1 a2 a3 a4 a5 = .ok m1 ∧
        ∀ t : Int, 0 ≤ t → t < 365 → ∃ y E : ℚ,
          y = m.fEggsLaidByOviposit * x * b.initNvFromSv * b.forcedS_v.getD
            ((t + 365 - b.mosqRestDuration - m.developmentDuration) % 365).toNat 0 ∧
          vecGet b.mosqEmergeRate t = .ok E ∧
          vecGet m1.invLarvalResources t =
            .ok ((m.probPreadultSurvival * y - E) / (E * y)) ∧
          (E ≠ 0 → y ≠ 0 → m.probPreadultSurvival ≠ 0 →
            m.probPreadultSurvival * y /
              (1 + (m.probPreadultSurvival * y - E) / (E * y) * y) = E)) ∧
    (∀ (d0 : Int) (mosqEmergeRate : List ℚ) (n delayed E : ℚ), 0 ≤ d0 →
      vecGet m.nOvipositingDelayed ((d0 + 1) % m.developmentDuration) = .ok delayed →
      vecGet m.invLarvalResources (d0 % 365) = .ok
        ((m.probPreadultSurvival * (m.fEggsLaidByOviposit * delayed) - E) /
          (E * (m.fEggsLaidByOviposit * delayed))) →
      E ≠ 0 → m.fEggsLaidByOviposit * delayed ≠ 0 → m.probPreadultSurvival ≠ 0 →
      ∃ m1, m.getEmergenceRate d0 mosqEmergeRate n = .ok (E, m1)) := by
  refine ⟨fun bit he => ?_, ?_, ?_⟩
  · obtain ⟨w, hrun, hwl, hget⟩ := m.initIterate_pointwise bit hL hD hD1 he
    refine ⟨_, _, hrun, fun t t0 t1 => ⟨_, _, rfl, ?_, hget t t0 t1, ?_⟩⟩
    · exact vecGet_ok_getD (bit m.base).2.mosqEmergeRate t0 (by omega)
    · intro hE hy hp
      exact inversion_identity _ _ _ hE hy hp
  · intro exp bi nHumans a1 a2 a3 a4 a5 b x hb hx hS hE htau hsum
    obtain ⟨delayed, w, hrun, hwl, hget⟩ :=
      m.init2_pointwise exp bi nHumans a1 a2 a3 a4 a5 b x hb hx hL hD hS hE htau hsum
    refine ⟨_, hrun, fun t t0 t1 => ⟨_, _, rfl, ?_, hget t t0 t1, ?_⟩⟩
    · exact vecGet_ok_getD b.mosqEmergeRate t0 (by omega)
    · intro hE hy hp
      exact inversion_identity _ _ _ hE hy hp
  · intro d0 er n delayed E hd hdel hres hE hy hp
    obtain ⟨⟨_, a1, b1⟩, ⟨_, a2, b2⟩, _⟩ := m.emergence_indices d0 hL hD hd
    rw [vecGet_ok_getD _ a1 b1] at hdel
    rw [vecGet_ok_getD _ a2 b2] at hres
    cases hdel
    have hres1 := Except.ok.inj hres
    have hg := m.getEmergenceRate_eq d0 er n hL hD hd
    rw [hres1, inversion_identity _ _ _ hE hy hp] at hg
    exact ⟨_, hg⟩

theorem steadyModel_lengths : steadyModel.BufferLengths := by
  unfold SimpleMPDAnophelesModel.BufferLengths
  simp only [steadyModel, exampleModel, List.length_replicate, List.length_cons,
    List.length_nil, SimTime.fromYearsI, SimTime.oneYear]
  decide

theorem equilibriumModel_lengths : equilibriumModel.BufferLengths := by
  unfold SimpleMPDAnophelesModel.BufferLengths
  simp only [equilibriumModel, exampleModel, List.length_replicate, List.length_cons,
    List.length_nil, SimTime.fromYearsI, SimTime.oneYear]
  decide

/-- Every entry of a constant vector holds the constant. -/
theorem getD_replicate_of_lt (n : Nat) (c : ℚ) (i : Int) (h0 : 0 ≤ i) (h1 : i < (n : Int)) :
    (List.replicate n c).getD i.toNat 0 = c := by
  have h : i.toNat < n := by omega
  simp only [List.getD_eq_getElem?_getD, List.getElem?_replicate, if_pos h, Option.getD_some]

/-- C26, at concrete states: with five-year records of 2, three eggs per oviposition, survival
`1/2` and a target emergence of 1, `initIterate` stores `g = (1/2 * 6 - 1) / (1 * 6) = 1/3`
at day 0, and so does `init2` from a forced `S_v` of 1; a call of `getEmergenceRate` that
reads `1/3` and a delay-line entry of 2 returns the target 1. -/
theorem SimpleMPDAnophelesModel.equilibrium_inversion_witness :
    (∃ fitted m1, steadyModel.initIterate (fun b => (true, b)) = .ok (fitted, m1) ∧
      vecGet m1.invLarvalResources 0 = .ok (1 / 3)) ∧
    (∃ m1, steadyModel.init2 (fun _ => 0) (fun b _ _ _ _ _ _ => b) 10 1 1 1 1 4 = .ok m1 ∧
      vecGet m1.invLarvalResources 0 = .ok (1 / 3)) ∧
    (∃ m1, equilibriumModel.getEmergenceRate 0 [] 9 = .ok (1, m1)) := by
  obtain ⟨h1, h2, _⟩ := SimpleMPDAnophelesModel.equilibrium_inversion steadyModel
    steadyModel_lengths (by decide) (by decide)
  obtain ⟨_, _, h3⟩ := SimpleMPDAnophelesModel.equilibrium_inversion equilibriumModel
    equilibriumModel_lengths (by decide) (by decide)
  refine ⟨?_, ?_, ?_⟩
  · obtain ⟨fitted, m1, hrun, hall⟩ := h1 (fun b => (true, b))
      (by simp only [steadyModel, exampleModel, exampleBase, List.length_replicate]; decide)
    obtain ⟨y, E, hy, hE, hg, _⟩ := hall 0 (by decide) (by decide)
    have hE1 : vecGet (List.replicate 365 (1 : ℚ)) 0 = .ok E := hE
    rw [vecGet_ok_getD _ (le_refl 0) (by simp only [List.length_replicate]; decide),
      getD_replicate_of_lt 365 1 0 (by decide) (by decide)] at hE1
    have hy1 : y = 3 * 0.2 *
        ((List.replicate 1825 (2 : ℚ)).getD ((0 : Int) - 2 + 365).toNat 0 +
          (List.replicate 1825 (2 : ℚ)).getD ((0 : Int) - 2 + 365 * 2).toNat 0 +
          (List.replicate 1825 (2 : ℚ)).getD ((0 : Int) - 2 + 365 * 3).toNat 0 +
          (List.replicate 1825 (2 : ℚ)).getD ((0 : Int) - 2 + 365 * 4).toNat 0 +
          (List.replicate 1825 (2 : ℚ)).getD (((0 : Int) - 2 + 365 * 5) % (365 * 5)).toNat 0) :=
      hy
    rw [getD_replicate_of_lt 1825 2 ((0 : Int) - 2 + 365) (by decide) (by decide),
      getD_replicate_of_lt 1825 2 ((0 : Int) - 2 + 365 * 2) (by decide) (by decide),
      getD_replicate_of_lt 1825 2 ((0 : Int) - 2 + 365 * 3) (by decide) (by decide),
      getD_replicate_of_lt 1825 2 ((0 : Int) - 2 + 365 * 4) (by decide) (by decide),
      getD_replicate_of_lt 1825 2 (((0 : Int) - 2 + 365 * 5) % (365 * 5)) (by decide)
        (by decide)] at hy1
    have hp : steadyModel.probPreadultSurvival = 1 / 2 := rfl
    refine ⟨fitted, m1, hrun, ?_⟩
    rw [hg, hp, hy1, ← Except.ok.inj hE1]
    norm_num
  · obtain ⟨m1, hrun, hall⟩ := h2 (fun _ => 0) (fun b _ _ _ _ _ _ => b) 10 1 1 1 1 4
      steadyModel.base 2 rfl
      (by simp only [steadyModel, exampleModel, exampleBase]; norm_num)
      (by simp only [steadyModel, exampleModel, exampleBase, List.length_replicate]; decide)
      (by simp only [steadyModel, exampleModel, exampleBase, List.length_replicate]; decide)
      (by decide) (by decide)
    obtain ⟨y, E, hy, hE, hg, _⟩ := hall 0 (by decide) (by decide)
    have hE1 : vecGet (List.replicate 365 (1 : ℚ)) 0 = .ok E := hE
    rw [vecGet_ok_getD _ (le_refl 0) (by simp only [List.length_replicate]; decide),
      getD_replicate_of_lt 365 1 0 (by decide) (by decide)] at hE1
    have hy1 : y = 3 * 2 * 1 *
        (List.replicate 365 (1 : ℚ)).getD (((0 : Int) + 365 - 3 - 2) % 365).toNat 0 := hy
    rw [getD_replicate_of_lt 365 1 (((0 : Int) + 365 - 3 - 2) % 365) (by decide)
      (by decide)] at hy1
    have hp : steadyModel.probPreadultSurvival = 1 / 2 := rfl
    refine ⟨m1, hrun, ?_⟩
    rw [hg, hp, hy1, ← Except.ok.inj hE1]
    norm_num
  · have hdel : vecGet equilibriumModel.nOvipositingDelayed
        ((0 + 1) % equilibriumModel.developmentDuration) = .ok 2 := rfl
    have hres : vecGet equilibriumModel.invLarvalResources (0 % 365) = .ok (1 / 3) := by
      rw [vecGet_ok_getD _ (by decide)
        (by simp only [equilibriumModel, List.length_replicate]; decide)]
      exact congrArg Except.ok (getD_replicate_of_lt 365 (1 / 3) (0 % 365) (by decide)
        (by decide))
    have hval : (1 : ℚ) / 3 =
        (equilibriumModel.probPreadultSurvival * (equilibriumModel.fEggsLaidByOviposit * 2) - 1) /
          (1 * (equilibriumModel.fEggsLaidByOviposit * 2)) := by
      simp only [equilibriumModel, exampleModel]
      norm_num
    rw [hval] at hres
    exact h3 0 [] 9 2 1 (le_refl 0) hdel hres (by norm_num)
      (by simp only [equilibriumModel, exampleModel]; norm_num)
      (by simp only [equilibriumModel, exampleModel]; norm_num)

/-! ## SimpleMPDAnophelesModel: the five-year average of initIterate -/

/-- C27: for `0 < developmentDuration = D <= 365`, `initIterate` returns the flag of the
base-class `initIterate` and changes, besides what the base class does to its own part, only
`invLarvalResources`; for every `t` in `[0, 365)` the laid-egg term behind entry `t` is
`y = fEggsLaidByOviposit * (1/5) * sum_{k=1..5} quinquennialOvipositing[(t - D + 365 k) mod 1825]`,
where the five indices lie in the buffer, are pairwise distinct and are all congruent to
`t - D` modulo 365. -/
theorem SimpleMPDAnophelesModel.initIterate_average (m : SimpleMPDAnophelesModel)
    (bit : AnophelesModel → Bool × AnophelesModel)
    (hL : m.BufferLengths) (hD : 0 < m.developmentDuration) (hD1 : m.developmentDuration ≤ 365)
    (he : ((bit m.base).2.mosqEmergeRate.length : Int) = 365) :
    ∃ m1, m.initIterate bit = .ok ((bit m.base).1, m1) ∧
      m1.base = (bit m.base).2 ∧
      m1.quinquennialOvipositing = m.quinquennialOvipositing ∧
      m1.nOvipositingDelayed = m.nOvipositingDelayed ∧
      m1.developmentDuration = m.developmentDuration ∧
      m1.probPreadultSurvival = m.probPreadultSurvival ∧
      m1.fEggsLaidByOviposit = m.fEggsLaidByOviposit ∧
      ∀ t : Int, 0 ≤ t → t < 365 →
        ∃ (q : Int → ℚ) (E : ℚ),
          (∀ k : Int, 1 ≤ k → k ≤ 5 →
            0 ≤ (t - m.developmentDuration + 365 * k) % 1825 ∧
            (t - m.developmentDuration + 365 * k) % 1825 < 1825 ∧
            vecGet m.quinquennialOvipositing ((t - m.developmentDuration + 365 * k) % 1825)
              = .ok (q k) ∧
            ((t - m.developmentDuration + 365 * k) % 1825) % 365
              = (t - m.developmentDuration) % 365) ∧
          (∀ k j : Int, 1 ≤ k → k ≤ 5 → 1 ≤ j → j ≤ 5 → k ≠ j →
            (t - m.developmentDuration + 365 * k) % 1825 ≠
              (t - m.developmentDuration + 365 * j) % 1825) ∧
          vecGet (bit m.base).2.mosqEmergeRate t = .ok E ∧
          vecGet m1.invLarvalResources t = .ok
            ((m.probPreadultSurvival *
                (m.fEggsLaidByOviposit * (1 / 5) * (q 1 + q 2 + q 3 + q 4 + q 5)) - E) /
              (E * (m.fEggsLaidByOviposit * (1 / 5) * (q 1 + q 2 + q 3 + q 4 + q 5)))) := by
  obtain ⟨w, hrun, hwl, hget⟩ := m.initIterate_pointwise bit hL hD hD1 he
  obtain ⟨hq, hr, hn⟩ := hL
  simp only [SimTime.fromYearsI] at hq
  refine ⟨_, hrun, rfl, rfl, rfl, rfl, rfl, rfl, fun t t0 t1 => ?_⟩
  refine ⟨fun k => m.quinquennialOvipositing.getD
      ((t - m.developmentDuration + 365 * k) % 1825).toNat 0,
    (bit m.base).2.mosqEmergeRate.getD t.toNat 0, ?_, ?_, ?_, ?_⟩
  · intro k k1 k5
    have a : 0 ≤ (t - m.developmentDuration + 365 * k) % 1825 :=
      Int.emod_nonneg _ (by norm_num)
    have b : (t - m.developmentDuration + 365 * k) % 1825 < 1825 :=
      Int.emod_lt_of_pos _ (by norm_num)
    exact ⟨a, b, vecGet_ok_getD _ a (by omega), by omega⟩
  · intro k j k1 k5 j1 j5 hkj
    omega
  · exact vecGet_ok_getD (bit m.base).2.mosqEmergeRate t0 (by omega)
  · rw [hget t t0 t1]
    have i1 : (t - m.developmentDuration + 365 * 1) % 1825 = t - m.developmentDuration + 365 := by
      omega
    have i2 : (t - m.developmentDuration + 365 * 2) % 1825
        = t - m.developmentDuration + 365 * 2 := by omega
    have i3 : (t - m.developmentDuration + 365 * 3) % 1825
        = t - m.developmentDuration + 365 * 3 := by omega
    have i4 : (t - m.developmentDuration + 365 * 4) % 1825
        = t - m.developmentDuration + 365 * 4 := by omega
    have i5 : (t - m.developmentDuration + 365 * 5) % (365 * 5)
        = (t - m.developmentDuration + 365 * 5) % 1825 := by norm_num
    have e : (0.2 : ℚ) = 1 / 5 := by norm_num
    simp only [i1, i2, i3, i4, i5, e]

/-- Every entry of the five-year record of the steady model holds 2. -/
theorem steadyModel_record (i : Int) (h0 : 0 ≤ i) (h1 : i < 1825) :
    vecGet steadyModel.quinquennialOvipositing i = .ok 2 := by
  have h : vecGet (List.replicate 1825 (2 : ℚ)) i = .ok 2 := by
    rw [vecGet_ok_getD _ h0 (by simp only [List.length_replicate]; omega),
      getD_replicate_of_lt 1825 2 i h0 (by omega)]
  exact h

/-- C27, at a concrete state: with two days of development and a five-year record of 2 on
every day, `initIterate` hands on the flag `true` of the base class, keeps the record, and
stores at day 0 the value for `y = 3 * (1/5) * (2 + 2 + 2 + 2 + 2) = 6`, which is `1/3`; the
five indices of day 0 are 363, 728, 1093, 1458 and 1823. -/
theorem SimpleMPDAnophelesModel.initIterate_average_witness :
    ∃ m1, steadyModel.initIterate (fun b => (true, b)) = .ok (true, m1) ∧
      m1.quinquennialOvipositing = steadyModel.quinquennialOvipositing ∧
      vecGet m1.invLarvalResources 0 = .ok (1 / 3) ∧
      ((0 : Int) - 2 + 365 * 1) % 1825 = 363 ∧ ((0 : Int) - 2 + 365 * 5) % 1825 = 1823 := by
  obtain ⟨m1, hrun, _, hq, _, _, _, _, hall⟩ :=
    SimpleMPDAnophelesModel.initIterate_average steadyModel (fun b => (true, b))
      steadyModel_lengths (by decide) (by decide)
      (by simp only [steadyModel, exampleModel, exampleBase, List.length_replicate]; decide)
  obtain ⟨q, E, hreads, _, hE, hg⟩ := hall 0 (by decide) (by decide)
  have hE1 : vecGet (List.replicate 365 (1 : ℚ)) 0 = .ok E := hE
  rw [vecGet_ok_getD _ (le_refl 0) (by simp only [List.length_replicate]; decide),
    getD_replicate_of_lt 365 1 0 (by decide) (by decide)] at hE1
  have hk : ∀ k : Int, 1 ≤ k → k ≤ 5 → q k = 2 := by
    intro k k1 k5
    obtain ⟨a, b, hread, _⟩ := hreads k k1 k5
    rw [steadyModel_record _ a b] at hread
    exact (Except.ok.inj hread).symm
  have hp : steadyModel.probPreadultSurvival = 1 / 2 := rfl
  have hf : steadyModel.fEggsLaidByOviposit = 3 := rfl
  refine ⟨m1, hrun, hq, ?_, by decide, by decide⟩
  rw [hg, hp, hf, hk 1 (by decide) (by decide), hk 2 (by decide) (by decide),
    hk 3 (by decide) (by decide), hk 4 (by decide) (by decide), hk 5 (by decide) (by decide),
    ← Except.ok.inj hE1]
  norm_num

/-! ## DescriptiveWithinHostModel: the exposure values of a pass -/

theorem writeVector_eq (v : List ℚ) (stream : List StreamItem) :
    writeVector v stream = stream ++ StreamItem.int v.length :: v.map StreamItem.double := by
  unfold writeVector
  have h : ∀ (l : List ℚ) (st : List StreamItem),
      l.foldl (fun stream x => writeDouble x stream) st = st ++ l.map StreamItem.double := by
    intro l
    induction l with
    | nil => intro st; simp
    | cons x l ih =>
      intro st
      rw [List.foldl_cons, ih]
      simp [writeDouble]
  rw [h]
  simp [writeInt]

theorem readDoubles_items (v : List ℚ) (rest : List StreamItem) :
    readDoubles v.length (v.map StreamItem.double ++ rest) = some (v, rest) := by
  induction v with
  | nil => rfl
  | cons x v ih =>
    simp only [List.length_cons, List.map_cons, List.cons_append, readDoubles, readDouble, ih,
      bind, Option.bind]

theorem readVector_items (v : List ℚ) (rest : List StreamItem) :
    readVector (StreamItem.int v.length :: (v.map StreamItem.double ++ rest)) = some (v, rest) := by
  unfold readVector
  simp only [readInt, bind, Option.bind]
  rw [if_neg (by omega)]
  simpa using readDoubles_items v rest

theorem SimulationMode.ofInt_toInt (mode : SimulationMode) :
    SimulationMode.ofInt mode.toInt = some mode := by
  cases mode <;> rfl

/-- What `checkpoint(ostream&)` appends to the stream: the thirteen fields in the order of the
source. -/
theorem TransmissionModel.checkpoint_ostream_eq (s : TransmissionModel)
    (stream : List StreamItem) :
    s.checkpoint_ostream stream = stream ++
      (StreamItem.int s.simulationMode.toInt :: StreamItem.int s.interventionMode.toInt ::
        StreamItem.int s.initialisationEIR.length ::
          (s.initialisationEIR.map StreamItem.double ++
        StreamItem.int s.laggedKappa.length :: (s.laggedKappa.map StreamItem.double ++
          [StreamItem.double s.annualEIR, StreamItem.double s._annualAverageKappa,
            StreamItem.double s._sumAnnualKappa, StreamItem.double s.tsAdultEIR,
            StreamItem.double s.surveyInputEIR, StreamItem.double s.surveySimulatedEIR,
            StreamItem.int s.lastSurveyTime, StreamItem.int s.adultAge,
            StreamItem.int s.numTransmittingHumans]))) := by
  unfold TransmissionModel.checkpoint_ostream
  simp only [writeVector_eq, writeInt, writeDouble, List.append_assoc, List.cons_append,
    List.nil_append, List.singleton_append]

/-- C22: `checkpoint(ostream&)` writes and `checkpoint(istream&)` reads the same thirteen
fields in the same order: `simulationMode`, `interventionMode`, `initialisationEIR`,
`laggedKappa`, `annualEIR`, `_annualAverageKappa`, `_sumAnnualKappa`, `tsAdultEIR`,
`surveyInputEIR`, `surveySimulatedEIR`, `lastSurveyTime`, `adultAge`,
`numTransmittingHumans`.  Reading back what was written, into any coordinator and whatever
follows in the stream, succeeds, consumes exactly what was written and restores each of these
fields to its value at the time of writing; the two accumulators of the step, which are not
part of the checkpoint, stay as the reading coordinator had them. -/
theorem TransmissionModel.checkpoint_roundtrip (s : TransmissionModel) :
    ∃ items : List StreamItem,
      items = StreamItem.int s.simulationMode.toInt :: StreamItem.int s.interventionMode.toInt ::
        StreamItem.int s.initialisationEIR.length ::
          (s.initialisationEIR.map StreamItem.double ++
        StreamItem.int s.laggedKappa.length :: (s.laggedKappa.map StreamItem.double ++
          [StreamItem.double s.annualEIR, StreamItem.double s._annualAverageKappa,
            StreamItem.double s._sumAnnualKappa, StreamItem.double s.tsAdultEIR,
            StreamItem.double s.surveyInputEIR, StreamItem.double s.surveySimulatedEIR,
            StreamItem.int s.lastSurveyTime, StreamItem.int s.adultAge,
            StreamItem.int s.numTransmittingHumans])) ∧
      (∀ stream : List StreamItem, s.checkpoint_ostream stream = stream ++ items) ∧
      ∀ (t : TransmissionModel) (rest : List StreamItem),
        ∃ r, t.checkpoint_istream (items ++ rest) = some (r, rest) ∧
          r.simulationMode = s.simulationMode ∧ r.interventionMode = s.interventionMode ∧
          r.initialisationEIR = s.initialisationEIR ∧ r.laggedKappa = s.laggedKappa ∧
          r.annualEIR = s.annualEIR ∧ r._annualAverageKappa = s._annualAverageKappa ∧
          r._sumAnnualKappa = s._sumAnnualKappa ∧ r.tsAdultEIR = s.tsAdultEIR ∧
          r.surveyInputEIR = s.surveyInputEIR ∧ r.surveySimulatedEIR = s.surveySimulatedEIR ∧
          r.lastSurveyTime = s.lastSurveyTime ∧ r.adultAge = s.adultAge ∧
          r.numTransmittingHumans = s.numTransmittingHumans ∧
          r.tsAdultEntoInocs = t.tsAdultEntoInocs ∧ r.tsNumAdults = t.tsNumAdults := by
  refine ⟨_, rfl, fun stream => s.checkpoint_ostream_eq stream, fun t rest => ?_⟩
  refine ⟨{ t with
    simulationMode := s.simulationMode
    interventionMode := s.interventionMode
    initialisationEIR := s.initialisationEIR
    laggedKappa := s.laggedKappa
    annualEIR := s.annualEIR
    _annualAverageKappa := s._annualAverageKappa
    _sumAnnualKappa := s._sumAnnualKappa
    tsAdultEIR := s.tsAdultEIR
    surveyInputEIR := s.surveyInputEIR
    surveySimulatedEIR := s.surveySimulatedEIR
    lastSurveyTime := s.lastSurveyTime
    adultAge := s.adultAge
    numTransmittingHumans := s.numTransmittingHumans }, ?_,
    rfl, rfl, rfl, rfl, rfl, rfl, rfl, rfl, rfl, rfl, rfl, rfl, rfl, rfl, rfl⟩
  unfold TransmissionModel.checkpoint_istream
  simp only [List.cons_append, List.append_assoc, readInt, SimulationMode.ofInt_toInt,
    readVector_items, readDouble, bind, Option.bind, List.nil_append]

/-! ## SimpleMPDAnophelesModel: checkpoint -/

/-- The base-class part takes no part in `getEmergenceRate`: with another base-class part the
call returns the same emergence and leaves the same members, next to that other part. -/
theorem SimpleMPDAnophelesModel.getEmergenceRate_base (m : SimpleMPDAnophelesModel)
    (b : AnophelesModel) (d0 : Int) (mosqEmergeRate : List ℚ) (n : ℚ) :
    SimpleMPDAnophelesModel.getEmergenceRate { m with base := b } d0 mosqEmergeRate n =
      (m.getEmergenceRate d0 mosqEmergeRate n).map (fun r => (r.1, { r.2 with base := b })) := by
  unfold SimpleMPDAnophelesModel.getEmergenceRate
  simp only [bind, Except.bind, pure, Except.pure]
  rcases vecGet m.nOvipositingDelayed (mod_nn (d0 + SimTime.oneDay) m.developmentDuration)
    with e | x
  · rfl
  · simp only
    rcases vecGet m.invLarvalResources (mod_nn d0 SimTime.oneYear) with e | y
    · rfl
    · simp only
      rcases vecSet m.nOvipositingDelayed (mod_nn (d0 + SimTime.oneDay) m.developmentDuration) n
        with e | v
      · rfl
      · simp only
        rcases vecSet m.quinquennialOvipositing
          (mod_nn (d0 + SimTime.oneDay) (SimTime.fromYearsI 5)) n with e | w
        · rfl
        · rfl

/-- A run of daily calls from a state with another base-class part: the same emergences, and
the same members left. -/
theorem SimpleMPDAnophelesModel.emergenceRun_base (mosqEmergeRate : List ℚ)
    (b : AnophelesModel) :
    ∀ (ns : List ℚ) (m : SimpleMPDAnophelesModel) (d : Int),
      SimpleMPDAnophelesModel.emergenceRun mosqEmergeRate { m with base := b } d ns =
        (SimpleMPDAnophelesModel.emergenceRun mosqEmergeRate m d ns).map
          (fun r => (r.1, { r.2 with base := b })) := by
  intro ns
  induction ns with
  | nil =>
    intro m d
    rfl
  | cons n ns ih =>
    intro m d
    rw [SimpleMPDAnophelesModel.emergenceRun, SimpleMPDAnophelesModel.emergenceRun,
      SimpleMPDAnophelesModel.getEmergenceRate_base]
    rcases m.getEmergenceRate d mosqEmergeRate n with e | ⟨x, m1⟩
    · rfl
    · simp only [Except.map, bind, Except.bind]
      have h := ih m1 (d + SimTime.oneDay)
      rw [h]
      rcases SimpleMPDAnophelesModel.emergenceRun mosqEmergeRate m1 (d + SimTime.oneDay) ns
        with e | ⟨es, m2⟩
      · rfl
      · rfl

/-- C23: the operator `&` writes and reads, after the base class, `quinquennialOvipositing`,
`developmentDuration`, `probPreadultSurvival`, `fEggsLaidByOviposit`, `invLarvalResources` and
`nOvipositingDelayed`, which are all the members that `getEmergenceRate` reads or writes.
When the base class reads back the items it wrote, reading the checkpoint of a state `s` into
any instance succeeds, consumes exactly what was written and restores the six members of `s`
next to the base-class part read; from the restored instance every run of daily calls of
`getEmergenceRate` returns the same emergences as from `s` and leaves the same six members,
and the restored instance is `s` itself when the base class restores its part. -/
theorem SimpleMPDAnophelesModel.checkpoint_replay
    (baseWrite : AnophelesModel → List StreamItem → List StreamItem)
    (baseRead : AnophelesModel → List StreamItem → Option (AnophelesModel × List StreamItem))
    (s t : SimpleMPDAnophelesModel) (baseItems : List StreamItem) (b : AnophelesModel)
    (hw : ∀ stream, baseWrite s.base stream = stream ++ baseItems)
    (hr : ∀ rest, baseRead t.base (baseItems ++ rest) = some (b, rest)) :
    ∃ items : List StreamItem,
      (∀ stream, s.checkpoint_ostream baseWrite stream = stream ++ items) ∧
      (∀ rest, t.checkpoint_istream baseRead (items ++ rest) = some ({ s with base := b }, rest)) ∧
      (∀ (mosqEmergeRate : List ℚ) (d : Int) (ns : List ℚ),
        SimpleMPDAnophelesModel.emergenceRun mosqEmergeRate { s with base := b } d ns =
          (SimpleMPDAnophelesModel.emergenceRun mosqEmergeRate s d ns).map
            (fun r => (r.1, { r.2 with base := b }))) ∧
      (b = s.base → ({ s with base := b } : SimpleMPDAnophelesModel) = s) := by
  refine ⟨baseItems ++ (StreamItem.int s.quinquennialOvipositing.length ::
      (s.quinquennialOvipositing.map StreamItem.double ++
        StreamItem.int s.developmentDuration :: StreamItem.double s.probPreadultSurvival ::
        StreamItem.double s.fEggsLaidByOviposit ::
        StreamItem.int s.invLarvalResources.length ::
          (s.invLarvalResources.map StreamItem.double ++
        StreamItem.int s.nOvipositingDelayed.length ::
          s.nOvipositingDelayed.map StreamItem.double))), ?_, ?_, ?_, ?_⟩
  · intro stream
    unfold SimpleMPDAnophelesModel.checkpoint_ostream
    simp only [hw, writeVector_eq, writeInt, writeDouble, List.append_assoc, List.cons_append,
      List.nil_append, List.singleton_append]
  · intro rest
    unfold SimpleMPDAnophelesModel.checkpoint_istream
    have hlast : readVector (StreamItem.int s.nOvipositingDelayed.length ::
        (s.nOvipositingDelayed.map StreamItem.double ++ rest)) =
        some (s.nOvipositingDelayed, rest) := readVector_items _ _
    simp only [List.cons_append, List.append_assoc, hr, readInt, readVector_items, readDouble,
      hlast, bind, Option.bind]
  · intro er d ns
    exact SimpleMPDAnophelesModel.emergenceRun_base er b ns s d
  · intro hb
    rw [hb]

/-- C23, at a concrete state: the checkpoint of the model at equilibrium, read into the model
with the delay line `[4, 7]`, gives the model at equilibrium back and leaves the stream empty;
a run of two daily calls from the restored model is the run from the model written. -/
theorem SimpleMPDAnophelesModel.checkpoint_replay_witness :
    exampleModel.checkpoint_istream exampleBaseRead
        (equilibriumModel.checkpoint_ostream exampleBaseWrite []) = some (equilibriumModel, []) ∧
    ∃ r, exampleModel.checkpoint_istream exampleBaseRead
        (equilibriumModel.checkpoint_ostream exampleBaseWrite []) = some (r, []) ∧
      SimpleMPDAnophelesModel.emergenceRun [] r 0 [9, 8] =
        SimpleMPDAnophelesModel.emergenceRun [] equilibriumModel 0 [9, 8] := by
  obtain ⟨items, hwrite, hread, _, hsame⟩ :=
    SimpleMPDAnophelesModel.checkpoint_replay exampleBaseWrite exampleBaseRead
      equilibriumModel exampleModel [StreamItem.int 3] exampleBase
      (fun stream => rfl) (fun rest => rfl)
  have h := hread []
  rw [List.append_nil, hsame rfl] at h
  have hw := hwrite []
  rw [List.nil_append] at hw
  rw [hw]
  exact ⟨h, equilibriumModel, h, rfl⟩

/-! ## DescriptiveWithinHostModel: checkpoint -/

/-- Writing the infections of a collection in order appends the items of each in order. -/
theorem DescriptiveWithinHostModel.writeInfections_eq
    (writeInfection : DescriptiveInfection → List StreamItem → List StreamItem)
    (itemsOf : DescriptiveInfection → List StreamItem)
    (hwi : ∀ inf stream, writeInfection inf stream = stream ++ itemsOf inf) :
    ∀ (l : List DescriptiveInfection) (stream : List StreamItem),
      l.foldl (fun stream inf => writeInfection inf stream) stream =
        stream ++ l.foldr (fun inf acc => itemsOf inf ++ acc) [] := by
  intro l
  induction l with
  | nil => intro stream; simp
  | cons inf l ih =>
    intro stream
    rw [List.foldl_cons, ih, hwi, List.foldr_cons, List.append_assoc]

/-- Loading as many infections as were written appends them to the collection in the order of
the stream, and consumes their items. -/
theorem DescriptiveWithinHostModel.loadInfections_items
    (readInfection : List StreamItem → Option (DescriptiveInfection × List StreamItem))
    (itemsOf : DescriptiveInfection → List StreamItem)
    (hri : ∀ inf rest, readInfection (itemsOf inf ++ rest) = some (inf, rest)) :
    ∀ (l : List DescriptiveInfection) (u : DescriptiveWithinHostModel)
      (rest : List StreamItem),
      DescriptiveWithinHostModel.loadInfections readInfection l.length u
        (l.foldr (fun inf acc => itemsOf inf ++ acc) [] ++ rest) =
        some ({ u with infections := u.infections ++ l }, rest) := by
  intro l
  induction l with
  | nil =>
    intro u rest
    simp [DescriptiveWithinHostModel.loadInfections]
  | cons inf l ih =>
    intro u rest
    rw [List.length_cons, DescriptiveWithinHostModel.loadInfections, List.foldr_cons,
      List.append_assoc]
    simp only [DescriptiveWithinHostModel.loadInfection, hri, bind, Option.bind]
    rw [ih]
    simp

/-- C24: `checkpoint(ostream&)` writes the base class and then the infections in the order of
the collection; `checkpoint(istream&)` reads the base class and then loads `numInfs`
infections, each appended at the end.  When the base class and an infection read back the
items they wrote, and the tracker written has `numInfs` equal to the size of its collection,
reading its checkpoint into a fresh tracker, whose collection is empty, succeeds, consumes
exactly what was written, passes the final assertion, and leaves a collection with the same
infections in the same order, so of the same length, with `numInfs` equal to that length; the
count invariant of the tracker written holds for the tracker read. -/
theorem DescriptiveWithinHostModel.checkpoint_infections
    (baseWrite : DescriptiveWithinHostModel → List StreamItem → List StreamItem)
    (baseRead : DescriptiveWithinHostModel → List StreamItem →
      Option (DescriptiveWithinHostModel × List StreamItem))
    (writeInfection : DescriptiveInfection → List StreamItem → List StreamItem)
    (readInfection : List StreamItem → Option (DescriptiveInfection × List StreamItem))
    (itemsOf : DescriptiveInfection → List StreamItem)
    (s t b : DescriptiveWithinHostModel) (baseItems : List StreamItem)
    (hwi : ∀ inf stream, writeInfection inf stream = stream ++ itemsOf inf)
    (hri : ∀ inf rest, readInfection (itemsOf inf ++ rest) = some (inf, rest))
    (hwb : ∀ stream, baseWrite s stream = stream ++ baseItems)
    (hrb : ∀ rest, baseRead t (baseItems ++ rest) = some (b, rest))
    (hbn : b.numInfs = s.numInfs) (hbi : b.infections = [])
    (hs : s.numInfs = (s.infections.length : Int)) :
    (∀ stream, s.checkpoint_ostream baseWrite writeInfection stream =
      stream ++ (baseItems ++ s.infections.foldr (fun inf acc => itemsOf inf ++ acc) [])) ∧
    ∀ rest, ∃ r,
      t.checkpoint_istream baseRead readInfection
        ((baseItems ++ s.infections.foldr (fun inf acc => itemsOf inf ++ acc) []) ++ rest) =
          some (.ok r, rest) ∧
      r.infections = s.infections ∧ r.infections.length = s.infections.length ∧
      r.numInfs = (r.infections.length : Int) ∧ r.numInfs = s.numInfs ∧
      (s.CountInvariant → r.CountInvariant) := by
  constructor
  · intro stream
    unfold DescriptiveWithinHostModel.checkpoint_ostream
    simp only [hwb]
    rw [DescriptiveWithinHostModel.writeInfections_eq writeInfection itemsOf hwi,
      List.append_assoc]
  · intro rest
    have hload := DescriptiveWithinHostModel.loadInfections_items readInfection itemsOf hri
      s.infections b rest
    have hn : b.numInfs.toNat = s.infections.length := by
      rw [hbn, hs]
      exact Int.toNat_ofNat _
    refine ⟨{ b with infections := s.infections }, ?_, rfl, rfl, ?_, hbn, ?_⟩
    · unfold DescriptiveWithinHostModel.checkpoint_istream
      rw [List.append_assoc, hrb]
      simp only [bind, Option.bind, hn, hload, hbi, List.nil_append]
      rw [if_pos (by rw [hbn, hs])]
    · show b.numInfs = (s.infections.length : Int)
      rw [hbn, hs]
    · intro hinv
      obtain ⟨h1, h2, h3⟩ := hinv
      refine ⟨?_, ?_, ?_⟩
      · show b.numInfs = (s.infections.length : Int)
        rw [hbn, hs]
      · show 0 ≤ b.numInfs
        rw [hbn]
        exact h2
      · show b.numInfs ≤ MAX_INFECTIONS
        rw [hbn]
        exact h3

theorem exampleReadInfection_items (inf : DescriptiveInfection) (rest : List StreamItem) :
    exampleReadInfection (exampleInfectionItems inf ++ rest) = some (inf, rest) := by
  obtain ⟨d, bs, ex⟩ := inf
  cases bs <;> cases ex <;> rfl

/-- C24, at a concrete state: the checkpoint of the tracker with five infections, read into a
fresh tracker, gives a tracker with the same five infections in the same order and
`numInfs = 5`, and leaves the stream empty. -/
theorem DescriptiveWithinHostModel.checkpoint_infections_witness :
    ∃ r, freshTracker.checkpoint_istream exampleTrackerRead exampleReadInfection
        (mixedTracker.checkpoint_ostream exampleTrackerWrite exampleWriteInfection []) =
          some (.ok r, []) ∧
      r.infections = mixedTracker.infections ∧ r.numInfs = 5 := by
  obtain ⟨hwrite, hread⟩ :=
    DescriptiveWithinHostModel.checkpoint_infections exampleTrackerWrite exampleTrackerRead
      exampleWriteInfection exampleReadInfection exampleInfectionItems
      mixedTracker freshTracker { freshTracker with numInfs := 5 } [StreamItem.int 5]
      (fun inf stream => rfl) exampleReadInfection_items (fun stream => rfl) (fun rest => rfl)
      rfl rfl rfl
  obtain ⟨r, hr, hinf, _, _, hnum, _⟩ := hread []
  have hw := hwrite []
  rw [List.nil_append] at hw
  rw [List.append_nil] at hr
  rw [hw]
  exact ⟨r, hr, hinf, hnum⟩

/-! ## DescriptiveWithinHostModel: clearInfections, repeated and composed -/

/-- The loop of `clearInfections`, run on what it left, erases nothing more. -/
theorem DescriptiveWithinHostModel.clearInfectionsLoop_idem (stage : Stages)
    (l : List DescriptiveInfection) :
    DescriptiveWithinHostModel.clearInfectionsLoop stage
      (DescriptiveWithinHostModel.clearInfectionsLoop stage l) =
        DescriptiveWithinHostModel.clearInfectionsLoop stage l := by
  simp only [DescriptiveWithinHostModel.clearInfectionsLoop_eq_filter, List.filter_filter,
    Bool.and_self]

/-- The loops for `LIVER` and for `BLOOD`, one after the other in either order, erase every
infection. -/
theorem DescriptiveWithinHostModel.clearInfectionsLoop_both (l : List DescriptiveInfection) :
    DescriptiveWithinHostModel.clearInfectionsLoop Stages.BLOOD
      (DescriptiveWithinHostModel.clearInfectionsLoop Stages.LIVER l) = [] ∧
    DescriptiveWithinHostModel.clearInfectionsLoop Stages.LIVER
      (DescriptiveWithinHostModel.clearInfectionsLoop Stages.BLOOD l) = [] ∧
    DescriptiveWithinHostModel.clearInfectionsLoop Stages.BOTH l = [] := by
  simp only [DescriptiveWithinHostModel.clearInfectionsLoop_eq_filter, List.filter_filter]
  refine ⟨?_, ?_, ?_⟩
  · rw [List.filter_eq_nil_iff]
    intro inf _
    cases hb : inf.bloodStage <;> simp [DescriptiveWithinHostModel.clearTest, hb]
  · rw [List.filter_eq_nil_iff]
    intro inf _
    cases hb : inf.bloodStage <;> simp [DescriptiveWithinHostModel.clearTest, hb]
  · rw [List.filter_eq_nil_iff]
    intro inf _
    simp [DescriptiveWithinHostModel.clearTest]

/-- C32: for every tracker and stage, `clearInfections(stage)` applied twice leaves the tracker
that one application leaves; `clearInfections(LIVER)` followed by `clearInfections(BLOOD)`,
and the two in the other order, leave the tracker that `clearInfections(BOTH)` leaves, whose
collection is empty; and `clearInfections` leaves `_cumulativeh`, `_cumulativeY` and
`_cumulativeYlag` as they were. -/
theorem DescriptiveWithinHostModel.clearInfections_idempotent (s : DescriptiveWithinHostModel)
    (stage : Stages) :
    (s.clearInfections stage).clearInfections stage = s.clearInfections stage ∧
    (s.clearInfections Stages.LIVER).clearInfections Stages.BLOOD
      = s.clearInfections Stages.BOTH ∧
    (s.clearInfections Stages.BLOOD).clearInfections Stages.LIVER
      = s.clearInfections Stages.BOTH ∧
    (s.clearInfections Stages.BOTH).infections = [] ∧
    (s.clearInfections stage)._cumulativeh = s._cumulativeh ∧
    (s.clearInfections stage)._cumulativeY = s._cumulativeY ∧
    (s.clearInfections stage)._cumulativeYlag = s._cumulativeYlag := by
  obtain ⟨h1, h2, h3⟩ := DescriptiveWithinHostModel.clearInfectionsLoop_both s.infections
  refine ⟨?_, ?_, ?_, h3, rfl, rfl, rfl⟩
  · simp only [DescriptiveWithinHostModel.clearInfections,
      DescriptiveWithinHostModel.clearInfectionsLoop_idem]
  · simp only [DescriptiveWithinHostModel.clearInfections, h1, h3]
  · simp only [DescriptiveWithinHostModel.clearInfections, h2, h3]

/-! ## SimpleMPDAnophelesModel: bounds of the emergence -/

/-- The emergence formula `p * y / (1 + g * y)` for `0 <= p <= 1`, `y >= 0` and `g >= 0`. -/
theorem emergence_formula_bounds (p y g : ℚ) (hp0 : 0 ≤ p) (hp1 : p ≤ 1) (hy : 0 ≤ y)
    (hg : 0 ≤ g) :
    0 ≤ p * y / (1 + g * y) ∧ p * y / (1 + g * y) ≤ p * y ∧ p * y ≤ y ∧
    (g = 0 → p * y / (1 + g * y) = p * y) ∧
    (0 < g → p * y / (1 + g * y) ≤ p / g ∧ (0 < p → p * y / (1 + g * y) < p / g)) := by
  have hgy : 0 ≤ g * y := mul_nonneg hg hy
  have hden : 0 < 1 + g * y := by linarith
  have hpy : 0 ≤ p * y := mul_nonneg hp0 hy
  refine ⟨div_nonneg hpy hden.le, ?_, ?_, ?_, ?_⟩
  · rw [div_le_iff₀ hden]
    nlinarith
  · nlinarith
  · intro h0
    rw [h0]
    simp
  · intro hpos
    constructor
    · rw [div_le_div_iff₀ hden hpos]
      nlinarith
    · intro hp
      rw [div_lt_div_iff₀ hden hpos]
      nlinarith

/-- The emergence formula does not fall when the eggs laid rise. -/
theorem emergence_formula_mono (p y1 y2 g : ℚ) (hp0 : 0 ≤ p) (hy1 : 0 ≤ y1) (hy : y1 ≤ y2)
    (hg : 0 ≤ g) :
    p * y1 / (1 + g * y1) ≤ p * y2 / (1 + g * y2) := by
  have hy2 : 0 ≤ y2 := le_trans hy1 hy
  have hd1 : 0 < 1 + g * y1 := by nlinarith [mul_nonneg hg hy1]
  have hd2 : 0 < 1 + g * y2 := by nlinarith [mul_nonneg hg hy2]
  rw [div_le_div_iff₀ hd1 hd2]
  have h : p * y1 ≤ p * y2 := mul_le_mul_of_nonneg_left hy hp0
  nlinarith [mul_nonneg hp0 (mul_nonneg hg (mul_nonneg hy1 hy2))]

/-- C31, as stated, fails where `probPreadultSurvival = 0`, which the constructor accepts: with
`g = 1 > 0` and `laid = 3 * 7 >= 0` the emergence is 0 and `probPreadultSurvival / g` is 0
too, so the emergence is not strictly below it. -/
theorem SimpleMPDAnophelesModel.emergence_counterexample :
    (0 : ℚ) ≤ barrenModel.probPreadultSurvival ∧ barrenModel.probPreadultSurvival ≤ 1 ∧
    vecGet barrenModel.nOvipositingDelayed ((0 + 1) % barrenModel.developmentDuration)
      = .ok 7 ∧
    (0 : ℚ) ≤ barrenModel.fEggsLaidByOviposit * 7 ∧
    vecGet barrenModel.invLarvalResources (0 % 365) = .ok 1 ∧
    (∃ m1, barrenModel.getEmergenceRate 0 [] 9 = .ok (0, m1)) ∧
    ¬ ((0 : ℚ) < barrenModel.probPreadultSurvival / 1) := by
  have hL : barrenModel.BufferLengths := by
    unfold SimpleMPDAnophelesModel.BufferLengths
    simp only [barrenModel, exampleModel, List.length_replicate, List.length_cons,
      List.length_nil, SimTime.fromYearsI, SimTime.oneYear]
    decide
  have hp : barrenModel.probPreadultSurvival = 0 := rfl
  have hg : vecGet barrenModel.invLarvalResources (0 % 365) = .ok 1 := by
    rw [vecGet_ok_getD _ (by decide)
      (by simp only [barrenModel, List.length_replicate]; decide)]
    exact congrArg Except.ok (getD_replicate_of_lt 365 1 (0 % 365) (by decide) (by decide))
  have hrun := barrenModel.getEmergenceRate_eq 0 [] 9 hL (by decide) (le_refl 0)
  rw [hp, zero_mul, zero_div] at hrun
  refine ⟨by rw [hp], by rw [hp]; norm_num, rfl, ?_, hg, ⟨_, hrun⟩, ?_⟩
  · simp only [barrenModel, exampleModel]
    norm_num
  · rw [hp]
    norm_num

/-- C31, amended: for every state with `0 <= probPreadultSurvival = p <= 1`, `laid >= 0` and
`invLarvalResources[d0 mod 365] = g >= 0`, the value that `getEmergenceRate` returns satisfies
`0 <= emergence <= p * laid <= laid`; it equals `p * laid` when `g = 0`, is at most `p / g`
when `g > 0` and strictly below `p / g` when also `p > 0`; and it does not fall when `laid`
rises, `p` and `g` staying as they are. -/
theorem SimpleMPDAnophelesModel.getEmergenceRate_bounds (m : SimpleMPDAnophelesModel)
    (d0 : Int) (hL : m.BufferLengths) (hD : 0 < m.developmentDuration) (hd : 0 ≤ d0)
    (hp0 : 0 ≤ m.probPreadultSurvival) (hp1 : m.probPreadultSurvival ≤ 1) :
    ∃ delayed g : ℚ,
      vecGet m.nOvipositingDelayed ((d0 + 1) % m.developmentDuration) = .ok delayed ∧
      vecGet m.invLarvalResources (d0 % 365) = .ok g ∧
      (0 ≤ m.fEggsLaidByOviposit * delayed → 0 ≤ g →
        ∀ (mosqEmergeRate : List ℚ) (n : ℚ), ∃ e m1,
          m.getEmergenceRate d0 mosqEmergeRate n = .ok (e, m1) ∧
          0 ≤ e ∧ e ≤ m.probPreadultSurvival * (m.fEggsLaidByOviposit * delayed) ∧
          m.probPreadultSurvival * (m.fEggsLaidByOviposit * delayed)
            ≤ m.fEggsLaidByOviposit * delayed ∧
          (g = 0 → e = m.probPreadultSurvival * (m.fEggsLaidByOviposit * delayed)) ∧
          (0 < g → e ≤ m.probPreadultSurvival / g ∧
            (0 < m.probPreadultSurvival → e < m.probPreadultSurvival / g)) ∧
          ∀ (m2 : SimpleMPDAnophelesModel) (delayed2 : ℚ),
            m2.BufferLengths → 0 < m2.developmentDuration →
            m2.probPreadultSurvival = m.probPreadultSurvival →
            vecGet m2.invLarvalResources (d0 % 365) = .ok g →
            vecGet m2.nOvipositingDelayed ((d0 + 1) % m2.developmentDuration) = .ok delayed2 →
            m.fEggsLaidByOviposit * delayed ≤ m2.fEggsLaidByOviposit * delayed2 →
            ∀ (mosqEmergeRate2 : List ℚ) (n2 : ℚ), ∃ e2 m3,
              m2.getEmergenceRate d0 mosqEmergeRate2 n2 = .ok (e2, m3) ∧ e ≤ e2) := by
  obtain ⟨⟨_, a1, b1⟩, ⟨_, a2, b2⟩, _⟩ := m.emergence_indices d0 hL hD hd
  refine ⟨_, _, vecGet_ok_getD _ a1 b1, vecGet_ok_getD _ a2 b2, ?_⟩
  intro hy hg er n
  obtain ⟨c1, c2, c3, c4, c5⟩ := emergence_formula_bounds m.probPreadultSurvival
    (m.fEggsLaidByOviposit * m.nOvipositingDelayed.getD ((d0 + 1) % m.developmentDuration).toNat 0)
    (m.invLarvalResources.getD (d0 % 365).toNat 0) hp0 hp1 hy hg
  refine ⟨_, _, m.getEmergenceRate_eq d0 er n hL hD hd, c1, c2, c3, c4, c5, ?_⟩
  intro m2 delayed2 hL2 hD2 hp2 hg2 hdel2 hle er2 n2
  obtain ⟨⟨_, a3, b3⟩, ⟨_, a4, b4⟩, _⟩ := m2.emergence_indices d0 hL2 hD2 hd
  rw [vecGet_ok_getD _ a4 b4] at hg2
  rw [vecGet_ok_getD _ a3 b3] at hdel2
  have e1 := Except.ok.inj hg2
  have e2 := Except.ok.inj hdel2
  refine ⟨_, _, m2.getEmergenceRate_eq d0 er2 n2 hL2 hD2 hd, ?_⟩
  rw [hp2, e1, e2]
  rw [← e2]
  exact emergence_formula_mono _ _ _ _ hp0 hy (by rw [e2]; exact hle) hg

theorem crowdedModel_lengths : crowdedModel.BufferLengths := by
  unfold SimpleMPDAnophelesModel.BufferLengths
  simp only [crowdedModel, exampleModel, List.length_replicate, List.length_cons,
    List.length_nil, SimTime.fromYearsI, SimTime.oneYear]
  decide

theorem denserModel_lengths : denserModel.BufferLengths := by
  unfold SimpleMPDAnophelesModel.BufferLengths
  simp only [denserModel, crowdedModel, exampleModel, List.length_replicate, List.length_cons,
    List.length_nil, SimTime.fromYearsI, SimTime.oneYear]
  decide

/-- C31, amended, at a concrete state: with survival `1/2`, `laid = 3 * 7 = 21` and `g = 1/3`
the emergence lies between 0 and `21/2` and strictly below `(1/2) / (1/3) = 3/2`; with 8 in
place of 7 in the delay line the emergence is not smaller. -/
theorem SimpleMPDAnophelesModel.getEmergenceRate_bounds_witness :
    ∃ e m1, crowdedModel.getEmergenceRate 0 [] 9 = .ok (e, m1) ∧
      0 ≤ e ∧ e ≤ 21 / 2 ∧ e < 3 / 2 ∧
      ∃ e2 m3, denserModel.getEmergenceRate 0 [] 9 = .ok (e2, m3) ∧ e ≤ e2 := by
  have hg : ∀ m : SimpleMPDAnophelesModel,
      m.invLarvalResources = List.replicate 365 (1 / 3) →
      vecGet m.invLarvalResources (0 % 365) = .ok (1 / 3) := by
    intro m hm
    rw [hm, vecGet_ok_getD _ (by decide) (by simp only [List.length_replicate]; decide)]
    exact congrArg Except.ok (getD_replicate_of_lt 365 (1 / 3) (0 % 365) (by decide)
      (by decide))
  obtain ⟨delayed, g, hdel, hres, hall⟩ :=
    SimpleMPDAnophelesModel.getEmergenceRate_bounds crowdedModel 0 crowdedModel_lengths
      (by decide) (le_refl 0)
      (by simp only [crowdedModel, exampleModel]; norm_num)
      (by simp only [crowdedModel, exampleModel]; norm_num)
  have hdel1 : vecGet crowdedModel.nOvipositingDelayed
      ((0 + 1) % crowdedModel.developmentDuration) = .ok 7 := rfl
  rw [hdel1] at hdel
  rw [hg crowdedModel rfl] at hres
  have ed := Except.ok.inj hdel
  have eg := Except.ok.inj hres
  subst ed
  subst eg
  have hp : crowdedModel.probPreadultSurvival = 1 / 2 := rfl
  have hf : crowdedModel.fEggsLaidByOviposit = 3 := rfl
  have hf2 : denserModel.fEggsLaidByOviposit = 3 := rfl
  rw [hp, hf] at hall
  obtain ⟨e, m1, hrun, h0, h1, _, _, h4, hmono⟩ :=
    hall (by norm_num) (by norm_num) [] 9
  obtain ⟨h5, h6⟩ := h4 (by norm_num)
  obtain ⟨e2, m3, hrun2, hle⟩ := hmono denserModel 8 denserModel_lengths (by decide) rfl
    (hg denserModel rfl) rfl (by rw [hf2]; norm_num) [] 9
  refine ⟨e, m1, hrun, h0, ?_, ?_, e2, m3, hrun2, hle⟩
  · calc e ≤ 1 / 2 * (3 * 7) := h1
      _ = 21 / 2 := by norm_num
  · calc e < 1 / 2 / (1 / 3) := h6 (by norm_num)
      _ = 3 / 2 := by norm_num

end OM
